import Mathlib

/-!
# JuPedSim core (jpscore): the velocity model and the simulation loops

A shallow embedding of `VelocityModel` (Tordeux 2015, first-order model) of
`libcore/src/math/VelocityModel.cpp`, of `Simulation` of
`libcore/src/Simulation.cpp`, of `Simulation` of
`libsimulator/src/Simulation.cpp` and of `AccessPoint` of
`libcore/src/routing/global_shortest/AccessPoint.cpp`.  The two simulations
are state records passed from call to call; the order of the steps of a tick
is stated by what each step is handed from the steps before it, and each
simulation also keeps the list of the calls it has made.

Numbers: the C++ `double` is idealised as a linearly ordered field `K`
(rounding is not modelled; of the infinities and NaN only those of the
division by a time gap of zero in `OptimalSpeed` are followed, through the two
comparisons that consume them).  All definitions are
computable for a computable `K` such as `ℚ`; theorems that need the analytic
meaning of `sqrt` are stated under `IsSqrt`, which `Real.sqrt` satisfies.

Code that the translation units under study call but that lives elsewhere in
the repository (`Point`, `Line`, `Pedestrian`, `SubRoom`, `Building`,
`Macros.h`) enters either as a definition marked "Modelled from the spec" or
as a field of `Externals`.
-/

namespace VelocityModel

/-! ## Data model -/

/-- Modelled from the spec: `Point` (Point.h and Point.cpp lie outside the
files studied here), a position or vector in the plane, "p ∈ ℝ²". -/
structure Point (K : Type) where
  x : K
  y : K
deriving DecidableEq, Repr

namespace Point

variable {K : Type} [LinearOrderedField K]

instance : Zero (Point K) := ⟨⟨0, 0⟩⟩

/-- Modelled from the spec: `Point::operator+`, componentwise sum. -/
instance : Add (Point K) := ⟨fun p q => ⟨p.x + q.x, p.y + q.y⟩⟩

/-- Modelled from the spec: `Point::operator-`, componentwise difference
("target − pᵢ", "pt − p_i"). -/
instance : Sub (Point K) := ⟨fun p q => ⟨p.x - q.x, p.y - q.y⟩⟩

/-- Modelled from the spec: `operator*(Point, double)`, scaling by a scalar
("vᵢ·dT", "e_ij · (−a_ped · …)"). -/
def smul (p : Point K) (f : K) : Point K := ⟨p.x * f, p.y * f⟩

/-- Modelled from the spec: `operator/(Point, double)`, division by a scalar
("(pt − p_i)/d"). -/
def sdiv (p : Point K) (f : K) : Point K := ⟨p.x / f, p.y / f⟩

/-- Modelled from the spec: `Point::NormSquare`, the squared Euclidean length
("‖e₀‖²"). -/
def NormSquare (p : Point K) : K := p.x * p.x + p.y * p.y

/-- Modelled from the spec: `Point::ScalarProduct`, the inner product
("⟨dᵢ, e_ij⟩"). -/
def ScalarProduct (p q : Point K) : K := p.x * q.x + p.y * q.y

/-- Modelled from the spec: `Point::Rotate(ctheta, stheta)`, the rotation by the
angle with the given cosine and sine; `Rotate 0 1` is the perpendicular "dᵢ⊥". -/
def Rotate (p : Point K) (ctheta stheta : K) : Point K :=
  ⟨p.x * ctheta - p.y * stheta, p.x * stheta + p.y * ctheta⟩

/-- Modelled from the spec: `Point::Norm`, the Euclidean length "‖p‖", computed
with the square root `sqrt` of `<cmath>`. -/
def Norm (sqrt : K → K) (p : Point K) : K := sqrt p.NormSquare

/-- Modelled from the spec: `Point::Normalized`, "dᵢ/‖dᵢ‖".  A vector that is no
longer than `zeroLen` has no direction and yields the zero vector; with
`zeroLen = 0` this is the spec's quotient for every non-zero vector. -/
def Normalized (sqrt : K → K) (zeroLen : K) (p : Point K) : Point K :=
  if Norm sqrt p > zeroLen then p.sdiv (Norm sqrt p) else 0

end Point

/-- The meaning of `sqrt` on the values it is applied to: the non-negative
root of a non-negative number. -/
def IsSqrt {K : Type} [LinearOrderedField K] (sqrt : K → K) : Prop :=
  ∀ a : K, 0 ≤ a → 0 ≤ sqrt a ∧ sqrt a * sqrt a = a

/-- Modelled from the spec: `Line` (Line.h lies outside the files studied
here), a segment between two points: a wall, a door or an exit line. -/
structure Line (K : Type) where
  p1 : Point K
  p2 : Point K
deriving DecidableEq, Repr

/-- Modelled from the spec: the part of `Pedestrian` (Pedestrian.h lies outside
the files studied here) that the velocity model reads or writes.  The getters
`GetUID`, `GetPos`, `GetV`, `GetV0()`, `GetV0Norm`, `GetT`,
`GetEllipse().GetBmax()`, `GetExitLine`, `GetLastE0`, `IsWaiting` are the
fields; `SetPos`, `SetV`, `SetLastE0` are updates of the field they name.
`Premovement` is the "premovement end time t₀", `SmoothTurning` the mark set
by `SetSmoothTurning` ("mark for smooth turning"), `PhiPed` the orientation
written by `SetPhiPed`. -/
structure Pedestrian (K : Type) where
  UID : Int
  Pos : Point K
  V : Point K
  V0 : Point K
  V0Norm : K
  T : K
  Bmax : K
  ExitLine : Line K
  LastE0 : Point K
  IsWaiting : Bool
  Premovement : K
  SmoothTurning : Bool
  PhiPed : Point K
deriving DecidableEq, Repr

/-- Modelled from the spec: `DoorState`, "DoorState ∈ {OPEN, TEMP_CLOSE, CLOSE}". -/
inductive DoorState where
  | OPEN
  | TEMP_CLOSE
  | CLOSE
deriving DecidableEq, Repr

/-- Modelled from the spec: `Transition`, a door: a `Line` (the code casts it
with `static_cast<Line *>`) that carries a `DoorState` and is known by its
unique id (`GetUniqueID`). -/
structure Transition (K : Type) where
  UniqueID : Int
  line : Line K
  State : DoorState
deriving DecidableEq, Repr

/-- Modelled from the spec: `Transition::IsOpen`, the door is in state OPEN. -/
def Transition.IsOpen {K : Type} (t : Transition K) : Bool :=
  decide (t.State = DoorState.OPEN)

/-- Modelled from the spec: `Obstacle`, a closed polyline inside a subroom;
`GetAllWalls` is the field. -/
structure Obstacle (K : Type) where
  AllWalls : List (Line K)
deriving DecidableEq, Repr

/-- Modelled from the spec: `SubRoom`: "a SubRoom owns polylines (Walls),
Obstacles, Transitions"; `GetCentroid`, `GetAllWalls`, `GetAllObstacles`,
`GetAllTransitions`, `GetRoomID`, `GetSubRoomID` are the fields. -/
structure SubRoom (K : Type) where
  RoomID : Int
  SubRoomID : Int
  Centroid : Point K
  AllWalls : List (Line K)
  AllObstacles : List (Obstacle K)
  AllTransitions : List (Transition K)
deriving DecidableEq, Repr

/-- A `Pedestrian *`: the identity of an agent object. -/
abbrev PedPtr := Nat

/-- A `Room *`. -/
abbrev RoomPtr := Nat

/-- A `SubRoom *`. -/
abbrev SubRoomPtr := Nat

/-- The agent objects, by pointer. -/
abbrev Store (K : Type) := PedPtr → Pedestrian K

/-- What the velocity model takes from outside its translation unit:
`<cmath>`, the constants of Macros.h, and the geometry queries of `Line`,
`SubRoom`, `Obstacle`, `Building`, `NeighborhoodSearch` and `Pedestrian`
whose bodies lie outside the files studied here. -/
structure Externals (K : Type) where
  -- <cmath>
  sqrt : K → K
  exp : K → K
  -- Macros.h
  J_EPS : K
  J_EPS_GOAL : K
  J_EPS_V : K
  -- the length under which Point::Normalized returns the zero vector
  zeroLen : K
  -- Line::ShortestPoint, Line::DistTo, Line::DistToSquare
  ShortestPoint : Line K → Point K → Point K
  DistTo : Line K → Point K → K
  DistToSquare : Line K → Point K → K
  -- SubRoom::IsInSubRoom, SubRoom::IsDirectlyConnectedWith, Obstacle::Contains
  IsInSubRoom : SubRoom K → Point K → Bool
  IsDirectlyConnectedWith : SubRoomPtr → SubRoomPtr → Bool
  Contains : Obstacle K → Point K → Bool
  -- Building::GetRoomAndSubRoom, the object behind a SubRoom *, Building::IsVisible
  GetRoomAndSubRoom : Point K → RoomPtr × SubRoomPtr
  SubRoomAt : SubRoomPtr → SubRoom K
  IsVisible : Point K → Point K → List SubRoomPtr → Bool → Bool
  -- NeighborhoodSearch::GetNeighbourhood
  GetNeighbourhood : Pedestrian K → List PedPtr
  -- Pedestrian::GetV0(const Point &): the desired direction towards a target
  GetV0Target : Pedestrian K → Point K → Point K
  -- the orientation Pedestrian::SetPhiPed computes
  Phi : Pedestrian K → Point K

/-- Modelled from the spec: `DirectionManager`: `GetTarget` gives the tactical
target of an agent; `LocalFloorfield` tells whether the direction strategy is a
`DirectionLocalFloorfield` ("a Floorfield strategy is active"). -/
structure DirectionManager (K : Type) where
  GetTarget : RoomPtr → Pedestrian K → Point K
  LocalFloorfield : Bool

/-- The members of `VelocityModel` (constructor, VelocityModel.cpp:45-59);
`_direction` is a shared pointer and may be null. -/
structure Model (K : Type) where
  _direction : Option (DirectionManager K)
  _aPed : K
  _DPed : K
  _aWall : K
  _DWall : K

/-- A `my_pair`: a distance and the id of the neighbour it belongs to. -/
abbrev my_pair (K : Type) := K × K

section Code

variable {K : Type} [LinearOrderedField K]

/-- The constant `FLT_MAX` of `<cfloat>`. -/
def FLT_MAX : K := 340282346638528859811704183484516925440

/-- Modelled from the spec: `Pedestrian::InPremovement`: the agent is not yet
"past its premovement time". -/
def Pedestrian.InPremovement (ped : Pedestrian K) (now : K) : Bool :=
  decide (now ≤ ped.Premovement)

/-- Modelled from the spec: `Pedestrian::SetSmoothTurning`, "mark for smooth
turning". -/
def Pedestrian.SetSmoothTurning (ped : Pedestrian K) : Pedestrian K :=
  { ped with SmoothTurning := true }

/-- Modelled from the spec: `Pedestrian::SetPhiPed`, "update orientation". -/
def Pedestrian.SetPhiPed (ext : Externals K) (ped : Pedestrian K) : Pedestrian K :=
  { ped with PhiPed := ext.Phi ped }

/-- Modelled from the spec: `Pedestrian::GetV0(const Point & target)`: the
desired direction is turned towards the target, stored, and returned
("e₀ = direction-to-target"; `GetV0()` then gives the "previous e₀"). -/
def Pedestrian.GetV0To (ext : Externals K) (ped : Pedestrian K) (target : Point K) :
    Point K × Pedestrian K :=
  let v0 := ext.GetV0Target ped target
  (v0, { ped with V0 := v0 })

/-- The function `VelocityModel::OptimalSpeed` (VelocityModel.cpp:208-219).  The
quotient `(spacing - l) / T` is a division of `double`: for `T = 0` (the
positive zero) it is `+inf` when `spacing - l > 0`, so that `speed > 0` holds,
`speed < v0` fails and `v0` is returned; it is `-inf` or NaN otherwise, so that
`speed > 0` fails, `speed` is set to 0, and the second comparison decides
between 0 and `v0`. -/
def OptimalSpeed (ped : Pedestrian K) (spacing : K) : K :=
  let v0 := ped.V0Norm
  let T := ped.T
  let l := 2 * ped.Bmax
  if T = 0 then
    if spacing - l > 0 then v0
    else
      let speed : K := 0
      let speed := if speed < v0 then speed else v0
      speed
  else
    let speed := (spacing - l) / T
    let speed := if speed > 0 then speed else 0
    let speed := if speed < v0 then speed else v0
    speed

/-- The function `VelocityModel::GetSpacing` (VelocityModel.cpp:222-249); `none` is
`exit(EXIT_FAILURE)`. -/
def GetSpacing (ext : Externals K) (ped1 ped2 : Pedestrian K) (ei : Point K) :
    Option (my_pair K) :=
  let distp12 := ped2.Pos - ped1.Pos
  let Distance := distp12.Norm ext.sqrt
  let l := 2 * ped1.Bmax
  if Distance ≥ ext.J_EPS then
    let ep12 := distp12.Normalized ext.sqrt ext.zeroLen
    let condition1 := ei.ScalarProduct ep12
    let condition2 := (ei.Rotate 0 1).ScalarProduct ep12
    let condition2 := if condition2 > 0 then condition2 else -condition2
    if condition1 ≥ 0 ∧ condition2 ≤ l / Distance then
      some (distp12.Norm ext.sqrt, (ped2.UID : K))
    else
      some (FLT_MAX, (ped2.UID : K))
  else
    none

/-- The function `VelocityModel::ForceRepPed` (VelocityModel.cpp:250-289); `none` is
`exit(EXIT_FAILURE)`.  The locals `ei` and `condition1` are computed as in the
code and, as in the code, not used for the result. -/
def ForceRepPed (ext : Externals K) (m : Model K) (ped1 ped2 : Pedestrian K) :
    Option (Point K) :=
  let distp12 := ped2.Pos - ped1.Pos
  let Distance := distp12.Norm ext.sqrt
  let l := 2 * ped1.Bmax
  if Distance ≥ ext.J_EPS then
    let ep12 := distp12.Normalized ext.sqrt ext.zeroLen
    let ei := ped1.V.Normalized ext.sqrt ext.zeroLen
    let ei := if ped1.V.NormSquare < 1 / 100 then ped1.V0.Normalized ext.sqrt ext.zeroLen else ei
    let condition1 := ei.ScalarProduct ep12
    let _condition1 := if condition1 > 0 then condition1 else 0
    let R_ij := -m._aPed * ext.exp ((l - Distance) / m._DPed)
    some (ep12.smul R_ij)
  else
    none

/-- The direction `e_iw` that `VelocityModel::ForceRepWall` computes before
it looks at the exit line (VelocityModel.cpp:332-360). -/
def ForceRepWall_e_iw (ext : Externals K) (ped : Pedestrian K) (w : Line K)
    (centroid : Point K) (inside : Bool) : Point K :=
  let pt := ext.ShortestPoint w ped.Pos
  let dist := pt - ped.Pos
  let EPS : K := 0
  let Distance := dist.Norm ext.sqrt + EPS
  let min_distance_to_wall : K := 1 / 1000
  if Distance > min_distance_to_wall then
    dist.sdiv Distance
  else
    let new_dist := centroid - ped.Pos
    let new_dist := new_dist.sdiv (new_dist.Norm ext.sqrt)
    if inside then new_dist else new_dist.smul (-1)

/-- The function `VelocityModel::ForceRepWall` (VelocityModel.cpp:326-373). -/
def ForceRepWall (ext : Externals K) (m : Model K) (ped : Pedestrian K) (w : Line K)
    (centroid : Point K) (inside : Bool) : Point K :=
  let F_wrep : Point K := 0
  let pt := ext.ShortestPoint w ped.Pos
  let dist := pt - ped.Pos
  let EPS : K := 0
  let Distance := dist.Norm ext.sqrt + EPS
  let e_iw := ForceRepWall_e_iw ext ped w centroid inside
  let l := ped.Bmax
  let pos := ped.Pos
  let distGoal := ext.DistToSquare ped.ExitLine pos
  if distGoal < ext.J_EPS_GOAL * ext.J_EPS_GOAL then
    F_wrep
  else
    let R_iw := -m._aWall * ext.exp ((l - Distance) / m._DWall)
    e_iw.smul R_iw

/-- The loop over the obstacles in `VelocityModel::ForceRepRoom`
(VelocityModel.cpp:302-314); `none` is `exit(EXIT_FAILURE)`. -/
def ForceRepRoom_obstacles (ext : Externals K) (m : Model K) (ped : Pedestrian K)
    (centroid : Point K) (inside : Bool) : List (Obstacle K) → Point K → Option (Point K)
  | [], f => some f
  | obst :: rest, f =>
    if ext.Contains obst ped.Pos then
      none
    else
      ForceRepRoom_obstacles ext m ped centroid inside rest
        (obst.AllWalls.foldl (fun f wall => f + ForceRepWall ext m ped wall centroid inside) f)

/-- The function `VelocityModel::ForceRepRoom` (VelocityModel.cpp:291-324); `none` is
`exit(EXIT_FAILURE)`. -/
def ForceRepRoom (ext : Externals K) (m : Model K) (ped : Pedestrian K)
    (subroom : SubRoom K) : Option (Point K) :=
  let f : Point K := 0
  let centroid := subroom.Centroid
  let inside := ext.IsInSubRoom subroom centroid
  let f := subroom.AllWalls.foldl
    (fun f wall => f + ForceRepWall ext m ped wall centroid inside) f
  match ForceRepRoom_obstacles ext m ped centroid inside subroom.AllObstacles f with
  | none => none
  | some f =>
    some (subroom.AllTransitions.foldl
      (fun f trans =>
        if !trans.IsOpen then f + ForceRepWall ext m ped trans.line centroid inside else f) f)

/-- The function `VelocityModel::e0` (VelocityModel.cpp:165-205): the desired direction and
the pedestrian as the call leaves it.  With `_direction` null the code draws a
random exit line and then dereferences `_direction` (line 192): that call has
no result, `none`. -/
def e0 (ext : Externals K) (m : Model K) (ped : Pedestrian K) (room : RoomPtr) :
    Option (Point K × Pedestrian K) :=
  match m._direction with
  | none => none
  | some dir =>
    let target := dir.GetTarget room ped
    let pos := ped.Pos
    let dist := ext.DistTo ped.ExitLine pos
    let lastE0 := ped.LastE0
    let ped := { ped with LastE0 := target - pos }
    if dir.LocalFloorfield then
      let desired_direction := target - pos
      if desired_direction.NormSquare < 1 / 4 ∧ ped.IsWaiting = false then
        some (lastE0, { ped with LastE0 := lastE0 })
      else
        some (desired_direction, ped)
    else if dist > ext.J_EPS_GOAL then
      some (ped.GetV0To ext target)
    else
      let ped := ped.SetSmoothTurning
      some (ped.V0, ped)

/-- The first loop over the neighbours in `ComputeNextTimeStep`
(VelocityModel.cpp:77-101): the sum of the pedestrian repulsion. -/
def ComputeNextTimeStep_repPed (ext : Externals K) (m : Model K) (store : Store K)
    (ped : Pedestrian K) (room : RoomPtr) (subroom : SubRoomPtr) :
    List PedPtr → Point K → Option (Point K)
  | [], repPed => some repPed
  | n :: rest, repPed =>
    let ped1 := store n
    let p1 := ped.Pos
    let p2 := ped1.Pos
    let (room1, subroom1) := ext.GetRoomAndSubRoom ped1.Pos
    let emptyVector := [subroom, subroom1]
    let isVisible := ext.IsVisible p1 p2 emptyVector false
    if !isVisible then
      ComputeNextTimeStep_repPed ext m store ped room subroom rest repPed
    else if room = room1 ∧ subroom = subroom1 then
      match ForceRepPed ext m ped ped1 with
      | none => none
      | some f => ComputeNextTimeStep_repPed ext m store ped room subroom rest (repPed + f)
    else if ext.IsDirectlyConnectedWith subroom subroom1 then
      match ForceRepPed ext m ped ped1 with
      | none => none
      | some f => ComputeNextTimeStep_repPed ext m store ped room subroom rest (repPed + f)
    else
      ComputeNextTimeStep_repPed ext m store ped room subroom rest repPed

/-- The second loop over the neighbours in `ComputeNextTimeStep`
(VelocityModel.cpp:107-120): the spacings pushed to the back of `spacings`. -/
def ComputeNextTimeStep_spacings (ext : Externals K) (store : Store K)
    (ped : Pedestrian K) (room : RoomPtr) (subroom : SubRoomPtr) (direction : Point K) :
    List PedPtr → List (my_pair K) → Option (List (my_pair K))
  | [], spacings => some spacings
  | n :: rest, spacings =>
    let ped1 := store n
    let (room1, subroom1) := ext.GetRoomAndSubRoom ped1.Pos
    if room = room1 ∧ subroom = subroom1 then
      match GetSpacing ext ped ped1 direction with
      | none => none
      | some s =>
        ComputeNextTimeStep_spacings ext store ped room subroom direction rest (spacings ++ [s])
    else if ext.IsDirectlyConnectedWith subroom subroom1 then
      match GetSpacing ext ped ped1 direction with
      | none => none
      | some s =>
        ComputeNextTimeStep_spacings ext store ped room subroom direction rest (spacings ++ [s])
    else
      ComputeNextTimeStep_spacings ext store ped room subroom direction rest spacings

/-- Modelled from the spec: `sort_pred` (VelocityModel.h lies outside the files
studied here): the order that brings the smallest distance to the front
("take the minimum"); equal distances are ordered by the second component. -/
def sort_pred (left right : my_pair K) : Bool :=
  if left.1 = right.1 then decide (left.2 > right.2) else decide (left.1 < right.1)

/-- The spacing chosen from the sorted `spacings`
(VelocityModel.cpp:125-126): `std::sort` with `sort_pred`, then the first
component of the front, or 100 when the vector is empty. -/
def ComputeNextTimeStep_minSpacing (spacings : List (my_pair K)) : K :=
  let spacings := spacings.insertionSort (fun a b => sort_pred b a = false)
  match spacings with
  | [] => 100
  | front :: _ => front.1

/-- The body of the first loop over the agents in `ComputeNextTimeStep`
(VelocityModel.cpp:70-146) for the agent behind `i`: `.ok` is the store as
`e0` leaves it with the velocity pushed to `result_acc`; `.error` is the store
at the moment the process exits. -/
def ComputeNextTimeStep_ped (ext : Externals K) (m : Model K) (store : Store K)
    (i : PedPtr) : Except (Store K) (Store K × Point K) :=
  let ped := store i
  let (room, subroom) := ext.GetRoomAndSubRoom ped.Pos
  let repPed : Point K := 0
  let neighbours := ext.GetNeighbourhood ped
  match ComputeNextTimeStep_repPed ext m store ped room subroom neighbours repPed with
  | none => .error store
  | some repPed =>
    match ForceRepRoom ext m ped (ext.SubRoomAt subroom) with
    | none => .error store
    | some repWall =>
      match e0 ext m ped room with
      | none => .error store
      | some (e, ped) =>
        let store := Function.update store i ped
        let direction := e + repPed + repWall
        match ComputeNextTimeStep_spacings ext store ped room subroom direction neighbours [] with
        | none => .error store
        | some spacings =>
          let spacing := ComputeNextTimeStep_minSpacing spacings
          let speed := (direction.Normalized ext.sqrt ext.zeroLen).smul (OptimalSpeed ped spacing)
          .ok (store, speed)

/-- The first loop of `ComputeNextTimeStep` (VelocityModel.cpp:70-146) over the
agents `allPeds`; a fatal exit hands back the store as it is at that moment. -/
def ComputeNextTimeStep_velocities (ext : Externals K) (m : Model K) :
    Store K → List PedPtr → List (Point K) → Except (Store K) (Store K × List (Point K))
  | store, [], result_acc => .ok (store, result_acc)
  | store, i :: rest, result_acc =>
    match ComputeNextTimeStep_ped ext m store i with
    | .error store => .error store
    | .ok (store, speed) =>
      ComputeNextTimeStep_velocities ext m store rest (result_acc ++ [speed])

/-- The body of the second loop of `ComputeNextTimeStep`
(VelocityModel.cpp:151-160) for one agent and its new velocity. -/
def ComputeNextTimeStep_updatePed (ext : Externals K) (current deltaT : K)
    (ped : Pedestrian K) (v_neu : Point K) : Pedestrian K :=
  let pos_neu := ped.Pos + v_neu.smul deltaT
  let ped := if v_neu.Norm ext.sqrt ≥ ext.J_EPS_V then ped.SetPhiPed ext else ped
  if !ped.InPremovement current then
    { ped with Pos := pos_neu, V := v_neu }
  else
    ped

/-- The second loop of `ComputeNextTimeStep` (VelocityModel.cpp:148-162);
`result_acc[counter]` is read with the loop counter. -/
def ComputeNextTimeStep_update (ext : Externals K) (current deltaT : K)
    (result_acc : List (Point K)) : Store K → List PedPtr → Nat → Store K
  | store, [], _ => store
  | store, i :: rest, counter =>
    let v_neu := result_acc.getD counter 0
    let ped := ComputeNextTimeStep_updatePed ext current deltaT (store i) v_neu
    ComputeNextTimeStep_update ext current deltaT result_acc
      (Function.update store i ped) rest (counter + 1)

/-- The function `VelocityModel::ComputeNextTimeStep` (VelocityModel.cpp:61-163) on the
agents `allPeds` of the simulation, kept in `store`.  `.ok` is the store after
the step, `.error` the store at the moment of a fatal exit. -/
def ComputeNextTimeStep (ext : Externals K) (m : Model K) (current deltaT : K)
    (store : Store K) (allPeds : List PedPtr) : Except (Store K) (Store K) :=
  match ComputeNextTimeStep_velocities ext m store allPeds [] with
  | .error store => .error store
  | .ok (store, result_acc) =>
    .ok (ComputeNextTimeStep_update ext current deltaT result_acc store allPeds 0)

/-! ### Notions used to state the properties of a step -/

/-- Two stores hold, behind every pointer, agents with the same position and
the same id. -/
def SamePositions (s s' : Store K) : Prop :=
  ∀ j, (s j).Pos = (s' j).Pos ∧ (s j).UID = (s' j).UID

/-- What the first loop of `ComputeNextTimeStep` leaves of an agent: only the
desired-direction state that `e0` writes (`LastE0`, `V0`, `SmoothTurning`) may
differ between `p` and `q`. -/
def Pedestrian.SameBody (p q : Pedestrian K) : Prop :=
  q = { p with LastE0 := q.LastE0, V0 := q.V0, SmoothTurning := q.SmoothTurning }

/-- The agent behind `i` as its iteration of the first loop leaves it, and the
velocity computed for it, when the iteration is run on `store`. -/
def ComputeNextTimeStep_pedResult (ext : Externals K) (m : Model K) (store : Store K)
    (i : PedPtr) : Option (Pedestrian K × Point K) :=
  match ComputeNextTimeStep_ped ext m store i with
  | .ok r => some (r.1 i, r.2)
  | .error _ => none

/-- Every agent of `s'` is the agent of `s` behind the same pointer, up to the
desired-direction state written by `e0`. -/
def SameBodies (s s' : Store K) : Prop :=
  ∀ j, (s j).SameBody (s' j)

/-- The agent behind `i` after a whole step whose first loop is run on
`store`: the second loop applied to what the first loop computed for it. -/
def ComputeNextTimeStep_pedFinal (ext : Externals K) (m : Model K) (current deltaT : K)
    (store : Store K) (i : PedPtr) : Option (Pedestrian K) :=
  (ComputeNextTimeStep_pedResult ext m store i).map
    (fun r => ComputeNextTimeStep_updatePed ext current deltaT r.1 r.2)

/-- The test that both loops over the neighbours apply to the subroom of a
neighbour (VelocityModel.cpp:93-97 and 112-116): the same room and subroom, or
a directly connected subroom. -/
def ComputeNextTimeStep_connected (ext : Externals K) (store : Store K) (room : RoomPtr)
    (subroom : SubRoomPtr) (n : PedPtr) : Bool :=
  let (room1, subroom1) := ext.GetRoomAndSubRoom (store n).Pos
  decide (room = room1 ∧ subroom = subroom1) || ext.IsDirectlyConnectedWith subroom subroom1

/-- The visibility test of the first loop over the neighbours
(VelocityModel.cpp:84-92). -/
def ComputeNextTimeStep_visible (ext : Externals K) (store : Store K) (ped : Pedestrian K)
    (subroom : SubRoomPtr) (n : PedPtr) : Bool :=
  ext.IsVisible ped.Pos (store n).Pos
    [subroom, (ext.GetRoomAndSubRoom (store n).Pos).2] false

/-- The spec's condition on a neighbour `j` of `i` for the spacing:
"⟨dᵢ, e_ij⟩ ≥ 0 and |⟨dᵢ⊥, e_ij⟩| ≤ l/d_ij", with `e_ij` the unit vector from
`i` to `j`, `d_ij` their distance and `l = 2·b_max`. -/
def SpacingCondition (ext : Externals K) (ped1 ped2 : Pedestrian K) (d : Point K) : Prop :=
  let e_ij := (ped2.Pos - ped1.Pos).Normalized ext.sqrt ext.zeroLen
  let d_ij := (ped2.Pos - ped1.Pos).Norm ext.sqrt
  d.ScalarProduct e_ij ≥ 0 ∧ |(d.Rotate 0 1).ScalarProduct e_ij| ≤ 2 * ped1.Bmax / d_ij

/-- The lines whose repulsion `ForceRepRoom` adds up, in the order of the code:
the walls of the subroom, the walls of its obstacles, the transitions that are
not open. -/
def ForceRepRoom_lines (subroom : SubRoom K) : List (Line K) :=
  subroom.AllWalls ++ subroom.AllObstacles.flatMap (fun obst => obst.AllWalls)
    ++ (subroom.AllTransitions.filter (fun trans => !trans.IsOpen)).map (fun trans => trans.line)

/-! ### A small world for concrete runs

One room with one subroom; the geometry of `Line` is the Euclidean one. -/

/-- The point of the segment `l` closest to `p` (what `Line::ShortestPoint`
computes), for the concrete runs. -/
def Scenario.ShortestPoint (l : Line K) (p : Point K) : Point K :=
  let d := l.p2 - l.p1
  if d.NormSquare = 0 then l.p1
  else l.p1 + d.smul (max 0 (min 1 ((p - l.p1).ScalarProduct d / d.NormSquare)))

/-- The externals of the concrete runs: the values 0.001, 0.005 and 0.1 for
`J_EPS`, `J_EPS_GOAL` and `J_EPS_V`, a building with the
single subroom `subroom`, whose inside is `inSubRoom`, whose obstacles contain
the points `contains` says, in which every two points see each other or not as
`visible` says, and whose neighbourhood search answers `neighbours` by id. -/
def Scenario.ext (sqrt exp : K → K) (subroom : SubRoom K) (inSubRoom : Point K → Bool)
    (contains : Obstacle K → Point K → Bool) (visible : Bool)
    (neighbours : Int → List PedPtr) : Externals K where
  sqrt := sqrt
  exp := exp
  J_EPS := 1 / 1000
  J_EPS_GOAL := 5 / 1000
  J_EPS_V := 1 / 10
  zeroLen := 1 / 1000000
  ShortestPoint := Scenario.ShortestPoint
  DistTo := fun l p => sqrt (p - Scenario.ShortestPoint l p).NormSquare
  DistToSquare := fun l p => (p - Scenario.ShortestPoint l p).NormSquare
  IsInSubRoom := fun _ p => inSubRoom p
  IsDirectlyConnectedWith := fun _ _ => false
  Contains := contains
  GetRoomAndSubRoom := fun _ => (0, 0)
  SubRoomAt := fun _ => subroom
  IsVisible := fun _ _ _ _ => visible
  GetNeighbourhood := fun ped => neighbours ped.UID
  GetV0Target := fun ped target => (target - ped.Pos).Normalized sqrt (1 / 1000000)
  Phi := fun ped => ped.V.Normalized sqrt (1 / 1000000)

/-- The velocity model of the concrete runs: the agents walk to the closest
point of their exit line; no floor field. -/
def Scenario.model : Model K where
  _direction := some
    { GetTarget := fun _ ped => Scenario.ShortestPoint ped.ExitLine ped.Pos
      LocalFloorfield := false }
  _aPed := 8
  _DPed := 1 / 10
  _aWall := 5
  _DWall := 1 / 50

/-- An agent of the concrete runs: desired speed 1, time gap 1, semi-axis
0.25, heading for the exit line from (10,-1) to (10,1). -/
def Scenario.agent (uid : Int) (pos v : Point K) (premovement : K) : Pedestrian K where
  UID := uid
  Pos := pos
  V := v
  V0 := ⟨1, 0⟩
  V0Norm := 1
  T := 1
  Bmax := 1 / 4
  ExitLine := ⟨⟨10, -1⟩, ⟨10, 1⟩⟩
  LastE0 := 0
  IsWaiting := false
  Premovement := premovement
  SmoothTurning := false
  PhiPed := ⟨1, 0⟩

/-- A subroom without walls, obstacles and doors. -/
def Scenario.emptySubRoom : SubRoom K where
  RoomID := 0
  SubRoomID := 0
  Centroid := ⟨5, 0⟩
  AllWalls := []
  AllObstacles := []
  AllTransitions := []

/-- A store with the agent `a` behind pointer 0 and the agent `b` behind every
other pointer. -/
def Scenario.store (a b : Pedestrian K) : Store K :=
  fun i => if i = 0 then a else b

/-- The world of one open subroom without walls in which no agent has a
neighbour. -/
def Scenario.openWorld (sqrt exp : K → K) : Externals K :=
  Scenario.ext sqrt exp Scenario.emptySubRoom (fun _ => true) (fun _ _ => false) true
    (fun _ => [])

/-- The world of one subroom without walls with two agents, of id 1 behind
pointer 0 and of id 2 behind pointer 1, that are neighbours of each other and
see each other or not as `visible` says. -/
def Scenario.pairWorld (sqrt exp : K → K) (visible : Bool) : Externals K :=
  Scenario.ext sqrt exp Scenario.emptySubRoom (fun _ => true) (fun _ _ => false) visible
    (fun uid => if uid = 1 then [1] else [0])

/-- An L-shaped subroom with the corners (0,0), (3,0), (3,1), (1,1), (1,3),
(0,3); its centroid (1.1, 1.1) lies outside of it. -/
def Scenario.lSubRoom : SubRoom K where
  RoomID := 0
  SubRoomID := 0
  Centroid := ⟨11 / 10, 11 / 10⟩
  AllWalls :=
    [⟨⟨0, 0⟩, ⟨3, 0⟩⟩, ⟨⟨3, 0⟩, ⟨3, 1⟩⟩, ⟨⟨3, 1⟩, ⟨1, 1⟩⟩, ⟨⟨1, 1⟩, ⟨1, 3⟩⟩, ⟨⟨1, 3⟩, ⟨0, 3⟩⟩,
      ⟨⟨0, 3⟩, ⟨0, 0⟩⟩]
  AllObstacles := []
  AllTransitions := []

/-- The inside of `Scenario.lSubRoom`. -/
def Scenario.inL (p : Point K) : Bool :=
  decide ((0 ≤ p.x ∧ p.x ≤ 3 ∧ 0 ≤ p.y ∧ p.y ≤ 1) ∨ (0 ≤ p.x ∧ p.x ≤ 1 ∧ 0 ≤ p.y ∧ p.y ≤ 3))

/-- The world of the L-shaped subroom. -/
def Scenario.lWorld (sqrt exp : K → K) : Externals K :=
  Scenario.ext sqrt exp Scenario.lSubRoom Scenario.inL (fun _ _ => false) true (fun _ => [])

/-- A square obstacle around the point (10, 0). -/
def Scenario.box : Obstacle K where
  AllWalls :=
    [⟨⟨19 / 2, -1 / 2⟩, ⟨21 / 2, -1 / 2⟩⟩, ⟨⟨21 / 2, -1 / 2⟩, ⟨21 / 2, 1 / 2⟩⟩,
      ⟨⟨21 / 2, 1 / 2⟩, ⟨19 / 2, 1 / 2⟩⟩, ⟨⟨19 / 2, 1 / 2⟩, ⟨19 / 2, -1 / 2⟩⟩]

/-- The inside of `Scenario.box`. -/
def Scenario.inBox (_obst : Obstacle K) (p : Point K) : Bool :=
  decide (19 / 2 ≤ p.x ∧ p.x ≤ 21 / 2 ∧ -1 / 2 ≤ p.y ∧ p.y ≤ 1 / 2)

/-- A subroom without walls that holds the obstacle `Scenario.box`. -/
def Scenario.boxSubRoom : SubRoom K where
  RoomID := 0
  SubRoomID := 0
  Centroid := ⟨5, 0⟩
  AllWalls := []
  AllObstacles := [Scenario.box]
  AllTransitions := []

/-- The world of the subroom with the obstacle. -/
def Scenario.boxWorld (sqrt exp : K → K) : Externals K :=
  Scenario.ext sqrt exp Scenario.boxSubRoom (fun _ => true) Scenario.inBox true (fun _ => [])

/-- The agents of the run with an agent that waits: behind pointer 0 an agent
at (0, 0) with velocity (1, 0) whose premovement time ends at t = 5, behind
pointer 1 an agent at (0, 3) at rest. -/
def Scenario.waitingStore : Store K :=
  Scenario.store (Scenario.agent 1 ⟨0, 0⟩ ⟨1, 0⟩ 5) (Scenario.agent 2 ⟨0, 3⟩ ⟨0, 0⟩ 0)

/-- The agents of the runs with two neighbours: behind pointer 0 the agent 1
at (0, 0), behind pointer 1 the agent 2 at (x, 0), both at rest and past their
premovement time. -/
def Scenario.pairStore (x : K) : Store K :=
  Scenario.store (Scenario.agent 1 ⟨0, 0⟩ ⟨0, 0⟩ (-1)) (Scenario.agent 2 ⟨x, 0⟩ ⟨0, 0⟩ (-1))

/-- A subroom with one wall, the obstacle `Scenario.box` and three doors: an
open one, a temporarily closed one and a closed one. -/
def Scenario.doorSubRoom : SubRoom K where
  RoomID := 0
  SubRoomID := 0
  Centroid := ⟨5, 0⟩
  AllWalls := [⟨⟨0, 2⟩, ⟨10, 2⟩⟩]
  AllObstacles := [Scenario.box]
  AllTransitions :=
    [⟨1, ⟨⟨0, -2⟩, ⟨1, -2⟩⟩, DoorState.OPEN⟩, ⟨2, ⟨⟨2, -2⟩, ⟨3, -2⟩⟩, DoorState.TEMP_CLOSE⟩,
      ⟨3, ⟨⟨4, -2⟩, ⟨5, -2⟩⟩, DoorState.CLOSE⟩]

/-- The world of the subroom with the three doors. -/
def Scenario.doorWorld (sqrt exp : K → K) : Externals K :=
  Scenario.ext sqrt exp Scenario.doorSubRoom (fun _ => true) Scenario.inBox true (fun _ => [])

end Code

end VelocityModel

/-! ## The simulation clock -/

/-- Modelled from the spec: `SimulationClock` (SimulationClock.hpp lies outside
the files studied here): "Integer iteration counter k, fixed step dT;
`ElapsedTime() = k·dT`". -/
structure SimulationClock (K : Type) where
  _iteration : Nat
  _dT : K
deriving DecidableEq, Repr

namespace SimulationClock

variable {K : Type} [LinearOrderedField K]

/-- Modelled from the spec: `SimulationClock::Iteration`, the counter k. -/
def Iteration (clock : SimulationClock K) : Nat := clock._iteration

/-- Modelled from the spec: `SimulationClock::dT`, the fixed step. -/
def dT (clock : SimulationClock K) : K := clock._dT

/-- Modelled from the spec: `SimulationClock::ElapsedTime`, "k·dT". -/
def ElapsedTime (clock : SimulationClock K) : K := (clock._iteration : K) * clock._dT

/-- Modelled from the spec: `SimulationClock::Advance`, one more iteration. -/
def Advance (clock : SimulationClock K) : SimulationClock K :=
  { clock with _iteration := clock._iteration + 1 }

end SimulationClock

/-! ## The simulation of libcore (`libcore/src/Simulation.cpp`) -/

namespace LibCore

open VelocityModel

/-- The numeric and boolean members of `Configuration`
(general/Configuration.h:43-66); the members that hold pointers and file
paths are left out. -/
structure Configuration (K : Type) where
  seed : Nat
  fps : K
  precision : Nat
  linkedCellSize : K
  tMax : K
  dT : K
  nuPed : K
  nuWall : K
  aPed : K
  aWall : K
  dWall : K
  dPed : K
  intPWidthPed : K
  intPWidthWall : K
  maxFPed : K
  maxFWall : K
  distEffMaxPed : K
  distEffMaxWall : K
  deltaH : K
  wallAvoidDistance : K
  useWallAvoidance : Bool
  hasDirectionalEscalators : Bool
  exitStrat : Int
  showStatistics : Bool

/-- Modelled from the spec: `Track`, the place of a train: the room and the
subroom it belongs to. -/
structure Track where
  _roomID : Int
  _subRoomID : Int
deriving DecidableEq, Repr

/-- Modelled from the spec: what `Building::GetTransOrCrossByUID` hands out
as an `Hline *`: a plain navigation line, or a `Crossing` (a `Transition` is
one), which has a door state. -/
inductive Hline (K : Type) where
  | Plain (line : Line K)
  | Crossing (cross : Transition K)

/-- Modelled from the spec: `TrainType`, the kind of train named by an
`ActivateTrain` event. -/
structure TrainType where
  _type : String
deriving DecidableEq, Repr

/-- The three sets a train activation works with: "a set of temp walls
removed, temp walls added, and doors added". -/
structure TrainSplice (K : Type) where
  wallsRemoved : List (Line K)
  wallsAdded : List (Line K)
  doorsAdded : List (Transition K)

/-- Modelled from the spec: the part of `Building` that the simulation
reaches: the tracks (`GetTrack`), the subrooms (`GetRoom(..)->GetSubRoom(..)`),
the transitions, and the three sets recorded per train id
(`GetTrainWallsAdded`, `GetTrainWallsRemoved`, `GetTrainDoorsAdded`). -/
structure Building (K : Type) where
  Tracks : Int → Option Track
  SubRooms : Int → Int → SubRoom K
  AllTransitions : List (Transition K)
  TrainWallsAdded : Int → Option (List (Line K))
  TrainWallsRemoved : Int → Option (List (Line K))
  TrainDoorsAdded : Int → Option (List (Transition K))

/-- Modelled from the spec: the part of `RoutingEngine` that the simulation
reaches: the flag `needsUpdate` and the state of the routers, which stands
here as the number of rebuilds they have gone through. -/
structure RoutingEngine where
  _needUpdate : Bool
  rebuilds : Nat
deriving DecidableEq, Repr

/-- The calls whose order the properties of the loop speak about. -/
inductive Call where
  | UpdateGrid
  | DirectionManagerUpdate
  | OperationalModelUpdate
  | UpdateTime
  | UpdateRouter
  | FindExit (uid : Int)
  | ComputeNextTimeStep
  | ReInit
  | UpdateLocations
  | GoalManagerUpdate
  | OperationalModelInit
  | Advance
deriving DecidableEq, Repr

/-- The members of `Simulation` (libcore) that `Simulation.cpp` reads and
writes, and `calls`, the calls made so far, oldest first.  The direction
manager and the operational model keep their state to themselves; their
calls are noted. -/
structure Simulation (K : Type) where
  _config : Configuration K
  _clock : SimulationClock K
  _building : Building K
  _routingEngine : RoutingEngine
  _agents : List (Pedestrian K)
  _eventProcessed : Bool
  _fps : K
  _seed : Nat
  calls : List Call

/-- What `Simulation.cpp` of libcore takes from outside its translation unit. -/
structure Externals (K : Type) where
  -- Macros.h
  FINAL_DEST_OUT : Int
  -- Pedestrian::GetMinPremovementTime, Pedestrian::SetDeltaT,
  -- Pedestrian::IsInsideWaitingAreaWaiting
  GetMinPremovementTime : K
  SetDeltaT : Pedestrian K → K → Pedestrian K
  IsInsideWaitingAreaWaiting : Building K → Pedestrian K → K → Bool
  -- Building::UpdateGrid, GetTransOrCrossByUID, GetRoomAndSubRoomIDs
  UpdateGrid : Building K → List (Pedestrian K) → Building K
  GetTransOrCrossByUID : Building K → Int → Option (Hline K)
  GetRoomAndSubRoomIDs : Building K → Point K → Int × Int × Int
  -- Crossing::IsInRoom, Crossing::IsInSubRoom
  IsInRoom : Transition K → Int → Bool
  IsInSubRoom : Transition K → Int → Bool
  -- Transition::Open, TempClose, Close, ResetDoorUsage on the door of an id
  Open : Building K → Int → Building K
  TempClose : Building K → Int → Building K
  Close : Building K → Int → Building K
  ResetDoorUsage : Building K → Int → Building K
  -- the centroid that SubRoom::Update computes
  ComputeCentroid : SubRoom K → Point K
  -- the sets geometry::helper::AddTrainDoors computes for a train
  TrainDoors : Building K → Int → TrainType → K → Bool → TrainSplice K
  -- Router::FindExit of the router of the pedestrian: the target, and the
  -- pedestrian as the router leaves it
  FindExit : RoutingEngine → Building K → Pedestrian K → Int × Pedestrian K
  -- RoutingEngine::UpdateTime
  UpdateTime : RoutingEngine → K → RoutingEngine
  -- OperationalModel::Init, OperationalModel::ComputeNextTimeStep (none: the process exits)
  OperationalModelInit : Building K → List (Pedestrian K) → Configuration K → List (Pedestrian K)
  ComputeNextTimeStep : K → K → Building K → List (Pedestrian K) → Option (List (Pedestrian K))
  -- SimulationHelper
  UpdateFlowAtDoors : Building K → List (Pedestrian K) → K → Building K
  FindPedestriansOutside : Building K → List (Pedestrian K) → List Int
  UpdateFlowRegulation : Building K → SimulationClock K → Bool × Building K
  UpdateTrainFlowRegulation : Building K → K → Bool × Building K
  -- GoalManager::update
  GoalManagerUpdate : Building K → List (Pedestrian K) → K → Building K × List (Pedestrian K)

section Code

variable {K : Type} [LinearOrderedField K]

/-- The member initialisers of `Configuration` (general/Configuration.h:45-66). -/
def Configuration.defaults : Configuration K where
  seed := 0
  fps := 8
  precision := 2
  linkedCellSize := 22 / 10
  tMax := 500
  dT := 1 / 100
  nuPed := 4 / 10
  nuWall := 2 / 10
  aPed := 1
  aWall := 1
  dWall := 1 / 10
  dPed := 1 / 10
  intPWidthPed := 1 / 10
  intPWidthWall := 1 / 10
  maxFPed := 3
  maxFWall := 3
  distEffMaxPed := 2
  distEffMaxWall := 2
  deltaH := 625 / 10000
  wallAvoidDistance := 4 / 10
  useWallAvoidance := true
  hasDirectionalEscalators := false
  exitStrat := 9
  showStatistics := false

/-- The note of a call in `calls`. -/
def Simulation.called (s : Simulation K) (c : Call) : Simulation K :=
  { s with calls := s.calls ++ [c] }

/-- Modelled from the spec: `Crossing::IsTempClose`, the door is in state
TEMP_CLOSE. -/
def IsTempClose (cross : Transition K) : Bool := decide (cross.State = DoorState.TEMP_CLOSE)

/-- Modelled from the spec: `Pedestrian::StartWaiting`, "the agent enters
waiting". -/
def StartWaiting (ped : Pedestrian K) : Pedestrian K := { ped with IsWaiting := true }

/-- Modelled from the spec: `Pedestrian::EndWaiting`, the agent leaves waiting. -/
def EndWaiting (ped : Pedestrian K) : Pedestrian K := { ped with IsWaiting := false }

/-- Modelled from the spec: `RoutingEngine::NeedsUpdate`, the flag. -/
def RoutingEngine.NeedsUpdate (engine : RoutingEngine) : Bool := engine._needUpdate

/-- Modelled from the spec: `RoutingEngine::setNeedUpdate`, the flag is set to
the given value. -/
def RoutingEngine.setNeedUpdate (engine : RoutingEngine) (needUpdate : Bool) : RoutingEngine :=
  { engine with _needUpdate := needUpdate }

/-- Modelled from the spec: `RoutingEngine::UpdateRouter`: the router
"rebuilds if set, clears the flag". -/
def RoutingEngine.UpdateRouter (engine : RoutingEngine) : RoutingEngine :=
  { _needUpdate := false, rebuilds := engine.rebuilds + 1 }

/-- The function `Simulation::RemoveAgents` (Simulation.cpp:146-159). -/
def RemoveAgents (s : Simulation K) (ids : List Int) : Simulation K :=
  { s with _agents := s._agents.filter (fun agent => !(ids.any (fun other => agent.UID == other))) }

/-- The function `Simulation::UpdateLocations` (Simulation.cpp:307-319). -/
def UpdateLocations (ext : Externals K) (s : Simulation K) : Simulation K :=
  let s := s.called Call.UpdateLocations
  let s := { s with _building := ext.UpdateFlowAtDoors s._building s._agents s._clock.ElapsedTime }
  let pedsOutside := ext.FindPedestriansOutside s._building s._agents
  let s := RemoveAgents s pedsOutside
  let (geometryChangedFlow, building) := ext.UpdateFlowRegulation s._building s._clock
  let s := { s with _building := building }
  let (geometryChangedTrain, building) :=
    ext.UpdateTrainFlowRegulation s._building s._clock.ElapsedTime
  let s := { s with _building := building }
  { s with _routingEngine :=
      s._routingEngine.setNeedUpdate (geometryChangedFlow || geometryChangedTrain) }

/-- The body of the loop over the agents in `Simulation::UpdateRoutes`
(Simulation.cpp:327-356) for one agent. -/
def UpdateRoutes_ped (ext : Externals K) (engine : RoutingEngine) (building : Building K)
    (elapsed : K) (ped : Pedestrian K) : Pedestrian K :=
  let (target, ped) := ext.FindExit engine building ped
  let ped :=
    if target = ext.FINAL_DEST_OUT then
      StartWaiting ped
    else if ped.IsWaiting ∧ ext.IsInsideWaitingAreaWaiting building ped elapsed = false then
      EndWaiting ped
    else
      ped
  if target ≠ ext.FINAL_DEST_OUT then
    let door := ext.GetTransOrCrossByUID building target
    let (roomID, subRoomID, _) := ext.GetRoomAndSubRoomIDs building ped.Pos
    match door with
    | some (Hline.Crossing cross) =>
      if ext.IsInRoom cross roomID ∧ ext.IsInSubRoom cross subRoomID then
        let ped := if ped.IsWaiting = false ∧ IsTempClose cross then StartWaiting ped else ped
        let ped :=
          if ped.IsWaiting ∧ cross.IsOpen
              ∧ ext.IsInsideWaitingAreaWaiting building ped elapsed = false then
            EndWaiting ped
          else
            ped
        ped
      else
        ped
    | _ => ped
  else
    ped

/-- The function `Simulation::UpdateRoutes` (Simulation.cpp:321-357). -/
def UpdateRoutes (ext : Externals K) (s : Simulation K) : Simulation K :=
  let s :=
    if s._routingEngine.NeedsUpdate then
      { s with _routingEngine := s._routingEngine.UpdateRouter }.called Call.UpdateRouter
    else
      s
  { s with
    _agents := s._agents.map
      (UpdateRoutes_ped ext s._routingEngine s._building s._clock.ElapsedTime)
    calls := s.calls ++ s._agents.map (fun ped => Call.FindExit ped.UID) }

/-- The block of `Simulation::Iterate` that runs once the elapsed time has
passed the premovement times (Simulation.cpp:82-103); `none` when the
operational model exits the process. -/
def Iterate_decisions (ext : Externals K) (s : Simulation K) (t_in_sec : K) :
    Option (Simulation K) :=
  let s := { s with _routingEngine :=
    s._routingEngine.setNeedUpdate (s._eventProcessed || s._routingEngine.NeedsUpdate) }
  let s := UpdateRoutes ext s
  match ext.ComputeNextTimeStep t_in_sec s._clock.dT s._building s._agents with
  | none => none
  | some agents =>
    let s := { s with _agents := agents }.called Call.ComputeNextTimeStep
    let s := if s._eventProcessed then s.called Call.ReInit else s
    let s := UpdateLocations ext s
    let (building, agents) := ext.GoalManagerUpdate s._building s._agents t_in_sec
    some ({ s with _building := building, _agents := agents }.called Call.GoalManagerUpdate)

/-- The function `Simulation::Iterate` of libcore (Simulation.cpp:73-107);
`none` when the operational model exits the process. -/
def Iterate (ext : Externals K) (s : Simulation K) : Option (Simulation K) :=
  let s := { s with _building := ext.UpdateGrid s._building s._agents }.called Call.UpdateGrid
  let t_in_sec := s._clock.ElapsedTime
  let s := s.called Call.DirectionManagerUpdate
  let s := s.called Call.OperationalModelUpdate
  let s := { s with _routingEngine := ext.UpdateTime s._routingEngine t_in_sec }.called
    Call.UpdateTime
  let r : Option (Simulation K) :=
    if t_in_sec > ext.GetMinPremovementTime then Iterate_decisions ext s t_in_sec else some s
  match r with
  | none => none
  | some s => some ({ s with _eventProcessed := false, _clock := s._clock.Advance }.called
      Call.Advance)

/-- The run of `n` calls of `Iterate` in a row. -/
def IterateN (ext : Externals K) : Nat → Simulation K → Option (Simulation K)
  | 0, s => some s
  | n + 1, s => (Iterate ext s).bind (IterateN ext n)

/-- The function `Simulation::OpenDoor` (Simulation.cpp:181-185). -/
def OpenDoor (ext : Externals K) (s : Simulation K) (doorId : Int) : Simulation K :=
  let s := { s with _eventProcessed := true }
  { s with _building := ext.Open s._building doorId }

/-- The function `Simulation::TempCloseDoor` (Simulation.cpp:187-191). -/
def TempCloseDoor (ext : Externals K) (s : Simulation K) (doorId : Int) : Simulation K :=
  let s := { s with _eventProcessed := true }
  { s with _building := ext.TempClose s._building doorId }

/-- The function `Simulation::CloseDoor` (Simulation.cpp:193-197). -/
def CloseDoor (ext : Externals K) (s : Simulation K) (doorId : Int) : Simulation K :=
  let s := { s with _eventProcessed := true }
  { s with _building := ext.Close s._building doorId }

/-- The function `Simulation::ResetDoor` (Simulation.cpp:199-203). -/
def ResetDoor (ext : Externals K) (s : Simulation K) (doorId : Int) : Simulation K :=
  let s := { s with _eventProcessed := true }
  { s with _building := ext.ResetDoorUsage s._building doorId }

/-- The function `Simulation::InitArgs` (Simulation.cpp:268-305): the value it
returns and the simulation as it leaves it.  `SetAgents` hands the building a
pointer to the agent list and changes no value. -/
def InitArgs (ext : Externals K) (s : Simulation K) : Bool × Simulation K :=
  let s := { s with _fps := s._config.fps }
  let s := { s with
    _agents := ext.OperationalModelInit s._building s._agents s._config }.called
      Call.OperationalModelInit
  let s := { s with _agents := s._agents.map (fun ped => ext.SetDeltaT ped s._clock.dT) }
  let s := { s with _seed := s._config.seed }
  if s._config.distEffMaxPed > s._config.linkedCellSize then
    (false, s)
  else
    (true, UpdateLocations ext s)

/-- Modelled from the spec: `SubRoom::AddWall`, the wall joins the walls of
the subroom. -/
def AddWall (subroom : SubRoom K) (wall : Line K) : SubRoom K :=
  { subroom with AllWalls := subroom.AllWalls ++ [wall] }

/-- Modelled from the spec: `SubRoom::RemoveWall`, one wall equal to the given
one leaves the walls of the subroom, when there is one. -/
def RemoveWall (subroom : SubRoom K) (wall : Line K) : SubRoom K :=
  { subroom with AllWalls := subroom.AllWalls.erase wall }

/-- Modelled from the spec: `SubRoom::AddTransition`, the door joins the
transitions of the subroom. -/
def AddTransition (subroom : SubRoom K) (door : Transition K) : SubRoom K :=
  { subroom with AllTransitions := subroom.AllTransitions ++ [door] }

/-- Modelled from the spec: `SubRoom::RemoveTransitionByUID`, the transitions
of that unique id leave the subroom. -/
def RemoveTransitionByUID (subroom : SubRoom K) (uid : Int) : SubRoom K :=
  { subroom with AllTransitions := subroom.AllTransitions.filter (fun t => t.UniqueID != uid) }

/-- Modelled from the spec: `SubRoom::Update`, which recomputes what the
subroom derives from its polylines; walls, obstacles and transitions stay. -/
def SubRoom_Update (ext : Externals K) (subroom : SubRoom K) : SubRoom K :=
  { subroom with Centroid := ext.ComputeCentroid subroom }

/-- Modelled from the spec: `Building::GetTrack`. -/
def Building.GetTrack (building : Building K) (trackId : Int) : Option Track :=
  building.Tracks trackId

/-- Modelled from the spec: `Building::GetRoom(roomID)->GetSubRoom(subroomID)`. -/
def Building.GetSubRoom (building : Building K) (roomID subroomID : Int) : SubRoom K :=
  building.SubRooms roomID subroomID

/-- The writes through the pointer `subroom`: the subroom of these ids is
replaced, the others stay. -/
def Building.SetSubRoom (building : Building K) (roomID subroomID : Int)
    (subroom : SubRoom K) : Building K :=
  { building with SubRooms := fun r s =>
      if r = roomID ∧ s = subroomID then subroom else building.SubRooms r s }

/-- Modelled from the spec: `Building::AddTransition`. -/
def Building.AddTransition (building : Building K) (door : Transition K) : Building K :=
  { building with AllTransitions := building.AllTransitions ++ [door] }

/-- Modelled from the spec: `Building::RemoveTransition`, the door leaves the
transitions of the building. -/
def Building.RemoveTransition (building : Building K) (door : Transition K) : Building K :=
  { building with
    AllTransitions := building.AllTransitions.filter (fun t => t.UniqueID != door.UniqueID) }

/-- Modelled from the spec: `Building::GetTrainWallsAdded`. -/
def Building.GetTrainWallsAdded (building : Building K) (trainId : Int) :
    Option (List (Line K)) :=
  building.TrainWallsAdded trainId

/-- Modelled from the spec: `Building::GetTrainWallsRemoved`. -/
def Building.GetTrainWallsRemoved (building : Building K) (trainId : Int) :
    Option (List (Line K)) :=
  building.TrainWallsRemoved trainId

/-- Modelled from the spec: `Building::GetTrainDoorsAdded`. -/
def Building.GetTrainDoorsAdded (building : Building K) (trainId : Int) :
    Option (List (Transition K)) :=
  building.TrainDoorsAdded trainId

/-- Modelled from the spec: `Building::ClearTrainWallsAdded`. -/
def Building.ClearTrainWallsAdded (building : Building K) (trainId : Int) : Building K :=
  { building with TrainWallsAdded := Function.update building.TrainWallsAdded trainId none }

/-- Modelled from the spec: `Building::ClearTrainWallsRemoved`. -/
def Building.ClearTrainWallsRemoved (building : Building K) (trainId : Int) : Building K :=
  { building with TrainWallsRemoved := Function.update building.TrainWallsRemoved trainId none }

/-- Modelled from the spec: `Building::ClearTrainDoorsAdded`. -/
def Building.ClearTrainDoorsAdded (building : Building K) (trainId : Int) : Building K :=
  { building with TrainDoorsAdded := Function.update building.TrainDoorsAdded trainId none }

/-- Modelled from the spec: `geometry::helper::AddTrainDoors`, which "splices
a set of temp walls removed, temp walls added, and doors added into a named
subroom" and records the three sets under the train id; `none` when the track
is unknown ("Unknown ids fail with a descriptive error"). -/
def AddTrainDoors (ext : Externals K) (trainId trackId : Int) (building : Building K)
    (type : TrainType) (startOffset : K) (reversed : Bool) : Option (Building K) :=
  match building.GetTrack trackId with
  | none => none
  | some track =>
    let splice := ext.TrainDoors building trackId type startOffset reversed
    let subroom := building.GetSubRoom track._roomID track._subRoomID
    let subroom := splice.wallsRemoved.foldl RemoveWall subroom
    let subroom := splice.wallsAdded.foldl AddWall subroom
    let subroom := splice.doorsAdded.foldl AddTransition subroom
    let building := building.SetSubRoom track._roomID track._subRoomID subroom
    let building := splice.doorsAdded.foldl Building.AddTransition building
    some { building with
      TrainWallsAdded := Function.update building.TrainWallsAdded trainId (some splice.wallsAdded)
      TrainWallsRemoved :=
        Function.update building.TrainWallsRemoved trainId (some splice.wallsRemoved)
      TrainDoorsAdded :=
        Function.update building.TrainDoorsAdded trainId (some splice.doorsAdded) }

/-- The function `Simulation::ActivateTrain` (Simulation.cpp:205-214); the
error carries the simulation as the exception leaves it. -/
def ActivateTrain (ext : Externals K) (s : Simulation K) (trainId trackId : Int)
    (type : TrainType) (startOffset : K) (reversed : Bool) :
    Except (Simulation K) (Simulation K) :=
  match AddTrainDoors ext trainId trackId s._building type startOffset reversed with
  | none => .error s
  | some building =>
    let s := { s with _building := building }
    .ok { s with _eventProcessed := true }

/-- The function `Simulation::DeactivateTrain` (Simulation.cpp:216-266); the
error carries the simulation as the exception leaves it. -/
def DeactivateTrain (ext : Externals K) (s : Simulation K) (trainId trackId : Int) :
    Except (Simulation K) (Simulation K) :=
  match s._building.GetTrack trackId with
  | none => .error s
  | some track =>
    let roomID := track._roomID
    let subroomID := track._subRoomID
    let building := s._building
    let subroom := building.GetSubRoom roomID subroomID
    -- remove temp added walls
    let (subroom, building) :=
      match building.GetTrainWallsAdded trainId with
      | some tempAddedWalls =>
        (tempAddedWalls.foldl RemoveWall subroom, building.ClearTrainWallsAdded trainId)
      | none => (subroom, building)
    -- add removed walls
    let (subroom, building) :=
      match building.GetTrainWallsRemoved trainId with
      | some tempRemovedWalls =>
        (tempRemovedWalls.foldl AddWall subroom, building.ClearTrainWallsRemoved trainId)
      | none => (subroom, building)
    -- remove added doors
    let (subroom, building) :=
      match building.GetTrainDoorsAdded trainId with
      | some tempDoors =>
        let (subroom, building) := tempDoors.foldl
          (fun (sb : SubRoom K × Building K) (door : Transition K) =>
            (RemoveTransitionByUID sb.1 door.UniqueID, sb.2.RemoveTransition door))
          (subroom, building)
        (subroom, building.ClearTrainDoorsAdded trainId)
      | none => (subroom, building)
    let subroom := SubRoom_Update ext subroom
    let building := building.SetSubRoom roomID subroomID subroom
    let s := { s with _building := building }
    .ok { s with _eventProcessed := true }

/-! ### A small building for concrete runs -/

/-- The door of unique id `uid` among `doors`, with its state set to `state`. -/
def Scenario.setState (state : DoorState) (uid : Int) (doors : List (Transition K)) :
    List (Transition K) :=
  doors.map (fun door => if door.UniqueID = uid then { door with State := state } else door)

/-- The building of the concrete runs: one room with the subroom
`VelocityModel.Scenario.doorSubRoom` and its three doors (1 open, 2
temporarily closed, 3 closed), one track, of id 1, and no train. -/
def Scenario.building : Building K where
  Tracks := fun trackId => if trackId = 1 then some ⟨0, 0⟩ else none
  SubRooms := fun _ _ => VelocityModel.Scenario.doorSubRoom
  AllTransitions := (VelocityModel.Scenario.doorSubRoom : SubRoom K).AllTransitions
  TrainWallsAdded := fun _ => none
  TrainWallsRemoved := fun _ => none
  TrainDoorsAdded := fun _ => none

/-- The externals of the concrete runs: the premovement times end at
`minPremovement`, the router sends every agent to the door `target` and leaves
the agent as it is, no agent is held in a waiting area, every agent stands in
room 0 and subroom 0, where every door is, a train takes `splice`; doors are
opened and closed by their unique id; the operational model leaves every agent
where it is and nothing else changes the geometry. -/
def Scenario.ext (minPremovement : K) (target : Int) (splice : TrainSplice K) :
    Externals K where
  FINAL_DEST_OUT := -1
  GetMinPremovementTime := minPremovement
  SetDeltaT := fun ped _ => ped
  IsInsideWaitingAreaWaiting := fun _ _ _ => false
  UpdateGrid := fun building _ => building
  GetTransOrCrossByUID := fun building uid =>
    (building.AllTransitions.find? (fun door => door.UniqueID == uid)).map Hline.Crossing
  GetRoomAndSubRoomIDs := fun _ _ => (0, 0, 0)
  IsInRoom := fun _ roomID => decide (roomID = 0)
  IsInSubRoom := fun _ subRoomID => decide (subRoomID = 0)
  Open := fun building doorId =>
    { building with
      AllTransitions := Scenario.setState DoorState.OPEN doorId building.AllTransitions }
  TempClose := fun building doorId =>
    { building with
      AllTransitions := Scenario.setState DoorState.TEMP_CLOSE doorId building.AllTransitions }
  Close := fun building doorId =>
    { building with
      AllTransitions := Scenario.setState DoorState.CLOSE doorId building.AllTransitions }
  ResetDoorUsage := fun building _ => building
  ComputeCentroid := fun subroom => subroom.Centroid
  TrainDoors := fun _ _ _ _ _ => splice
  FindExit := fun _ _ ped => (target, ped)
  UpdateTime := fun engine _ => engine
  OperationalModelInit := fun _ agents _ => agents
  ComputeNextTimeStep := fun _ _ _ agents => some agents
  UpdateFlowAtDoors := fun building _ _ => building
  FindPedestriansOutside := fun _ _ => []
  UpdateFlowRegulation := fun building _ => (false, building)
  UpdateTrainFlowRegulation := fun building _ => (false, building)
  GoalManagerUpdate := fun building agents _ => (building, agents)

/-- The train of the concrete runs: it takes away the wall of the subroom,
puts two shorter walls in its place and a door, of unique id 9, between them. -/
def Scenario.splice : TrainSplice K where
  wallsRemoved := [⟨⟨0, 2⟩, ⟨10, 2⟩⟩]
  wallsAdded := [⟨⟨0, 2⟩, ⟨4, 2⟩⟩, ⟨⟨6, 2⟩, ⟨10, 2⟩⟩]
  doorsAdded := [⟨9, ⟨⟨4, 2⟩, ⟨6, 2⟩⟩, DoorState.OPEN⟩]

/-- The simulation of the concrete runs before its first tick: the clock of
step `dT` at 0, the building `Scenario.building`, a router that is up to date,
the agents `agents`, no event. -/
def Scenario.sim (dT : K) (agents : List (Pedestrian K)) : Simulation K where
  _config := Configuration.defaults
  _clock := ⟨0, dT⟩
  _building := Scenario.building
  _routingEngine := ⟨false, 0⟩
  _agents := agents
  _eventProcessed := false
  _fps := 8
  _seed := 0
  calls := []

/-- The world of the run with an early event: the premovement times end at
0 and the router sends every agent to door 1. -/
def Scenario.world : Externals K := Scenario.ext 0 1 Scenario.splice

/-- The simulation of the run with an early event before its first tick: step
1, one agent, of id 1, at (0, 0). -/
def Scenario.start : Simulation K :=
  Scenario.sim 1 [VelocityModel.Scenario.agent 1 ⟨0, 0⟩ ⟨0, 0⟩ (-1)]

/-- An agent of the concrete runs that waits. -/
def Scenario.waiting (uid : Int) : Pedestrian K :=
  { VelocityModel.Scenario.agent uid ⟨0, 0⟩ ⟨0, 0⟩ (-1) with IsWaiting := true }

end Code

end LibCore

/-! ## The simulation of libsimulator (`libsimulator/src/Simulation.cpp`) -/

namespace LibSimulator

open VelocityModel (Point)

/-- Modelled from the spec: `GenericAgent` (GenericAgent.hpp lies outside the
files studied here): "unique id; position; unit orientation; scalar speed;
journey id; current stage id", the `target` that the strategic pass writes and
the `destination` that the tactical pass writes. -/
structure GenericAgent (K : Type) where
  id : Nat
  journeyId : Nat
  stageId : Nat
  target : Point K
  destination : Point K
  pos : Point K
  orientation : Point K
  speed : K
deriving DecidableEq, Repr

/-- Modelled from the spec: `NeighborhoodSearch`, the index "over agent
positions"; what it holds is the agents it was built from and those added
since. -/
structure NeighborhoodSearch (K : Type) where
  agents : List (GenericAgent K)
deriving DecidableEq, Repr

/-- Modelled from the spec: the stages, "one of: Waypoint (point + arrival
radius), Exit (polygon; reaching it removes the agent), WaitingSet (fixed slot
count; gates release), Queue (fixed slot count; FIFO release)"; `occupants`
is the slot occupancy, the internal state of the last two. -/
inductive BaseStage (K : Type) where
  | Waypoint (position : Point K) (distance : K)
  | Exit (polygon : List (Point K))
  | NotifiableWaitingSet (slots : List (Point K)) (occupants : List Nat)
  | NotifiableQueue (slots : List (Point K)) (occupants : List Nat)
deriving DecidableEq, Repr

/-- Modelled from the spec: the rule of a journey node, "FixedTransition(next),
RoundRobinTransition(list of (stageId, weight))"; `served` is the state of the
round robin.  Stages are named by their ids. -/
inductive Transition where
  | FixedTransition (next : Nat)
  | RoundRobinTransition (weightedStages : List (Nat × Nat)) (served : Nat)
deriving DecidableEq, Repr

/-- Modelled from the spec: `JourneyNode`, a stage and its rule. -/
structure JourneyNode where
  stage : Nat
  transition : Transition
deriving DecidableEq, Repr

/-- Modelled from the spec: `Journey`, "a map `stageId → (stage, transition
rule)`". -/
structure Journey where
  id : Nat
  stages : List (Nat × JourneyNode)
deriving DecidableEq, Repr

/-- The calls whose order the properties of the loop speak about; a stage
update and the operational step are noted with the ids of the agents that the
neighbour index holds when they run. -/
inductive Call where
  | AgentExitSystemRun
  | NeighborhoodSearchUpdate
  | StageUpdate (stage : Nat) (index : List Nat)
  | StrategicalRun
  | TacticalRun
  | OperationalRun (index : List Nat)
  | Advance
deriving DecidableEq, Repr

/-- The members of `Simulation` (libsimulator) that `Simulation.cpp` reads and
writes, and `calls`, the calls made so far, oldest first. -/
structure Simulation (K : Type) where
  _clock : SimulationClock K
  _agents : List (GenericAgent K)
  _removedAgentsInLastIteration : List Nat
  _neighborhoodSearch : NeighborhoodSearch K
  _stages : List (Nat × BaseStage K)
  _journeys : List (Nat × Journey)
  calls : List Call

/-- What the journey of an agent answers to the strategic pass: the target
and the stage to pursue, and the journeys, stages and removed ids as the
question leaves them. -/
structure TargetResult (K : Type) where
  journeys : List (Nat × Journey)
  stages : List (Nat × BaseStage K)
  removed : List Nat
  target : Point K
  stageId : Nat

/-- What `Simulation.cpp` of libsimulator takes from outside its translation
unit.  The journey of an agent and the router can throw ("an agent may try to
navigate to a point outside the navigation mesh, resulting in an exception",
Simulation.cpp:19-20), and the operational model throws at an agent that it
rejects; the others are taken to return. -/
structure Externals (K : Type) where
  -- cmath and the length under which Point::Normalized gives the zero vector
  sqrt : K → K
  zeroLen : K
  -- AgentExitSystem::Run: the agents and the removed ids as it leaves them
  AgentExitSystemRun : List (GenericAgent K) → List Nat → List (GenericAgent K) × List Nat
  -- NotifiableWaitingSet::Update, NotifiableQueue::Update: the new occupancy
  WaitingSetUpdate : List (Point K) → List Nat → NeighborhoodSearch K → List Nat
  QueueUpdate : List (Point K) → List Nat → NeighborhoodSearch K → List Nat
  -- Journey::Target for the journey and the stage of an agent (none: it throws)
  Target : List (Nat × Journey) → List (Nat × BaseStage K) → List Nat → GenericAgent K →
    Option (TargetResult K)
  -- RoutingEngine::ComputeWaypoint (none: it throws)
  ComputeWaypoint : Point K → Point K → Option (Point K)
  -- OperationalModel::ValidateAgent (false: it throws) and the run of the
  -- operational decision system over the geometry of the simulation
  ValidateAgent : GenericAgent K → NeighborhoodSearch K → Bool
  OperationalRun : K → K → NeighborhoodSearch K → List (GenericAgent K) → List (GenericAgent K)
  -- Polygon::IsConvex, Polygon::ContainingCircle (centre and radius) and
  -- Polygon::IsInside of the polygon built from a list of points
  IsConvex : List (Point K) → Bool
  ContainingCircle : List (Point K) → Point K × K
  IsInside : List (Point K) → Point K → Bool

section Code

variable {K : Type} [LinearOrderedField K]

/-- The note of a call in `calls`. -/
def Simulation.called (s : Simulation K) (c : Call) : Simulation K :=
  { s with calls := s.calls ++ [c] }

/-- Modelled from the spec: `NeighborhoodSearch::Update`, "rebuilt from
scratch once per tick" from the agent list. -/
def NeighborhoodSearch.Update (_ : NeighborhoodSearch K) (agents : List (GenericAgent K)) :
    NeighborhoodSearch K :=
  { agents := agents }

/-- Modelled from the spec: `NeighborhoodSearch::AddAgent`, one more agent in
the index. -/
def NeighborhoodSearch.AddAgent (index : NeighborhoodSearch K) (agent : GenericAgent K) :
    NeighborhoodSearch K :=
  { agents := index.agents ++ [agent] }

/-- The ids of the agents that the index holds. -/
def NeighborhoodSearch.ids (index : NeighborhoodSearch K) : List Nat :=
  index.agents.map (fun agent => agent.id)

/-- Modelled from the spec: `Journey::ContainsStage`, the stage id is a key of
the map of the journey. -/
def Journey.ContainsStage (journey : Journey) (stageId : Nat) : Bool :=
  journey.stages.any (fun node => node.1 == stageId)

/-- The lookup `_journeys.find` / `_journeys.at` in the map of the journeys. -/
def Simulation.journey (s : Simulation K) (journeyId : Nat) : Option Journey :=
  (s._journeys.find? (fun entry => entry.1 == journeyId)).map (fun entry => entry.2)

/-- The body of the loop over `_stages` in `Simulation::Iterate`
(Simulation.cpp:42-50) for one stage: the waiting sets and the queues are
updated, the other stages stay. -/
def Iterate_stage (ext : Externals K) (index : NeighborhoodSearch K)
    (entry : Nat × BaseStage K) : Nat × BaseStage K :=
  match entry.2 with
  | BaseStage.NotifiableWaitingSet slots occupants =>
    (entry.1, BaseStage.NotifiableWaitingSet slots (ext.WaitingSetUpdate slots occupants index))
  | BaseStage.NotifiableQueue slots occupants =>
    (entry.1, BaseStage.NotifiableQueue slots (ext.QueueUpdate slots occupants index))
  | _ => entry

/-- The stages that the loop over `_stages` updates: those that are a
`NotifiableWaitingSet` or a `NotifiableQueue`. -/
def updatable (entry : Nat × BaseStage K) : Bool :=
  match entry.2 with
  | BaseStage.NotifiableWaitingSet _ _ => true
  | BaseStage.NotifiableQueue _ _ => true
  | _ => false

/-- Modelled from the spec: `StrategicalDecisionSystem::Run` over a range of
agents: for each agent in turn the journey is asked, and "the agent's
`stageId`" and target are set to the answer.  The agents are written in place:
when the journey of an agent throws (error), the agents before it have their
answers, and it and the agents after it are as they were. -/
def StrategicalDecisionSystem_Run (ext : Externals K) :
    Simulation K → List (GenericAgent K) →
      Except (Simulation K × List (GenericAgent K)) (Simulation K × List (GenericAgent K))
  | s, [] => .ok (s, [])
  | s, agent :: rest =>
    match ext.Target s._journeys s._stages s._removedAgentsInLastIteration agent with
    | none => .error (s, agent :: rest)
    | some r =>
      match StrategicalDecisionSystem_Run ext
          { s with
            _journeys := r.journeys
            _stages := r.stages
            _removedAgentsInLastIteration := r.removed } rest with
      | .ok (s, rest) => .ok (s, { agent with target := r.target, stageId := r.stageId } :: rest)
      | .error (s, rest) =>
        .error (s, { agent with target := r.target, stageId := r.stageId } :: rest)

/-- Modelled from the spec: `TacticalDecisionSystem::Run` over a range of
agents: "set agent's waypoint/destination" through the router.  The agents are
written in place: when the router throws at an agent (error), the agents
before it have their destinations, and it and the agents after it are as they
were. -/
def TacticalDecisionSystem_Run (ext : Externals K) :
    List (GenericAgent K) → Except (List (GenericAgent K)) (List (GenericAgent K))
  | [] => .ok []
  | agent :: rest =>
    match ext.ComputeWaypoint agent.pos agent.target with
    | none => .error (agent :: rest)
    | some destination =>
      match TacticalDecisionSystem_Run ext rest with
      | .ok rest => .ok ({ agent with destination := destination } :: rest)
      | .error rest => .error ({ agent with destination := destination } :: rest)

/-- The function `Simulation::Iterate` of libsimulator (Simulation.cpp:37-61):
the simulation as the call leaves it, or (error) as the exception of the
strategic or the tactical pass leaves it. -/
def Iterate (ext : Externals K) (s : Simulation K) : Except (Simulation K) (Simulation K) :=
  let (agents, removed) := ext.AgentExitSystemRun s._agents s._removedAgentsInLastIteration
  let s := { s with _agents := agents, _removedAgentsInLastIteration := removed }.called
    Call.AgentExitSystemRun
  let s := { s with _neighborhoodSearch := s._neighborhoodSearch.Update s._agents }.called
    Call.NeighborhoodSearchUpdate
  let s := { s with
    _stages := s._stages.map (Iterate_stage ext s._neighborhoodSearch)
    calls := s.calls ++ (s._stages.filter updatable).map
      (fun entry => Call.StageUpdate entry.1 s._neighborhoodSearch.ids) }
  match StrategicalDecisionSystem_Run ext s s._agents with
  | .error (s, agents) => .error ({ s with _agents := agents }.called Call.StrategicalRun)
  | .ok (s, agents) =>
    let s := { s with _agents := agents }.called Call.StrategicalRun
    match TacticalDecisionSystem_Run ext s._agents with
    | .error agents => .error ({ s with _agents := agents }.called Call.TacticalRun)
    | .ok agents =>
      let s := { s with _agents := agents }.called Call.TacticalRun
      let s := { s with
        _agents := ext.OperationalRun s._clock.dT s._clock.ElapsedTime s._neighborhoodSearch
          s._agents }.called (Call.OperationalRun s._neighborhoodSearch.ids)
      .ok ({ s with _clock := s._clock.Advance }.called Call.Advance)

/-- The run of `n` calls of `Iterate` in a row, up to the first that throws. -/
def IterateN (ext : Externals K) : Nat → Simulation K → Except (Simulation K) (Simulation K)
  | 0, s => .ok s
  | n + 1, s =>
    match Iterate ext s with
    | .ok s => IterateN ext n s
    | .error s => .error s

/-- The function `Simulation::AddAgent` (Simulation.cpp:142-161): the id it
returns and the simulation as it leaves it, or (error) the simulation as the
exception leaves it.  The three checks throw before anything is written; the
strategic and the tactical pass run, and can throw, after the agent has been
put into the list and into the index. -/
def AddAgent (ext : Externals K) (s : Simulation K) (agent : GenericAgent K) :
    Except (Simulation K) (Nat × Simulation K) :=
  let agent := { agent with orientation := agent.orientation.Normalized ext.sqrt ext.zeroLen }
  if ext.ValidateAgent agent s._neighborhoodSearch = false then
    .error s
  else
    match s.journey agent.journeyId with
    | none => .error s
    | some journey =>
      if journey.ContainsStage agent.stageId = false then
        .error s
      else
        let s := { s with _agents := s._agents ++ [agent] }
        let s := { s with _neighborhoodSearch := s._neighborhoodSearch.AddAgent agent }
        let v := s._agents.drop (s._agents.length - 1)
        match StrategicalDecisionSystem_Run ext s v with
        | .error (s', v) =>
          .error { s' with _agents := s._agents.take (s._agents.length - 1) ++ v }
        | .ok (s', v) =>
          let s := { s' with _agents := s._agents.take (s._agents.length - 1) ++ v }
          match TacticalDecisionSystem_Run ext (s._agents.drop (s._agents.length - 1)) with
          | .error v => .error { s with _agents := s._agents.take (s._agents.length - 1) ++ v }
          | .ok v =>
            let s := { s with _agents := s._agents.take (s._agents.length - 1) ++ v }
            .ok ((s._agents.getLastD agent).id, s)

/-- The three checks of `AddAgent` (Simulation.cpp:144-153) pass: the
operational model accepts the agent, its journey is known, and its stage is
part of that journey. -/
def AddAgent_checks (ext : Externals K) (s : Simulation K) (agent : GenericAgent K) : Bool :=
  ext.ValidateAgent
      { agent with orientation := agent.orientation.Normalized ext.sqrt ext.zeroLen }
      s._neighborhoodSearch
    && match s.journey agent.journeyId with
      | none => false
      | some journey => journey.ContainsStage agent.stageId

/-- Modelled from the spec: `NeighborhoodSearch::RemoveAgent`, the agent that
is handed in leaves the index. -/
def NeighborhoodSearch.RemoveAgent (index : NeighborhoodSearch K) (agent : GenericAgent K) :
    NeighborhoodSearch K :=
  { agents := index.agents.filter (fun other => other.id != agent.id) }

/-- Modelled from the spec: `NeighborhoodSearch::GetNeighboringAgents`, "all
agents whose position is within r of query point". -/
def NeighborhoodSearch.GetNeighboringAgents (sqrt : K → K) (index : NeighborhoodSearch K)
    (p : Point K) (distance : K) : List (GenericAgent K) :=
  index.agents.filter (fun agent => decide ((agent.pos - p).Norm sqrt ≤ distance))

/-- The function `Simulation::RemoveAgent` (Simulation.cpp:163-172).  An
iterator is a position in the vector: after `erase` it designates the agent
that followed the erased one, and no agent when the erased one was the last.
The result is the simulation as the call leaves it, or (error) as the
exception leaves it; `none` when the call reads the end of the vector. -/
def RemoveAgent (s : Simulation K) (id : Nat) : Option (Except (Simulation K) (Simulation K)) :=
  let iter := s._agents.findIdx (fun agent => agent.id == id)
  if iter = s._agents.length then
    some (.error s)
  else
    let s := { s with _agents := s._agents.eraseIdx iter }
    match s._agents[iter]? with
    | none => none
    | some agent =>
      some (.ok { s with _neighborhoodSearch := s._neighborhoodSearch.RemoveAgent agent })

/-- The function `Simulation::RemoveAgent` (Simulation.cpp:163-172) as a build
runs it: the read `*iter` after `erase` yields what the storage of the vector
holds at that position, which is the agent that followed the erased one, or,
when the erased one was the last, whatever the slot behind the new end holds,
`stale`.  Where `RemoveAgent` has a result, this is it. -/
def RemoveAgent_stale (stale : GenericAgent K) (s : Simulation K) (id : Nat) :
    Except (Simulation K) (Simulation K) :=
  let iter := s._agents.findIdx (fun agent => agent.id == id)
  if iter = s._agents.length then
    .error s
  else
    let s := { s with _agents := s._agents.eraseIdx iter }
    let agent := (s._agents[iter]?).getD stale
    .ok { s with _neighborhoodSearch := s._neighborhoodSearch.RemoveAgent agent }

/-- The function `Simulation::AgentsInRange` (Simulation.cpp:250-262). -/
def AgentsInRange (ext : Externals K) (s : Simulation K) (p : Point K) (distance : K) :
    List Nat :=
  let neighbors := s._neighborhoodSearch.GetNeighboringAgents ext.sqrt p distance
  neighbors.map (fun agent => agent.id)

/-- The function `Simulation::AgentsInPolygon` (Simulation.cpp:264-282): the
ids it returns and the simulation as it leaves it, or the simulation as the
exception leaves it. -/
def AgentsInPolygon (ext : Externals K) (s : Simulation K) (polygon : List (Point K)) :
    Except (Simulation K) (List Nat × Simulation K) :=
  if ext.IsConvex polygon = false then
    .error s
  else
    let (p, dist) := ext.ContainingCircle polygon
    let candidates := s._neighborhoodSearch.GetNeighboringAgents ext.sqrt p dist
    let result := candidates.foldl
      (fun (result : List Nat) (agent : GenericAgent K) =>
        if ext.IsInside polygon agent.pos then result ++ [agent.id] else result) []
    .ok (result, s)

/-- Modelled from the spec: `StageDescription`, "desc ∈ {Waypoint, Exit,
WaitingSet, Queue} with the fields above". -/
inductive StageDescription (K : Type) where
  | WaypointDescription (position : Point K) (distance : K)
  | ExitDescription (polygon : List (Point K))
  | NotifiableWaitingSetDescription (slots : List (Point K))
  | NotifiableQueueDescription (slots : List (Point K))

/-- Modelled from the spec: `TransitionDescription`, the rule of a node as it
is described to `AddJourney`: "FixedTransition(next), RoundRobinTransition(list
of (stageId, weight)), or NonTransition (terminal)". -/
inductive TransitionDescription where
  | NonTransitionDescription
  | FixedTransitionDescription (NextId : Nat)
  | RoundRobinTransitionDescription (WeightedStages : List (Nat × Nat))
deriving DecidableEq, Repr

/-- The lookup `_stages.find` in the map of the stages: the id is a key. -/
def Simulation.hasStage (s : Simulation K) (id : Nat) : Bool :=
  s._stages.any (fun entry => entry.1 == id)

/-- The function `Simulation::AddStage` (Simulation.cpp:117-140).  `id` is the
id that the new stage is born with; the map `_stages` is kept in the order of
its keys. -/
def AddStage (s : Simulation K) (stageDescription : StageDescription K) (id : Nat) :
    Except (Simulation K) (Nat × Simulation K) :=
  let stage : BaseStage K :=
    match stageDescription with
    | .WaypointDescription position distance => BaseStage.Waypoint position distance
    | .ExitDescription polygon => BaseStage.Exit polygon
    | .NotifiableWaitingSetDescription slots => BaseStage.NotifiableWaitingSet slots []
    | .NotifiableQueueDescription slots => BaseStage.NotifiableQueue slots []
  if s.hasStage id then
    .error s
  else
    .ok (id, { s with
      _stages := s._stages.orderedInsert (fun a b => a.1 ≤ b.1) (id, stage) })

/-- The rule that `AddJourney` builds for the node `id` from its description
(Simulation.cpp:79-107); `none` when `_stages.at` throws. -/
def AddJourney_transition (s : Simulation K) (id : Nat) :
    TransitionDescription → Option Transition
  | .NonTransitionDescription =>
    if s.hasStage id then some (Transition.FixedTransition id) else none
  | .FixedTransitionDescription NextId =>
    if s.hasStage NextId then some (Transition.FixedTransition NextId) else none
  | .RoundRobinTransitionDescription WeightedStages =>
    if WeightedStages.all (fun pair => s.hasStage pair.1) then
      some (Transition.RoundRobinTransition WeightedStages 0)
    else none

/-- The node that `AddJourney` builds for one entry of the description
(Simulation.cpp:71-108); `none` when it throws. -/
def AddJourney_node (s : Simulation K) (pair : Nat × TransitionDescription) :
    Option (Nat × JourneyNode) :=
  if s.hasStage pair.1 = false then
    none
  else
    match AddJourney_transition s pair.1 pair.2 with
    | none => none
    | some transition => some (pair.1, { stage := pair.1, transition := transition })

/-- The loop of `std::transform` in `AddJourney` over the entries of the
description, in their order; `none` when an entry throws. -/
def AddJourney_nodes (s : Simulation K) :
    List (Nat × TransitionDescription) → Option (List (Nat × JourneyNode))
  | [] => some []
  | pair :: rest =>
    match AddJourney_node s pair with
    | none => none
    | some node =>
      match AddJourney_nodes s rest with
      | none => none
      | some nodes => some (node :: nodes)

/-- The function `Simulation::AddJourney` (Simulation.cpp:63-115).  `id` is
the id that the new journey is born with. -/
def AddJourney (s : Simulation K) (stages : List (Nat × TransitionDescription)) (id : Nat) :
    Except (Simulation K) (Nat × Simulation K) :=
  match AddJourney_nodes s stages with
  | none => .error s
  | some nodes =>
    let journey : Journey := { id := id, stages := nodes }
    .ok (id, { s with _journeys := s._journeys ++ [(id, journey)] })

/-- The stages that a rule can select as next stage. -/
def Transition.targets : Transition → List Nat
  | .FixedTransition next => [next]
  | .RoundRobinTransition weightedStages _ => weightedStages.map (fun pair => pair.1)

/-! ### The ledger of the agents -/

/-- A call of the simulation that adds or removes agents; `stale` is what a
`RemoveAgent` of the last agent of the list reads behind the end of the
vector. -/
inductive Op (K : Type) where
  | AddAgent (agent : GenericAgent K)
  | RemoveAgent (id : Nat) (stale : GenericAgent K)
  | Iterate

/-- The ledger of a run: how many agents were added by calls of `AddAgent`
that returned, how many were left behind by calls of `AddAgent` that threw
after their checks, and how many were removed. -/
structure Ledger where
  added : Nat
  stranded : Nat
  removed : Nat
deriving DecidableEq, Repr

/-- One call and its entry in the ledger: an `AddAgent` that returns counts as
one agent added, one that throws after its three checks have passed as one
agent left behind, and one that fails a check counts nothing; a `RemoveAgent`
that returns counts as one agent removed and one that throws counts nothing; a
tick, whether it returns or throws, counts as many removed as the exit system
takes off the list. -/
def step (ext : Externals K) (state : Simulation K × Ledger) : Op K → Simulation K × Ledger
  | .AddAgent agent =>
    match AddAgent ext state.1 agent with
    | .ok (_, s) => (s, { state.2 with added := state.2.added + 1 })
    | .error s =>
      (s, { state.2 with
        stranded := state.2.stranded + (if AddAgent_checks ext state.1 agent then 1 else 0) })
  | .RemoveAgent id stale =>
    match RemoveAgent_stale stale state.1 id with
    | .ok s => (s, { state.2 with removed := state.2.removed + 1 })
    | .error s => (s, state.2)
  | .Iterate =>
    let ledger := { state.2 with
      removed := state.2.removed + (state.1._agents.length
        - (ext.AgentExitSystemRun state.1._agents
            state.1._removedAgentsInLastIteration).1.length) }
    match Iterate ext state.1 with
    | .ok s => (s, ledger)
    | .error s => (s, ledger)

/-- A run of calls, one after the other. -/
def run (ext : Externals K) : List (Op K) → Simulation K × Ledger → Simulation K × Ledger
  | [], state => state
  | op :: rest, state => run ext rest (step ext state op)

/-! ### A small simulation for concrete runs -/

/-- Twice the signed area of the triangle `a`, `b`, `c`: positive when `c`
lies to the left of the line from `a` to `b`. -/
def Scenario.cross (a b c : Point K) : K :=
  (b.x - a.x) * (c.y - a.y) - (b.y - a.y) * (c.x - a.x)

/-- The edges of a polygon. -/
def Scenario.edges (polygon : List (Point K)) : List (Point K × Point K) :=
  polygon.zip (polygon.rotate 1)

/-- The externals of the concrete runs: the exit system removes the agents
whose ids are listed and empties the list; a waiting set and a queue keep the
occupants that are in the index; every journey leaves the target and the stage
of an agent as they are; the router sends an agent straight to its target, and
neither throws; the
operational model rejects an agent at the position of an agent of the index
and leaves every agent where it is.  A polygon is convex when it turns left at
each of its corners, a point is inside when it lies to the left of every edge
or on it, and the containing circle is centred at the first corner with the
sum of the coordinate distances of the corners from it as radius. -/
def Scenario.ext (sqrt : K → K) : Externals K where
  sqrt := sqrt
  zeroLen := 0
  AgentExitSystemRun := fun agents removed =>
    (agents.filter (fun agent => !removed.contains agent.id), [])
  WaitingSetUpdate := fun _ occupants index => occupants.filter (fun id => index.ids.contains id)
  QueueUpdate := fun _ occupants index => occupants.filter (fun id => index.ids.contains id)
  Target := fun journeys stages removed agent =>
    some ⟨journeys, stages, removed, agent.target, agent.stageId⟩
  ComputeWaypoint := fun _ target => some target
  ValidateAgent := fun agent index =>
    index.agents.all (fun other => decide (other.pos ≠ agent.pos))
  OperationalRun := fun _ _ _ agents => agents
  IsConvex := fun polygon =>
    decide (3 ≤ polygon.length)
      && ((Scenario.edges polygon).zip (polygon.rotate 2)).all
        (fun triple => decide (0 ≤ Scenario.cross triple.1.1 triple.1.2 triple.2))
  ContainingCircle := fun polygon =>
    (polygon.headD 0,
      (polygon.map (fun corner =>
        |corner.x - (polygon.headD 0).x| + |corner.y - (polygon.headD 0).y|)).sum)
  IsInside := fun polygon p =>
    (Scenario.edges polygon).all (fun edge => decide (0 ≤ Scenario.cross edge.1 edge.2 p))

/-- The externals of the concrete runs with a navigation mesh that covers the
half plane `x ≥ 0` only: the router throws at an agent whose target lies
outside of it. -/
def Scenario.offMesh (sqrt : K → K) : Externals K :=
  { Scenario.ext sqrt with
    ComputeWaypoint := fun _ target => if target.x < 0 then none else some target }

/-- An agent of the concrete runs: on journey 1 at stage 1, heading for
(10, 0) with speed 1. -/
def Scenario.agent (id : Nat) (pos : Point K) : GenericAgent K where
  id := id
  journeyId := 1
  stageId := 1
  target := ⟨10, 0⟩
  destination := ⟨10, 0⟩
  pos := pos
  orientation := ⟨1, 0⟩
  speed := 1

/-- An agent of the concrete runs whose target, (-1, 0), lies outside the
navigation mesh of `Scenario.offMesh`. -/
def Scenario.lost (id : Nat) (pos : Point K) : GenericAgent K :=
  { Scenario.agent id pos with target := ⟨-1, 0⟩ }

/-- The simulation of the concrete runs: the clock of step 0.01 at 0, the
agents `agents`, of which those of the ids `removed` have reached an exit, a
waypoint (stage 1), a queue (stage 2) and an exit (stage 3), and the journey 1
that stays at the waypoint. -/
def Scenario.sim (agents : List (GenericAgent K)) (removed : List Nat) : Simulation K where
  _clock := ⟨0, 1 / 100⟩
  _agents := agents
  _removedAgentsInLastIteration := removed
  _neighborhoodSearch := ⟨agents⟩
  _stages := [(1, BaseStage.Waypoint ⟨10, 0⟩ 1), (2, BaseStage.NotifiableQueue [⟨5, 0⟩] []),
    (3, BaseStage.Exit [⟨10, -1⟩, ⟨11, -1⟩, ⟨11, 1⟩, ⟨10, 1⟩])]
  _journeys := [(1, ⟨1, [(1, ⟨1, Transition.FixedTransition 1⟩)]⟩)]
  calls := []

end Code

end LibSimulator

/-! ## The access points of the global shortest router
(`libcore/src/routing/global_shortest/AccessPoint.cpp`) -/

namespace LibCore

open VelocityModel

/-- An `AccessPoint *`: the identity of an access point object. -/
abbrev APPtr := Nat

/-- The members of `AccessPoint` that `GetNearestTransitAPTO` reaches
(constructor, AccessPoint.cpp:31-49).  A key without entry in `_mapDestToDist`
is `none`; a key without entry in `_navigationGraphTo` has the empty vector
that `operator[]` creates for it. -/
structure AccessPoint (K : Type) where
  _id : Int
  pCentre : Point K
  _mapDestToDist : Int → Option K
  _navigationGraphTo : Int → List APPtr

section AccessPointCode

variable {K : Type} [LinearOrderedField K]

/-- The function `AccessPoint::GetID` (AccessPoint.cpp:57-60). -/
def AccessPoint.GetID (ap : AccessPoint K) : Int := ap._id

/-- The function `AccessPoint::GetCentre` (AccessPoint.cpp:82-85). -/
def AccessPoint.GetCentre (ap : AccessPoint K) : Point K := ap.pCentre

/-- The function `AccessPoint::AddFinalDestination` (AccessPoint.cpp:103-106). -/
def AccessPoint.AddFinalDestination (ap : AccessPoint K) (UID : Int) (distance : K) :
    AccessPoint K :=
  { ap with _mapDestToDist := Function.update ap._mapDestToDist UID (some distance) }

/-- The function `AccessPoint::GetDistanceTo(int UID)` (AccessPoint.cpp:108-117);
`none` is `exit(EXIT_FAILURE)`. -/
def AccessPoint.GetDistanceTo_UID (ap : AccessPoint K) (UID : Int) : Option K :=
  match ap._mapDestToDist UID with
  | none => none
  | some distance => some distance

/-- The function `AccessPoint::GetDistanceTo(AccessPoint * ap)`
(AccessPoint.cpp:119-122). -/
def AccessPoint.GetDistanceTo (sqrt : K → K) (self ap : AccessPoint K) : K :=
  (self.pCentre - ap.GetCentre).Norm sqrt

/-- The function `AccessPoint::GetTransitAPsTo` (AccessPoint.cpp:228-231). -/
def AccessPoint.GetTransitAPsTo (ap : AccessPoint K) (UID : Int) : List APPtr :=
  ap._navigationGraphTo UID

/-- The function `AccessPoint::AddTransitAPsTo` (AccessPoint.cpp:233-236). -/
def AccessPoint.AddTransitAPsTo (self : AccessPoint K) (UID : Int) (ap : APPtr) :
    AccessPoint K :=
  { self with
    _navigationGraphTo :=
      Function.update self._navigationGraphTo UID (self._navigationGraphTo UID ++ [ap]) }

/-- The function `AccessPoint::Reset` (AccessPoint.cpp:238-241). -/
def AccessPoint.Reset (ap : AccessPoint K) (UID : Int) : AccessPoint K :=
  { ap with _navigationGraphTo := Function.update ap._navigationGraphTo UID [] }

/-- The body of the loop of `GetNearestTransitAPTO` (AccessPoint.cpp:159-165)
on `min_dist` and `best_ap`. -/
def GetNearestTransitAPTO_step (sqrt : K → K) (heap : APPtr → AccessPoint K)
    (self : AccessPoint K) (acc : K × APPtr) (candidate : APPtr) : K × APPtr :=
  let tmp := self.GetDistanceTo sqrt (heap candidate)
  if tmp < acc.1 then (tmp, candidate) else acc

/-- The function `AccessPoint::GetNearestTransitAPTO` (AccessPoint.cpp:145-168)
with the access point objects `heap` behind the pointers; `none` is the exit
in `GetDistanceTo(UID)`. -/
def AccessPoint.GetNearestTransitAPTO (sqrt : K → K) (heap : APPtr → AccessPoint K)
    (self : AccessPoint K) (UID : Int) : Option Int :=
  let possibleDest := self._navigationGraphTo UID
  match possibleDest with
  | [] => some (-1)
  | [only] => some (heap only).GetID
  | first :: _ =>
    let best_ap := first
    match (heap best_ap).GetDistanceTo_UID UID with
    | none => none
    | some stored =>
      let min_dist := self.GetDistanceTo sqrt (heap best_ap) + stored
      let (_, best_ap) := possibleDest.foldl (GetNearestTransitAPTO_step sqrt heap self)
        (min_dist, best_ap)
      some (heap best_ap).GetID

/-- The access points of the concrete runs: behind pointer 0 the access point
0 at (0, 0), which knows the access points behind the pointers of `candidates`
as transit points to the destination 7; behind pointer `i + 1` the access
point of id `10 + i` at (`xs[i]`, 0), at the stored distance `stored[i]` from
every destination. -/
def Scenario.accessPoints (candidates : List APPtr) (xs stored : List K) :
    APPtr → AccessPoint K
  | 0 =>
    { _id := 0
      pCentre := ⟨0, 0⟩
      _mapDestToDist := fun _ => none
      _navigationGraphTo := fun UID => if UID = 7 then candidates else [] }
  | i + 1 =>
    { _id := 10 + i
      pCentre := ⟨xs.getD i 0, 0⟩
      _mapDestToDist := fun _ => stored[i]?
      _navigationGraphTo := fun _ => [] }

end AccessPointCode

end LibCore

/-! ## A floor-field strategy for concrete runs of the velocity model -/

namespace VelocityModel

section FloorField

variable {K : Type} [LinearOrderedField K]

/-- The velocity model of the concrete runs with a floor-field strategy whose
target is the point (10, 0) for every agent. -/
def Scenario.floorModel : Model K where
  _direction := some
    { GetTarget := fun _ _ => ⟨10, 0⟩
      LocalFloorfield := true }
  _aPed := 8
  _DPed := 1 / 10
  _aWall := 5
  _DWall := 1 / 50

end FloorField

end VelocityModel

/-! ## Theorems -/

set_option linter.unusedSectionVars false
set_option linter.unusedVariables false

namespace VelocityModel

section Lemmas

variable {K : Type} [LinearOrderedField K]

theorem Point.normSquare_nonneg (p : Point K) : 0 ≤ p.NormSquare := by
  unfold Point.NormSquare
  nlinarith [mul_self_nonneg p.x, mul_self_nonneg p.y]

theorem Point.norm_nonneg {sqrt : K → K} (hs : IsSqrt sqrt) (p : Point K) :
    0 ≤ p.Norm sqrt :=
  (hs _ p.normSquare_nonneg).1

theorem Point.norm_mul_self {sqrt : K → K} (hs : IsSqrt sqrt) (p : Point K) :
    p.Norm sqrt * p.Norm sqrt = p.NormSquare :=
  (hs _ p.normSquare_nonneg).2

/-- A non-negative number whose square is `a` is `sqrt a`. -/
theorem IsSqrt.eq_of_sq {sqrt : K → K} (hs : IsSqrt sqrt) {a b : K} (hb : 0 ≤ b)
    (h : b * b = a) : sqrt a = b := by
  have ha : 0 ≤ a := by rw [← h]; exact mul_self_nonneg b
  obtain ⟨h0, h1⟩ := hs a ha
  have : sqrt a * sqrt a = b * b := by rw [h1, h]
  exact (mul_self_inj h0 hb).1 this

theorem Point.norm_smul {sqrt : K → K} (hs : IsSqrt sqrt) (p : Point K) (c : K) :
    (p.smul c).Norm sqrt = p.Norm sqrt * |c| := by
  unfold Point.Norm
  apply hs.eq_of_sq (mul_nonneg (hs _ p.normSquare_nonneg).1 (abs_nonneg c))
  have h1 := (hs _ p.normSquare_nonneg).2
  have h2 : |c| * |c| = c * c := abs_mul_abs_self c
  calc sqrt p.NormSquare * |c| * (sqrt p.NormSquare * |c|)
      = (sqrt p.NormSquare * sqrt p.NormSquare) * (|c| * |c|) := by ring
    _ = p.NormSquare * (c * c) := by rw [h1, h2]
    _ = (p.smul c).NormSquare := by simp only [Point.NormSquare, Point.smul]; ring

theorem Point.norm_zero {sqrt : K → K} (hs : IsSqrt sqrt) : (0 : Point K).Norm sqrt = 0 := by
  unfold Point.Norm
  apply hs.eq_of_sq le_rfl
  show (0 : K) * 0 = (0 : K) * 0 + 0 * 0
  ring

theorem Point.norm_sdiv_self {sqrt : K → K} (hs : IsSqrt sqrt) (p : Point K)
    (hp : 0 < p.Norm sqrt) : (p.sdiv (p.Norm sqrt)).Norm sqrt = 1 := by
  have hsq := p.norm_mul_self hs
  have hne : p.Norm sqrt ≠ 0 := ne_of_gt hp
  show sqrt (p.sdiv (p.Norm sqrt)).NormSquare = 1
  apply hs.eq_of_sq zero_le_one
  simp only [Point.NormSquare, Point.sdiv] at hsq ⊢
  field_simp
  linarith

/-- The result of `Normalized` is never longer than 1. -/
theorem Point.norm_normalized_le_one {sqrt : K → K} (hs : IsSqrt sqrt) (zeroLen : K)
    (p : Point K) : (p.Normalized sqrt zeroLen).Norm sqrt ≤ 1 := by
  unfold Point.Normalized
  split_ifs with h
  · rcases (p.norm_nonneg hs).lt_or_eq with hpos | hzero
    · exact le_of_eq (p.norm_sdiv_self hs hpos)
    · have hz : p.sdiv (p.Norm sqrt) = 0 := by
        rw [← hzero]
        show (⟨p.x / 0, p.y / 0⟩ : Point K) = ⟨0, 0⟩
        simp
      rw [hz, Point.norm_zero hs]
      exact zero_le_one
  · rw [Point.norm_zero hs]
    exact zero_le_one

theorem OptimalSpeed_eq (ped : Pedestrian K) (spacing : K) (hT : ped.T ≠ 0) :
    OptimalSpeed ped spacing
      = min (max ((spacing - 2 * ped.Bmax) / ped.T) 0) ped.V0Norm := by
  simp only [OptimalSpeed, if_neg hT]
  rcases lt_or_le 0 ((spacing - 2 * ped.Bmax) / ped.T) with h | h
  · rw [if_pos h, max_eq_left h.le]
    rcases lt_or_le ((spacing - 2 * ped.Bmax) / ped.T) ped.V0Norm with h2 | h2
    · rw [if_pos h2, min_eq_left h2.le]
    · rw [if_neg (not_lt.2 h2), min_eq_right h2]
  · rw [if_neg (not_lt.2 h), max_eq_right h]
    rcases lt_or_le 0 ped.V0Norm with h2 | h2
    · rw [if_pos h2, min_eq_left h2.le]
    · rw [if_neg (not_lt.2 h2), min_eq_right h2]

/-- The speed at a time gap of zero: the desired speed when the spacing
exceeds `l`, and the smaller of 0 and the desired speed otherwise. -/
theorem OptimalSpeed_zero (ped : Pedestrian K) (spacing : K) (hT : ped.T = 0) :
    OptimalSpeed ped spacing
      = if spacing - 2 * ped.Bmax > 0 then ped.V0Norm else min 0 ped.V0Norm := by
  simp only [OptimalSpeed, if_pos hT]
  split_ifs with h1 h2
  · rfl
  · exact (min_eq_left h2.le).symm
  · exact (min_eq_right (not_lt.1 h2)).symm

theorem OptimalSpeed_nonneg (ped : Pedestrian K) (spacing : K) (h : 0 ≤ ped.V0Norm) :
    0 ≤ OptimalSpeed ped spacing := by
  by_cases hT : ped.T = 0
  · rw [OptimalSpeed_zero ped spacing hT]
    split_ifs
    · exact h
    · exact le_min (le_refl 0) h
  · rw [OptimalSpeed_eq ped spacing hT]
    exact le_min (le_max_right _ _) h

theorem OptimalSpeed_le (ped : Pedestrian K) (spacing : K) :
    OptimalSpeed ped spacing ≤ ped.V0Norm := by
  by_cases hT : ped.T = 0
  · rw [OptimalSpeed_zero ped spacing hT]
    split_ifs
    · exact le_refl _
    · exact min_le_right _ _
  · rw [OptimalSpeed_eq ped spacing hT]
    exact min_le_right _ _

/-! ### The first loop reads positions only -/

theorem SamePositions.same_refl (s : Store K) : SamePositions s s :=
  fun _ => ⟨rfl, rfl⟩

theorem SamePositions.same_symm {s s' : Store K} (h : SamePositions s s') : SamePositions s' s :=
  fun j => ⟨(h j).1.symm, (h j).2.symm⟩

theorem SamePositions.same_trans {s s' s'' : Store K} (h : SamePositions s s')
    (h' : SamePositions s' s'') : SamePositions s s'' :=
  fun j => ⟨(h j).1.trans (h' j).1, (h j).2.trans (h' j).2⟩

theorem SamePositions.update {s s' : Store K} (h : SamePositions s s') (i : PedPtr)
    (p : Pedestrian K) : SamePositions (Function.update s i p) (Function.update s' i p) := by
  intro j
  by_cases hj : j = i
  · subst hj; simp
  · simp [Function.update_noteq hj, h j]

theorem SamePositions.update_left {s : Store K} (i : PedPtr) (p : Pedestrian K)
    (hp : p.Pos = (s i).Pos) (hu : p.UID = (s i).UID) :
    SamePositions s (Function.update s i p) := by
  intro j
  by_cases hj : j = i
  · subst hj; simp [hp, hu]
  · simp [Function.update_noteq hj]

theorem Pedestrian.SameBody.body_refl (p : Pedestrian K) : p.SameBody p := by
  cases p; rfl

theorem ForceRepPed_congr (ext : Externals K) (m : Model K) (ped1 ped2 ped2' : Pedestrian K)
    (h : ped2.Pos = ped2'.Pos) : ForceRepPed ext m ped1 ped2 = ForceRepPed ext m ped1 ped2' := by
  simp only [ForceRepPed, h]

theorem GetSpacing_congr (ext : Externals K) (ped1 ped2 ped2' : Pedestrian K) (ei : Point K)
    (h : ped2.Pos = ped2'.Pos) (hu : ped2.UID = ped2'.UID) :
    GetSpacing ext ped1 ped2 ei = GetSpacing ext ped1 ped2' ei := by
  simp only [GetSpacing, h, hu]

theorem ComputeNextTimeStep_repPed_congr (ext : Externals K) (m : Model K) {s s' : Store K}
    (h : SamePositions s s') (ped : Pedestrian K) (room : RoomPtr) (subroom : SubRoomPtr)
    (ns : List PedPtr) (acc : Point K) :
    ComputeNextTimeStep_repPed ext m s ped room subroom ns acc
      = ComputeNextTimeStep_repPed ext m s' ped room subroom ns acc := by
  induction ns generalizing acc with
  | nil => rfl
  | cons n rest ih =>
    simp only [ComputeNextTimeStep_repPed, (h n).1,
      ForceRepPed_congr ext m ped (s n) (s' n) (h n).1, ih]

theorem ComputeNextTimeStep_spacings_congr (ext : Externals K) {s s' : Store K}
    (h : SamePositions s s') (ped : Pedestrian K) (room : RoomPtr) (subroom : SubRoomPtr)
    (direction : Point K) (ns : List PedPtr) (acc : List (my_pair K)) :
    ComputeNextTimeStep_spacings ext s ped room subroom direction ns acc
      = ComputeNextTimeStep_spacings ext s' ped room subroom direction ns acc := by
  induction ns generalizing acc with
  | nil => rfl
  | cons n rest ih =>
    simp only [ComputeNextTimeStep_spacings, (h n).1,
      GetSpacing_congr ext ped (s n) (s' n) direction (h n).1 (h n).2, ih]

/-- The call of `e0` writes the desired-direction state of the agent and nothing else. -/
theorem e0_sameBody (ext : Externals K) (m : Model K) (ped : Pedestrian K) (room : RoomPtr)
    (e : Point K) (ped' : Pedestrian K) (h : e0 ext m ped room = some (e, ped')) :
    ped.SameBody ped' := by
  unfold e0 at h
  cases hd : m._direction with
  | none => simp [hd] at h
  | some dir =>
    simp only [hd] at h
    split_ifs at h <;>
      (simp only [Option.some.injEq, Prod.mk.injEq, Pedestrian.GetV0To,
        Pedestrian.SetSmoothTurning] at h
       obtain ⟨-, rfl⟩ := h
       rfl)

theorem Pedestrian.SameBody.pos {p q : Pedestrian K} (h : p.SameBody q) : q.Pos = p.Pos := by
  rw [h]

theorem Pedestrian.SameBody.uid {p q : Pedestrian K} (h : p.SameBody q) : q.UID = p.UID := by
  rw [h]

theorem Pedestrian.SameBody.v {p q : Pedestrian K} (h : p.SameBody q) : q.V = p.V := by
  rw [h]

theorem Pedestrian.SameBody.premovement {p q : Pedestrian K} (h : p.SameBody q) :
    q.Premovement = p.Premovement := by
  rw [h]

theorem Pedestrian.SameBody.v0Norm {p q : Pedestrian K} (h : p.SameBody q) :
    q.V0Norm = p.V0Norm := by
  rw [h]

/-- One iteration of the first loop changes the store at `i` only, and there
only the desired-direction state. -/
theorem ComputeNextTimeStep_ped_store (ext : Externals K) (m : Model K) (s : Store K)
    (i : PedPtr) (s1 : Store K) (v : Point K)
    (h : ComputeNextTimeStep_ped ext m s i = .ok (s1, v)) :
    s1 = Function.update s i (s1 i) ∧ (s i).SameBody (s1 i) := by
  unfold ComputeNextTimeStep_ped at h
  simp only at h
  split at h
  · exact absurd h (by simp)
  · split at h
    · exact absurd h (by simp)
    · split at h
      · exact absurd h (by simp)
      · rename_i e ped' he
        split at h
        · exact absurd h (by simp)
        · simp only [Except.ok.injEq, Prod.mk.injEq] at h
          obtain ⟨rfl, -⟩ := h
          simp only [Function.update_same, Function.update_idem, true_and]
          exact e0_sameBody ext m _ _ _ _ he

/-- An iteration of the first loop that exits has written nothing but the
desired-direction state of the agent behind `i`. -/
theorem ComputeNextTimeStep_ped_error (ext : Externals K) (m : Model K) (s : Store K)
    (i : PedPtr) (e : Store K) (h : ComputeNextTimeStep_ped ext m s i = .error e) :
    ∀ j, (s j).SameBody (e j) := by
  unfold ComputeNextTimeStep_ped at h
  simp only at h
  have hrefl : ∀ e', Except.error (ε := Store K) (α := Store K × Point K) s = .error e' →
      ∀ j, (s j).SameBody (e' j) := by
    intro e' he' j
    simp only [Except.error.injEq] at he'
    subst he'
    exact Pedestrian.SameBody.body_refl _
  split at h
  · exact hrefl e h
  · split at h
    · exact hrefl e h
    · split at h
      · exact hrefl e h
      · rename_i e1 ped' he
        split at h
        · simp only [Except.error.injEq] at h
          subst h
          intro j
          by_cases hj : j = i
          · subst hj
            rw [Function.update_same]
            exact e0_sameBody ext m _ _ _ _ he
          · rw [Function.update_noteq hj]
            exact Pedestrian.SameBody.body_refl _
        · exact absurd h (by simp)

/-- What an iteration of the first loop computes for the agent behind `i`
depends on that agent and on the positions and ids of the others. -/
theorem ComputeNextTimeStep_pedResult_congr (ext : Externals K) (m : Model K)
    {s s' : Store K} (i : PedPtr) (hi : s i = s' i) (h : SamePositions s s') :
    ComputeNextTimeStep_pedResult ext m s i = ComputeNextTimeStep_pedResult ext m s' i := by
  unfold ComputeNextTimeStep_pedResult ComputeNextTimeStep_ped
  simp only [← hi, ComputeNextTimeStep_repPed_congr ext m h]
  cases ComputeNextTimeStep_repPed ext m s' (s i) (ext.GetRoomAndSubRoom (s i).Pos).1
      (ext.GetRoomAndSubRoom (s i).Pos).2 (ext.GetNeighbourhood (s i)) 0 with
  | none => rfl
  | some repPed =>
    cases ForceRepRoom ext m (s i) (ext.SubRoomAt (ext.GetRoomAndSubRoom (s i).Pos).2) with
    | none => rfl
    | some repWall =>
      cases e0 ext m (s i) (ext.GetRoomAndSubRoom (s i).Pos).1 with
      | none => rfl
      | some r =>
        obtain ⟨e, ped'⟩ := r
        simp only
        rw [ComputeNextTimeStep_spacings_congr ext (h.update i ped')]
        cases ComputeNextTimeStep_spacings ext (Function.update s' i ped') ped'
            (ext.GetRoomAndSubRoom (s i).Pos).1 (ext.GetRoomAndSubRoom (s i).Pos).2
            (e + repPed + repWall) (ext.GetNeighbourhood (s i)) [] with
        | none => rfl
        | some spacings => simp

theorem Pedestrian.SameBody.body_trans {p q r : Pedestrian K} (h : p.SameBody q)
    (h' : q.SameBody r) : p.SameBody r := by
  cases p; cases q; cases r
  simp only [Pedestrian.SameBody, Pedestrian.mk.injEq, true_and, and_true] at h h' ⊢
  obtain ⟨h1, h2, h3, h4, h5, h6, h7, h8, h9, h10⟩ := h
  obtain ⟨g1, g2, g3, g4, g5, g6, g7, g8, g9, g10⟩ := h'
  exact ⟨g1.trans h1, g2.trans h2, g3.trans h3, g4.trans h4, g5.trans h5, g6.trans h6,
    g7.trans h7, g8.trans h8, g9.trans h9, g10.trans h10⟩

theorem SameBodies.bodies_refl (s : Store K) : SameBodies s s :=
  fun j => Pedestrian.SameBody.body_refl (s j)

theorem SameBodies.samePositions {s s' : Store K} (h : SameBodies s s') :
    SamePositions s s' :=
  fun j => ⟨(h j).pos.symm, (h j).uid.symm⟩

/-- The first loop, started in a store `cur` that differs from the store `orig`
of the beginning only by what earlier iterations wrote, with the agents `rest`
still to come. -/
theorem ComputeNextTimeStep_velocities_spec (ext : Externals K) (m : Model K)
    (orig : Store K) :
    ∀ (rest : List PedPtr) (cur : Store K) (acc0 : List (Point K)), rest.Nodup →
      SameBodies orig cur → (∀ j ∈ rest, cur j = orig j) →
      (∀ s1 acc, ComputeNextTimeStep_velocities ext m cur rest acc0 = .ok (s1, acc) →
        ∃ vs, acc = acc0 ++ vs
          ∧ List.Forall₂
              (fun i v => ComputeNextTimeStep_pedResult ext m orig i = some (s1 i, v)) rest vs
          ∧ (∀ j, j ∉ rest → s1 j = cur j) ∧ SameBodies orig s1)
      ∧ (∀ e, ComputeNextTimeStep_velocities ext m cur rest acc0 = .error e →
          (∃ i ∈ rest, ComputeNextTimeStep_pedResult ext m orig i = none)
            ∧ SameBodies orig e) := by
  intro rest
  induction rest with
  | nil =>
    intro cur acc0 _ hb _
    constructor
    · intro s1 acc h
      simp only [ComputeNextTimeStep_velocities, Except.ok.injEq, Prod.mk.injEq] at h
      obtain ⟨rfl, rfl⟩ := h
      exact ⟨[], by simp, List.Forall₂.nil, fun _ _ => rfl, hb⟩
    · intro e h
      simp [ComputeNextTimeStep_velocities] at h
  | cons i rest ih =>
    intro cur acc0 hnd hb hcur
    have hi : i ∉ rest := (List.nodup_cons.1 hnd).1
    have hnd' : rest.Nodup := (List.nodup_cons.1 hnd).2
    have hres : ComputeNextTimeStep_pedResult ext m orig i
        = ComputeNextTimeStep_pedResult ext m cur i :=
      ComputeNextTimeStep_pedResult_congr ext m i (hcur i (List.mem_cons_self _ _)).symm
        hb.samePositions
    cases hstep : ComputeNextTimeStep_ped ext m cur i with
    | error e1 =>
      constructor
      · intro s1 acc h
        simp [ComputeNextTimeStep_velocities, hstep] at h
      · intro e h
        simp only [ComputeNextTimeStep_velocities, hstep, Except.error.injEq] at h
        subst h
        refine ⟨⟨i, List.mem_cons_self _ _, ?_⟩, ?_⟩
        · rw [hres]
          simp [ComputeNextTimeStep_pedResult, hstep]
        · intro j
          exact (hb j).body_trans (ComputeNextTimeStep_ped_error ext m cur i e1 hstep j)
    | ok r =>
      obtain ⟨s2, v⟩ := r
      obtain ⟨hs2, hbody⟩ := ComputeNextTimeStep_ped_store ext m cur i s2 v hstep
      have hb2 : SameBodies orig s2 := by
        intro j
        by_cases hj : j = i
        · subst hj
          exact (hb j).body_trans hbody
        · rw [hs2, Function.update_noteq hj]
          exact hb j
      have hcur2 : ∀ j ∈ rest, s2 j = orig j := by
        intro j hj
        have hji : j ≠ i := fun h => hi (h ▸ hj)
        rw [hs2, Function.update_noteq hji]
        exact hcur j (List.mem_cons_of_mem _ hj)
      obtain ⟨ihok, iherr⟩ := ih s2 (acc0 ++ [v]) hnd' hb2 hcur2
      have hresi : ComputeNextTimeStep_pedResult ext m orig i = some (s2 i, v) := by
        rw [hres]
        simp [ComputeNextTimeStep_pedResult, hstep]
      constructor
      · intro s1 acc h
        simp only [ComputeNextTimeStep_velocities, hstep] at h
        obtain ⟨vs, hacc, hall, hout, hb1⟩ := ihok s1 acc h
        refine ⟨v :: vs, by simp [hacc], List.Forall₂.cons ?_ hall, ?_, hb1⟩
        · rw [hout i hi]
          exact hresi
        · intro j hj
          have hji : j ≠ i := fun h => hj (h ▸ List.mem_cons_self _ _)
          have hjr : j ∉ rest := fun h => hj (List.mem_cons_of_mem _ h)
          rw [hout j hjr, hs2, Function.update_noteq hji]
      · intro e h
        simp only [ComputeNextTimeStep_velocities, hstep] at h
        obtain ⟨⟨j, hj, hnone⟩, hbe⟩ := iherr e h
        exact ⟨⟨j, List.mem_cons_of_mem _ hj, hnone⟩, hbe⟩

/-- The second loop: the agents outside `rest` are not touched, the agent at
position `k` of `rest` gets the entry `counter + k` of `result_acc`. -/
theorem ComputeNextTimeStep_update_spec (ext : Externals K) (current deltaT : K)
    (result_acc : List (Point K)) :
    ∀ (rest : List PedPtr) (s : Store K) (counter : Nat), rest.Nodup →
      (∀ j, j ∉ rest →
        ComputeNextTimeStep_update ext current deltaT result_acc s rest counter j = s j)
      ∧ (∀ k (hk : k < rest.length),
        ComputeNextTimeStep_update ext current deltaT result_acc s rest counter rest[k]
          = ComputeNextTimeStep_updatePed ext current deltaT (s rest[k])
              (result_acc.getD (counter + k) 0)) := by
  intro rest
  induction rest with
  | nil =>
    intro s counter _
    exact ⟨fun _ _ => rfl, fun k hk => absurd hk (by simp)⟩
  | cons i rest ih =>
    intro s counter hnd
    have hi : i ∉ rest := (List.nodup_cons.1 hnd).1
    have hnd' : rest.Nodup := (List.nodup_cons.1 hnd).2
    obtain ⟨ihout, ihin⟩ := ih
      (Function.update s i (ComputeNextTimeStep_updatePed ext current deltaT (s i)
        (result_acc.getD counter 0))) (counter + 1) hnd'
    constructor
    · intro j hj
      have hji : j ≠ i := fun h => hj (h ▸ List.mem_cons_self _ _)
      have hjr : j ∉ rest := fun h => hj (List.mem_cons_of_mem _ h)
      simp only [ComputeNextTimeStep_update]
      rw [ihout j hjr, Function.update_noteq hji]
    · intro k hk
      cases k with
      | zero =>
        simp only [ComputeNextTimeStep_update, List.getElem_cons_zero, Nat.add_zero]
        rw [ihout i hi, Function.update_same]
      | succ k =>
        have hk' : k < rest.length := by simpa using hk
        have hne : rest[k] ≠ i := fun h => hi (h ▸ List.getElem_mem _)
        simp only [ComputeNextTimeStep_update, List.getElem_cons_succ]
        rw [ihin k hk', Function.update_noteq hne]
        congr 2
        omega

/-- The whole step in terms of the store it starts from: every agent of
`allPeds` ends as `ComputeNextTimeStep_pedFinal` says, the others are not
touched; a fatal exit comes from an iteration that fails on the store of the
beginning and leaves every position and velocity as it was. -/
theorem ComputeNextTimeStep_spec (ext : Externals K) (m : Model K) (current deltaT : K)
    (store : Store K) (allPeds : List PedPtr) (hnd : allPeds.Nodup) :
    (∀ store', ComputeNextTimeStep ext m current deltaT store allPeds = .ok store' →
        (∀ j ∈ allPeds,
          ComputeNextTimeStep_pedFinal ext m current deltaT store j = some (store' j))
        ∧ (∀ j, j ∉ allPeds → store' j = store j))
    ∧ (∀ e, ComputeNextTimeStep ext m current deltaT store allPeds = .error e →
        (∃ i ∈ allPeds, ComputeNextTimeStep_pedResult ext m store i = none)
          ∧ SameBodies store e) := by
  obtain ⟨hok, herr⟩ := ComputeNextTimeStep_velocities_spec ext m store allPeds store []
    hnd (SameBodies.bodies_refl store) (fun _ _ => rfl)
  constructor
  · intro store' h
    unfold ComputeNextTimeStep at h
    cases hv : ComputeNextTimeStep_velocities ext m store allPeds [] with
    | error e => simp [hv] at h
    | ok r =>
      obtain ⟨s1, acc⟩ := r
      simp only [hv, Except.ok.injEq] at h
      obtain ⟨vs, hacc, hall, hout, -⟩ := hok s1 acc hv
      simp only [List.nil_append] at hacc
      subst hacc
      obtain ⟨uout, uin⟩ := ComputeNextTimeStep_update_spec ext current deltaT acc allPeds s1 0 hnd
      constructor
      · intro j hj
        obtain ⟨k, hk, rfl⟩ := List.getElem_of_mem hj
        have hk' : k < acc.length := hall.length_eq ▸ hk
        have hget := hall.get hk hk'
        simp only [List.get_eq_getElem] at hget
        rw [← h, uin k hk, ComputeNextTimeStep_pedFinal, hget]
        simp [List.getD_eq_getElem?_getD, List.getElem?_eq_getElem hk']
      · intro j hj
        rw [← h, uout j hj, hout j hj]
  · intro e h
    unfold ComputeNextTimeStep at h
    cases hv : ComputeNextTimeStep_velocities ext m store allPeds [] with
    | error e' =>
      simp only [hv, Except.error.injEq] at h
      subst h
      exact herr e' hv
    | ok r =>
      obtain ⟨s1, acc⟩ := r
      simp [hv] at h

/-- A step either ends or exits, and it exits exactly when the iteration of
some agent fails on the store of the beginning. -/
theorem ComputeNextTimeStep_ok_iff (ext : Externals K) (m : Model K) (current deltaT : K)
    (store : Store K) (allPeds : List PedPtr) (hnd : allPeds.Nodup) :
    (∃ store', ComputeNextTimeStep ext m current deltaT store allPeds = .ok store')
      ↔ ∀ i ∈ allPeds, ComputeNextTimeStep_pedResult ext m store i ≠ none := by
  obtain ⟨hok, herr⟩ := ComputeNextTimeStep_spec ext m current deltaT store allPeds hnd
  constructor
  · rintro ⟨store', h⟩ i hi hnone
    have := (hok store' h).1 i hi
    simp [ComputeNextTimeStep_pedFinal, hnone] at this
  · intro hall
    cases h : ComputeNextTimeStep ext m current deltaT store allPeds with
    | ok store' => exact ⟨store', rfl⟩
    | error e =>
      obtain ⟨⟨i, hi, hnone⟩, -⟩ := herr e h
      exact absurd hnone (hall i hi)

/-- What the second loop does to one agent, in terms of the agent before the
first loop. -/
theorem ComputeNextTimeStep_updatePed_spec (ext : Externals K) (current deltaT : K)
    (p0 p : Pedestrian K) (v : Point K) (hb : p0.SameBody p) :
    (p0.InPremovement current = true →
        (ComputeNextTimeStep_updatePed ext current deltaT p v).Pos = p0.Pos
        ∧ (ComputeNextTimeStep_updatePed ext current deltaT p v).V = p0.V)
    ∧ (p0.InPremovement current = false →
        (ComputeNextTimeStep_updatePed ext current deltaT p v).Pos = p0.Pos + v.smul deltaT
        ∧ (ComputeNextTimeStep_updatePed ext current deltaT p v).V = v) := by
  have hpre : ∀ q : Pedestrian K, q.Premovement = p0.Premovement →
      q.InPremovement current = p0.InPremovement current := by
    intro q hq
    simp [Pedestrian.InPremovement, hq]
  have h1 : (p.SetPhiPed ext).InPremovement current = p0.InPremovement current :=
    hpre _ hb.premovement
  have h2 : p.InPremovement current = p0.InPremovement current := hpre _ hb.premovement
  have h3 : (p.SetPhiPed ext).Pos = p0.Pos := hb.pos
  have h4 : (p.SetPhiPed ext).V = p0.V := hb.v
  constructor
  · intro hin
    by_cases hn : v.Norm ext.sqrt ≥ ext.J_EPS_V
    · simp only [ComputeNextTimeStep_updatePed, if_pos hn, h1, hin]
      exact ⟨h3, h4⟩
    · simp only [ComputeNextTimeStep_updatePed, if_neg hn, h2, hin]
      exact ⟨hb.pos, hb.v⟩
  · intro hin
    by_cases hn : v.Norm ext.sqrt ≥ ext.J_EPS_V
    · simp only [ComputeNextTimeStep_updatePed, if_pos hn, h1, hin, hb.pos]
      exact ⟨rfl, rfl⟩
    · simp only [ComputeNextTimeStep_updatePed, if_neg hn, h2, hin, hb.pos]
      exact ⟨rfl, rfl⟩

theorem ComputeNextTimeStep_pedResult_sameBody (ext : Externals K) (m : Model K)
    (store : Store K) (i : PedPtr) (p : Pedestrian K) (v : Point K)
    (h : ComputeNextTimeStep_pedResult ext m store i = some (p, v)) :
    (store i).SameBody p := by
  unfold ComputeNextTimeStep_pedResult at h
  cases hstep : ComputeNextTimeStep_ped ext m store i with
  | error e => simp [hstep] at h
  | ok r =>
    obtain ⟨s1, v1⟩ := r
    simp only [hstep, Option.some.injEq, Prod.mk.injEq] at h
    obtain ⟨rfl, rfl⟩ := h
    exact (ComputeNextTimeStep_ped_store ext m store i s1 v1 hstep).2

/-! ### Forces -/

theorem Point.add_def (p q : Point K) : p + q = ⟨p.x + q.x, p.y + q.y⟩ := rfl

theorem Point.sub_def (p q : Point K) : p - q = ⟨p.x - q.x, p.y - q.y⟩ := rfl

theorem Point.zero_def : (0 : Point K) = ⟨0, 0⟩ := rfl

theorem Point.add_zero (p : Point K) : p + 0 = p := by
  cases p; simp [Point.add_def, Point.zero_def]

theorem Point.zero_smul (c : K) : (0 : Point K).smul c = 0 := by
  simp [Point.smul, Point.zero_def]

theorem ForceRepPed_eq_none_iff (ext : Externals K) (m : Model K) (ped1 ped2 : Pedestrian K) :
    ForceRepPed ext m ped1 ped2 = none ↔ (ped2.Pos - ped1.Pos).Norm ext.sqrt < ext.J_EPS := by
  unfold ForceRepPed
  simp only
  split_ifs with h
  · simp [not_lt.2 h]
  · simp [not_le.1 h]

theorem GetSpacing_eq_none_iff (ext : Externals K) (ped1 ped2 : Pedestrian K) (ei : Point K) :
    GetSpacing ext ped1 ped2 ei = none ↔ (ped2.Pos - ped1.Pos).Norm ext.sqrt < ext.J_EPS := by
  unfold GetSpacing
  simp only
  by_cases h : (ped2.Pos - ped1.Pos).Norm ext.sqrt ≥ ext.J_EPS
  · rw [if_pos h]
    split_ifs <;> simp [not_lt.2 h]
  · rw [if_neg h]
    simp [not_le.1 h]

theorem ForceRepWall_eq_zero (ext : Externals K) (m : Model K) (ped : Pedestrian K)
    (w : Line K) (centroid : Point K) (inside : Bool)
    (h : ext.DistToSquare ped.ExitLine ped.Pos < ext.J_EPS_GOAL * ext.J_EPS_GOAL) :
    ForceRepWall ext m ped w centroid inside = 0 := by
  simp only [ForceRepWall, if_pos h]

theorem ForceRepRoom_obstacles_eq (ext : Externals K) (m : Model K) (ped : Pedestrian K)
    (centroid : Point K) (inside : Bool) (obstacles : List (Obstacle K)) (f : Point K) :
    ForceRepRoom_obstacles ext m ped centroid inside obstacles f
      = if ∃ obst ∈ obstacles, ext.Contains obst ped.Pos = true then none
        else some ((obstacles.flatMap (fun obst => obst.AllWalls)).foldl
          (fun f wall => f + ForceRepWall ext m ped wall centroid inside) f) := by
  induction obstacles generalizing f with
  | nil => simp [ForceRepRoom_obstacles]
  | cons obst rest ih =>
    unfold ForceRepRoom_obstacles
    by_cases hc : ext.Contains obst ped.Pos = true
    · simp [hc]
    · rw [if_neg hc, ih]
      simp [hc, List.flatMap_cons, List.foldl_append]

theorem ForceRepRoom_transitions_eq (g : Line K → Point K) (ts : List (Transition K))
    (f : Point K) :
    ts.foldl (fun f trans => if !trans.IsOpen then f + g trans.line else f) f
      = ((ts.filter (fun trans => !trans.IsOpen)).map (fun trans => trans.line)).foldl
          (fun f w => f + g w) f := by
  induction ts generalizing f with
  | nil => rfl
  | cons t rest ih =>
    cases ho : t.IsOpen
    · simp only [List.foldl_cons, List.filter_cons, ho, Bool.not_false, ↓reduceIte,
        List.map_cons]
      exact ih _
    · simp only [List.foldl_cons, List.filter_cons, ho, Bool.not_true, Bool.false_eq_true,
        ↓reduceIte]
      exact ih _

/-- The function `ForceRepRoom` exits exactly when an obstacle of the subroom contains the
agent; otherwise it is the sum, taken from the left, of `ForceRepWall` over
`ForceRepRoom_lines`, each called with the centroid of the subroom and with
`inside` telling whether that centroid lies in the subroom. -/
theorem ForceRepRoom_eq (ext : Externals K) (m : Model K) (ped : Pedestrian K)
    (subroom : SubRoom K) :
    ForceRepRoom ext m ped subroom
      = if ∃ obst ∈ subroom.AllObstacles, ext.Contains obst ped.Pos = true then none
        else some (((ForceRepRoom_lines subroom).map
          (fun w => ForceRepWall ext m ped w subroom.Centroid
            (ext.IsInSubRoom subroom subroom.Centroid))).foldl (fun f g => f + g) 0) := by
  unfold ForceRepRoom
  simp only [ForceRepRoom_obstacles_eq]
  split_ifs with h
  · rfl
  · simp only []
    rw [ForceRepRoom_transitions_eq (fun w => ForceRepWall ext m ped w subroom.Centroid
      (ext.IsInSubRoom subroom subroom.Centroid))]
    simp only [ForceRepRoom_lines, List.map_append, List.foldl_append, List.foldl_map]

theorem foldl_add_zero (l : List (Point K)) (h : ∀ g ∈ l, g = 0) :
    l.foldl (fun f g => f + g) 0 = 0 := by
  induction l with
  | nil => rfl
  | cons a rest ih =>
    have ha : a = 0 := h a (List.mem_cons_self _ _)
    simp only [List.foldl_cons, ha, Point.add_zero]
    exact ih (fun g hg => h g (List.mem_cons_of_mem _ hg))

theorem ComputeNextTimeStep_connected_congr (ext : Externals K) {s s' : Store K}
    (h : SamePositions s s') (room : RoomPtr) (subroom : SubRoomPtr) (n : PedPtr) :
    ComputeNextTimeStep_connected ext s room subroom n
      = ComputeNextTimeStep_connected ext s' room subroom n := by
  simp only [ComputeNextTimeStep_connected, (h n).1]

/-- The second loop over the neighbours exits as soon as a neighbour that
passes its subroom test is closer than `J_EPS`. -/
theorem ComputeNextTimeStep_spacings_none (ext : Externals K) (s : Store K)
    (ped : Pedestrian K) (room : RoomPtr) (subroom : SubRoomPtr) (direction : Point K) :
    ∀ (ns : List PedPtr) (acc : List (my_pair K)),
      (∃ n ∈ ns, ComputeNextTimeStep_connected ext s room subroom n = true
        ∧ ((s n).Pos - ped.Pos).Norm ext.sqrt < ext.J_EPS) →
      ComputeNextTimeStep_spacings ext s ped room subroom direction ns acc = none := by
  intro ns
  induction ns with
  | nil =>
    rintro acc ⟨n, hn, -⟩
    exact absurd hn (List.not_mem_nil n)
  | cons a rest ih =>
    rintro acc ⟨n, hn, hc, hd⟩
    unfold ComputeNextTimeStep_spacings
    rcases List.mem_cons.1 hn with rfl | hrest
    · have hnone : GetSpacing ext ped (s n) direction = none :=
        (GetSpacing_eq_none_iff ext ped (s n) direction).2 hd
      simp only [ComputeNextTimeStep_connected, Bool.or_eq_true, decide_eq_true_eq] at hc
      simp only [hnone]
      rcases hc with hc | hc
      · rw [if_pos hc]
      · split_ifs <;> rfl
    · have hrec := fun acc' => ih acc' ⟨n, hrest, hc, hd⟩
      simp only
      split_ifs
      · cases GetSpacing ext ped (s a) direction with
        | none => rfl
        | some sp => exact hrec _
      · cases GetSpacing ext ped (s a) direction with
        | none => rfl
        | some sp => exact hrec _
      · exact hrec _

/-- The iteration of an agent exits when one of its neighbours, in the same or
in a directly connected subroom, is closer to it than `J_EPS`. -/
theorem ComputeNextTimeStep_ped_none (ext : Externals K) (m : Model K) (store : Store K)
    (i n : PedPtr) (hn : n ∈ ext.GetNeighbourhood (store i))
    (hc : ComputeNextTimeStep_connected ext store
      (ext.GetRoomAndSubRoom (store i).Pos).1 (ext.GetRoomAndSubRoom (store i).Pos).2 n = true)
    (hd : ((store n).Pos - (store i).Pos).Norm ext.sqrt < ext.J_EPS) :
    ComputeNextTimeStep_pedResult ext m store i = none := by
  have hex : ∃ e, ComputeNextTimeStep_ped ext m store i = .error e := by
    unfold ComputeNextTimeStep_ped
    simp only
    split
    · exact ⟨_, rfl⟩
    · split
      · exact ⟨_, rfl⟩
      · split
        · exact ⟨_, rfl⟩
        · rename_i e ped' he
          have hb := e0_sameBody ext m _ _ _ _ he
          have hsp : SamePositions store (Function.update store i ped') :=
            SamePositions.update_left i ped' hb.pos hb.uid
          rw [ComputeNextTimeStep_spacings_none ext (Function.update store i ped') ped' _ _ _
            (ext.GetNeighbourhood (store i)) []
            ⟨n, hn, by rw [← ComputeNextTimeStep_connected_congr ext hsp]; exact hc,
              by rw [← (hsp n).1, hb.pos]; exact hd⟩]
          exact ⟨_, rfl⟩
  obtain ⟨e, he⟩ := hex
  simp [ComputeNextTimeStep_pedResult, he]

/-- A step with a neighbour, in the same or a directly connected subroom,
closer than `J_EPS` to an agent exits and has written no position and no
velocity. -/
theorem ComputeNextTimeStep_fatal (ext : Externals K) (m : Model K) (current deltaT : K)
    (store : Store K) (allPeds : List PedPtr) (hnd : allPeds.Nodup) (i n : PedPtr)
    (hi : i ∈ allPeds) (hn : n ∈ ext.GetNeighbourhood (store i))
    (hc : ComputeNextTimeStep_connected ext store
      (ext.GetRoomAndSubRoom (store i).Pos).1 (ext.GetRoomAndSubRoom (store i).Pos).2 n = true)
    (hd : ((store n).Pos - (store i).Pos).Norm ext.sqrt < ext.J_EPS) :
    ∃ e, ComputeNextTimeStep ext m current deltaT store allPeds = .error e
      ∧ ∀ j, (e j).Pos = (store j).Pos ∧ (e j).V = (store j).V := by
  have hnone : ComputeNextTimeStep_pedResult ext m store i = none :=
    ComputeNextTimeStep_ped_none ext m store i n hn hc hd
  cases h : ComputeNextTimeStep ext m current deltaT store allPeds with
  | ok store' =>
    exact absurd hnone
      ((ComputeNextTimeStep_ok_iff ext m current deltaT store allPeds hnd).1 ⟨store', h⟩ i hi)
  | error e =>
    have hb := ((ComputeNextTimeStep_spec ext m current deltaT store allPeds hnd).2 e h).2
    exact ⟨e, rfl, fun j => ⟨(hb j).pos, (hb j).v⟩⟩

theorem Point.normalized_eq_sdiv {sqrt : K → K} (zeroLen : K) (p : Point K)
    (h : zeroLen < p.Norm sqrt) : p.Normalized sqrt zeroLen = p.sdiv (p.Norm sqrt) := by
  unfold Point.Normalized
  rw [if_pos h]

/-- The value of `ForceRepPed` for a pair that is not closer than `J_EPS`. -/
theorem ForceRepPed_eq (ext : Externals K) (m : Model K) (ped1 ped2 : Pedestrian K)
    (hz : ext.zeroLen < ext.J_EPS)
    (hd : (ped2.Pos - ped1.Pos).Norm ext.sqrt ≥ ext.J_EPS) :
    ForceRepPed ext m ped1 ped2
      = some (((ped2.Pos - ped1.Pos).sdiv ((ped2.Pos - ped1.Pos).Norm ext.sqrt)).smul
          (-m._aPed * ext.exp ((2 * ped1.Bmax - (ped2.Pos - ped1.Pos).Norm ext.sqrt) / m._DPed))) := by
  unfold ForceRepPed
  simp only [if_pos hd]
  rw [Point.normalized_eq_sdiv ext.zeroLen _ (lt_of_lt_of_le hz hd)]

/-- The direction `e_iw` of `ForceRepWall`, by cases. -/
theorem ForceRepWall_e_iw_eq (ext : Externals K) (ped : Pedestrian K) (w : Line K)
    (centroid : Point K) (inside : Bool) :
    ((ext.ShortestPoint w ped.Pos - ped.Pos).Norm ext.sqrt > 1 / 1000 →
      ForceRepWall_e_iw ext ped w centroid inside
        = (ext.ShortestPoint w ped.Pos - ped.Pos).sdiv
            ((ext.ShortestPoint w ped.Pos - ped.Pos).Norm ext.sqrt))
    ∧ ((ext.ShortestPoint w ped.Pos - ped.Pos).Norm ext.sqrt ≤ 1 / 1000 → inside = true →
      ForceRepWall_e_iw ext ped w centroid inside
        = (centroid - ped.Pos).sdiv ((centroid - ped.Pos).Norm ext.sqrt))
    ∧ ((ext.ShortestPoint w ped.Pos - ped.Pos).Norm ext.sqrt ≤ 1 / 1000 → inside = false →
      ForceRepWall_e_iw ext ped w centroid inside
        = ((centroid - ped.Pos).sdiv ((centroid - ped.Pos).Norm ext.sqrt)).smul (-1)) := by
  refine ⟨?_, ?_, ?_⟩
  · intro h
    simp only [ForceRepWall_e_iw, add_zero, if_pos h]
  · intro h hin
    simp only [ForceRepWall_e_iw, add_zero, if_neg (not_lt.2 h), hin, if_true]
  · intro h hin
    simp only [ForceRepWall_e_iw, add_zero, if_neg (not_lt.2 h), hin]
    rfl

/-! ### The spacing -/

theorem sort_pred_false_le (a b : my_pair K) (h : sort_pred b a = false) : a.1 ≤ b.1 := by
  unfold sort_pred at h
  split_ifs at h with he
  · exact le_of_eq he.symm
  · exact not_lt.1 (by simpa using h)

theorem sort_pred_total (a b : my_pair K) : sort_pred b a = false ∨ sort_pred a b = false := by
  unfold sort_pred
  by_cases he : a.1 = b.1
  · simp only [he, if_true, decide_eq_false_iff_not, not_lt]
    exact le_total _ _
  · have he' : ¬ b.1 = a.1 := fun h => he h.symm
    simp only [he, he', if_false, decide_eq_false_iff_not, not_lt]
    exact le_total _ _

theorem sort_pred_trans (a b c : my_pair K) (hab : sort_pred b a = false)
    (hbc : sort_pred c b = false) : sort_pred c a = false := by
  have h1 := sort_pred_false_le a b hab
  have h2 := sort_pred_false_le b c hbc
  unfold sort_pred at hab hbc ⊢
  by_cases hca : c.1 = a.1
  · have hba : b.1 = a.1 := le_antisymm (hca ▸ h2) h1
    have hcb : c.1 = b.1 := hca.trans hba.symm
    simp only [hba, hcb, hca, if_true, decide_eq_false_iff_not, not_lt] at hab hbc ⊢
    exact le_trans hbc hab
  · simp only [hca, if_false, decide_eq_false_iff_not, not_lt]
    exact le_trans h1 h2

/-- The spacing taken from a non-empty `spacings` is the least first component. -/
theorem ComputeNextTimeStep_minSpacing_min (spacings : List (my_pair K)) (hne : spacings ≠ []) :
    (∃ x ∈ spacings, x.1 = ComputeNextTimeStep_minSpacing spacings)
    ∧ ∀ x ∈ spacings, ComputeNextTimeStep_minSpacing spacings ≤ x.1 := by
  haveI : IsTotal (my_pair K) (fun a b => sort_pred b a = false) := ⟨sort_pred_total⟩
  haveI : IsTrans (my_pair K) (fun a b => sort_pred b a = false) := ⟨sort_pred_trans⟩
  have hsorted := List.sorted_insertionSort (fun a b : my_pair K => sort_pred b a = false) spacings
  have hperm := List.perm_insertionSort (fun a b : my_pair K => sort_pred b a = false) spacings
  unfold ComputeNextTimeStep_minSpacing
  simp only
  cases hl : List.insertionSort (fun a b : my_pair K => sort_pred b a = false) spacings with
  | nil =>
    rw [hl] at hperm
    exact absurd hperm.symm.eq_nil hne
  | cons front rest =>
    rw [hl] at hperm hsorted
    constructor
    · exact ⟨front, hperm.mem_iff.1 (List.mem_cons_self _ _), rfl⟩
    · intro x hx
      rcases List.mem_cons.1 (hperm.mem_iff.2 hx) with rfl | hr
      · exact le_rfl
      · exact sort_pred_false_le _ _ (List.rel_of_sorted_cons hsorted x hr)

theorem ComputeNextTimeStep_minSpacing_nil :
    ComputeNextTimeStep_minSpacing ([] : List (my_pair K)) = 100 := by
  simp [ComputeNextTimeStep_minSpacing]

/-- What `GetSpacing` returns for a pair that is not closer than `J_EPS`, in
terms of the spec's condition. -/
theorem GetSpacing_eq (ext : Externals K) (ped1 ped2 : Pedestrian K) (ei : Point K)
    (hd : (ped2.Pos - ped1.Pos).Norm ext.sqrt ≥ ext.J_EPS) :
    (SpacingCondition ext ped1 ped2 ei →
      GetSpacing ext ped1 ped2 ei = some ((ped2.Pos - ped1.Pos).Norm ext.sqrt, (ped2.UID : K)))
    ∧ (¬ SpacingCondition ext ped1 ped2 ei →
      GetSpacing ext ped1 ped2 ei = some (FLT_MAX, (ped2.UID : K))) := by
  have habs : ∀ c : K, (if c > 0 then c else -c) = |c| := by
    intro c
    split_ifs with h
    · exact (abs_of_pos h).symm
    · exact (abs_of_nonpos (not_lt.1 h)).symm
  unfold GetSpacing SpacingCondition
  simp only [if_pos hd, habs]
  constructor
  · intro h
    rw [if_pos h]
  · intro h
    rw [if_neg h]

/-- The first component that the second loop over the neighbours pushes for a
neighbour: its distance when the spec's condition holds, `FLT_MAX` otherwise. -/
theorem ComputeNextTimeStep_spacings_spec (ext : Externals K) (s : Store K)
    (ped : Pedestrian K) (room : RoomPtr) (subroom : SubRoomPtr) (direction : Point K) :
    ∀ (ns : List PedPtr) (acc out : List (my_pair K)),
      ComputeNextTimeStep_spacings ext s ped room subroom direction ns acc = some out →
      ∃ new, out = acc ++ new
        ∧ List.Forall₂
            (fun n (x : my_pair K) =>
              (SpacingCondition ext ped (s n) direction →
                x.1 = ((s n).Pos - ped.Pos).Norm ext.sqrt)
              ∧ (¬ SpacingCondition ext ped (s n) direction → x.1 = FLT_MAX))
            (ns.filter (ComputeNextTimeStep_connected ext s room subroom)) new := by
  intro ns
  induction ns with
  | nil =>
    intro acc out h
    simp only [ComputeNextTimeStep_spacings, Option.some.injEq] at h
    exact ⟨[], by simp [h], by simp⟩
  | cons a rest ih =>
    intro acc out h
    have key : ∀ sp, GetSpacing ext ped (s a) direction = some sp →
        (SpacingCondition ext ped (s a) direction →
          sp.1 = ((s a).Pos - ped.Pos).Norm ext.sqrt)
        ∧ (¬ SpacingCondition ext ped (s a) direction → sp.1 = FLT_MAX) := by
      intro sp hsp
      have hd : ((s a).Pos - ped.Pos).Norm ext.sqrt ≥ ext.J_EPS := by
        by_contra hlt
        rw [(GetSpacing_eq_none_iff ext ped (s a) direction).2 (not_le.1 hlt)] at hsp
        exact absurd hsp (by simp)
      obtain ⟨h1, h2⟩ := GetSpacing_eq ext ped (s a) direction hd
      constructor
      · intro hc
        rw [h1 hc] at hsp
        rw [← Option.some.inj hsp]
      · intro hc
        rw [h2 hc] at hsp
        rw [← Option.some.inj hsp]
    by_cases hc : ComputeNextTimeStep_connected ext s room subroom a = true
    · have hstep : ∃ sp, GetSpacing ext ped (s a) direction = some sp
          ∧ ComputeNextTimeStep_spacings ext s ped room subroom direction rest (acc ++ [sp])
              = some out := by
        unfold ComputeNextTimeStep_spacings at h
        simp only [ComputeNextTimeStep_connected, Bool.or_eq_true, decide_eq_true_eq] at hc
        simp only at h
        cases hsp : GetSpacing ext ped (s a) direction with
        | none =>
          rw [hsp] at h
          simp only at h
          split_ifs at h with h1 h2
          exact absurd hc (by simp [h1, h2])
        | some sp =>
          rw [hsp] at h
          simp only at h
          refine ⟨sp, rfl, ?_⟩
          split_ifs at h with h1 h2
          · exact h
          · exact h
          · exact absurd hc (by simp [h1, h2])
      obtain ⟨sp, hsp, hrest⟩ := hstep
      obtain ⟨new, hout, hall⟩ := ih (acc ++ [sp]) out hrest
      refine ⟨sp :: new, by simp [hout], ?_⟩
      rw [List.filter_cons_of_pos hc]
      exact List.Forall₂.cons (key sp hsp) hall
    · have hrest : ComputeNextTimeStep_spacings ext s ped room subroom direction rest acc
          = some out := by
        unfold ComputeNextTimeStep_spacings at h
        simp only [ComputeNextTimeStep_connected, Bool.or_eq_true, decide_eq_true_eq,
          not_or] at hc
        simp only at h
        rw [if_neg hc.1, if_neg hc.2] at h
        exact h
      obtain ⟨new, hout, hall⟩ := ih acc out hrest
      refine ⟨new, hout, ?_⟩
      rw [List.filter_cons_of_neg hc]
      exact hall

theorem forall₂_mem_right {α β : Type} {R : α → β → Prop} {l1 : List α} {l2 : List β}
    (h : List.Forall₂ R l1 l2) {b : β} (hb : b ∈ l2) : ∃ a ∈ l1, R a b := by
  induction h with
  | nil => exact absurd hb (List.not_mem_nil b)
  | cons hab _ ih =>
    rcases List.mem_cons.1 hb with rfl | hb'
    · exact ⟨_, List.mem_cons_self _ _, hab⟩
    · obtain ⟨a, ha, hr⟩ := ih hb'
      exact ⟨a, List.mem_cons_of_mem _ ha, hr⟩

theorem forall₂_mem_left {α β : Type} {R : α → β → Prop} {l1 : List α} {l2 : List β}
    (h : List.Forall₂ R l1 l2) {a : α} (ha : a ∈ l1) : ∃ b ∈ l2, R a b := by
  induction h with
  | nil => exact absurd ha (List.not_mem_nil a)
  | cons hab _ ih =>
    rcases List.mem_cons.1 ha with rfl | ha'
    · exact ⟨_, List.mem_cons_self _ _, hab⟩
    · obtain ⟨b, hb, hr⟩ := ih ha'
      exact ⟨b, List.mem_cons_of_mem _ hb, hr⟩

/-- The velocity that an iteration of the first loop records is a normalised
direction times the optimal speed of the agent. -/
theorem ComputeNextTimeStep_pedResult_velocity (ext : Externals K) (m : Model K)
    (store : Store K) (i : PedPtr) (p : Pedestrian K) (v : Point K)
    (h : ComputeNextTimeStep_pedResult ext m store i = some (p, v)) :
    ∃ (d : Point K) (spacing : K),
      v = (d.Normalized ext.sqrt ext.zeroLen).smul (OptimalSpeed p spacing) := by
  unfold ComputeNextTimeStep_pedResult ComputeNextTimeStep_ped at h
  simp only at h
  cases h1 : ComputeNextTimeStep_repPed ext m store (store i)
      (ext.GetRoomAndSubRoom (store i).Pos).1 (ext.GetRoomAndSubRoom (store i).Pos).2
      (ext.GetNeighbourhood (store i)) 0 with
  | none => simp [h1] at h
  | some repPed =>
    cases h2 : ForceRepRoom ext m (store i)
        (ext.SubRoomAt (ext.GetRoomAndSubRoom (store i).Pos).2) with
    | none => simp [h1, h2] at h
    | some repWall =>
      cases h3 : e0 ext m (store i) (ext.GetRoomAndSubRoom (store i).Pos).1 with
      | none => simp [h1, h2, h3] at h
      | some r =>
        obtain ⟨e, ped'⟩ := r
        cases h4 : ComputeNextTimeStep_spacings ext (Function.update store i ped') ped'
            (ext.GetRoomAndSubRoom (store i).Pos).1 (ext.GetRoomAndSubRoom (store i).Pos).2
            (e + repPed + repWall) (ext.GetNeighbourhood (store i)) [] with
        | none => simp [h1, h2, h3, h4] at h
        | some spacings =>
          simp only [h1, h2, h3, h4, Function.update_same, Option.some.injEq,
            Prod.mk.injEq] at h
          obtain ⟨rfl, rfl⟩ := h
          exact ⟨_, _, rfl⟩

/-- The result of an iteration of the first loop, assembled from the results
of its parts. -/
theorem ComputeNextTimeStep_pedResult_eq (ext : Externals K) (m : Model K) (store : Store K)
    (i : PedPtr) (repPed repWall e : Point K) (ped' : Pedestrian K)
    (spacings : List (my_pair K))
    (h1 : ComputeNextTimeStep_repPed ext m store (store i)
      (ext.GetRoomAndSubRoom (store i).Pos).1 (ext.GetRoomAndSubRoom (store i).Pos).2
      (ext.GetNeighbourhood (store i)) 0 = some repPed)
    (h2 : ForceRepRoom ext m (store i)
      (ext.SubRoomAt (ext.GetRoomAndSubRoom (store i).Pos).2) = some repWall)
    (h3 : e0 ext m (store i) (ext.GetRoomAndSubRoom (store i).Pos).1 = some (e, ped'))
    (h4 : ComputeNextTimeStep_spacings ext (Function.update store i ped') ped'
      (ext.GetRoomAndSubRoom (store i).Pos).1 (ext.GetRoomAndSubRoom (store i).Pos).2
      (e + repPed + repWall) (ext.GetNeighbourhood (store i)) [] = some spacings) :
    ComputeNextTimeStep_pedResult ext m store i
      = some (ped', ((e + repPed + repWall).Normalized ext.sqrt ext.zeroLen).smul
          (OptimalSpeed ped' (ComputeNextTimeStep_minSpacing spacings))) := by
  unfold ComputeNextTimeStep_pedResult ComputeNextTimeStep_ped
  simp only [h1, h2, h3, h4, Function.update_same]

end Lemmas

section Claims

variable {K : Type} [LinearOrderedField K]

/-- C1: for an agent with desired speed `v0 ≥ 0`, every spacing and every
candidate direction `d`, the velocity `d.Normalized() * OptimalSpeed(ped, spacing)`
of VelocityModel.cpp:143 has Euclidean norm at most `v0`; so has every velocity
that the first loop of `ComputeNextTimeStep` records for the agent. -/
theorem C1_speed_bound (ext : Externals K) (hs : IsSqrt ext.sqrt) (ped : Pedestrian K)
    (spacing : K) (d : Point K) (hv0 : 0 ≤ ped.V0Norm) :
    ((d.Normalized ext.sqrt ext.zeroLen).smul (OptimalSpeed ped spacing)).Norm ext.sqrt
      ≤ ped.V0Norm
    ∧ ∀ (m : Model K) (store : Store K) (i : PedPtr) (p : Pedestrian K) (v : Point K),
        store i = ped → ComputeNextTimeStep_pedResult ext m store i = some (p, v) →
        v.Norm ext.sqrt ≤ ped.V0Norm := by
  have key : ∀ (q : Pedestrian K) (sp : K) (e : Point K), 0 ≤ q.V0Norm →
      ((e.Normalized ext.sqrt ext.zeroLen).smul (OptimalSpeed q sp)).Norm ext.sqrt
        ≤ q.V0Norm := by
    intro q sp e hq
    rw [Point.norm_smul hs, abs_of_nonneg (OptimalSpeed_nonneg q sp hq)]
    calc (e.Normalized ext.sqrt ext.zeroLen).Norm ext.sqrt * OptimalSpeed q sp
        ≤ 1 * OptimalSpeed q sp :=
          mul_le_mul_of_nonneg_right (Point.norm_normalized_le_one hs _ e)
            (OptimalSpeed_nonneg q sp hq)
      _ = OptimalSpeed q sp := one_mul _
      _ ≤ q.V0Norm := OptimalSpeed_le q sp
  refine ⟨key ped spacing d hv0, ?_⟩
  intro m store i p v hi hres
  have hb := ComputeNextTimeStep_pedResult_sameBody ext m store i p v hres
  obtain ⟨e, sp, rfl⟩ := ComputeNextTimeStep_pedResult_velocity ext m store i p v hres
  have hp : p.V0Norm = ped.V0Norm := by rw [hb.v0Norm, hi]
  rw [← hp]
  exact key p sp e (by rw [hp]; exact hv0)

/-- C3 (amended): after a step that ends, an agent that is in its premovement
time keeps its position and keeps the velocity it had before the step (the
velocity is not set to zero); an agent past its premovement time is at
`p + v*dT` with recorded velocity `v`, where `v` is the velocity the first loop
computed for it from the store of the beginning. -/
theorem C3_premovement_update (ext : Externals K) (m : Model K) (current deltaT : K)
    (store : Store K) (allPeds : List PedPtr) (hnd : allPeds.Nodup) (i : PedPtr)
    (hi : i ∈ allPeds) (store' : Store K)
    (h : ComputeNextTimeStep ext m current deltaT store allPeds = .ok store') :
    ∃ p v, ComputeNextTimeStep_pedResult ext m store i = some (p, v)
      ∧ ((store i).InPremovement current = true →
          (store' i).Pos = (store i).Pos ∧ (store' i).V = (store i).V)
      ∧ ((store i).InPremovement current = false →
          (store' i).Pos = (store i).Pos + v.smul deltaT ∧ (store' i).V = v) := by
  have hfin := ((ComputeNextTimeStep_spec ext m current deltaT store allPeds hnd).1 store' h).1 i hi
  unfold ComputeNextTimeStep_pedFinal at hfin
  cases hres : ComputeNextTimeStep_pedResult ext m store i with
  | none => simp [hres] at hfin
  | some r =>
    obtain ⟨p, v⟩ := r
    simp only [hres, Option.map_some', Option.some.injEq] at hfin
    have hb := ComputeNextTimeStep_pedResult_sameBody ext m store i p v hres
    refine ⟨p, v, rfl, ?_⟩
    rw [← hfin]
    exact ComputeNextTimeStep_updatePed_spec ext current deltaT (store i) p v hb

/-- C4: the first loop writes no position and no velocity, the velocity it
records for an agent is the one computed from the store of the beginning, and
a step over the same agents in another order ends in the same store (and
exits when this one exits). -/
theorem C4_snapshot_order_independent (ext : Externals K) (m : Model K) (current deltaT : K)
    (store : Store K) (allPeds allPeds' : List PedPtr) (hnd : allPeds.Nodup)
    (hperm : allPeds.Perm allPeds') :
    (∀ s1 acc, ComputeNextTimeStep_velocities ext m store allPeds [] = .ok (s1, acc) →
        (∀ j, (s1 j).Pos = (store j).Pos ∧ (s1 j).V = (store j).V)
        ∧ List.Forall₂
            (fun i v => (ComputeNextTimeStep_pedResult ext m store i).map Prod.snd = some v)
            allPeds acc)
    ∧ (∀ store', ComputeNextTimeStep ext m current deltaT store allPeds = .ok store' →
        ComputeNextTimeStep ext m current deltaT store allPeds' = .ok store')
    ∧ (∀ e, ComputeNextTimeStep ext m current deltaT store allPeds = .error e →
        ∃ e', ComputeNextTimeStep ext m current deltaT store allPeds' = .error e') := by
  have hnd' : allPeds'.Nodup := hperm.nodup_iff.1 hnd
  have hmem : ∀ j, j ∈ allPeds ↔ j ∈ allPeds' := fun j => hperm.mem_iff
  obtain ⟨hok, herr⟩ := ComputeNextTimeStep_spec ext m current deltaT store allPeds hnd
  obtain ⟨hok', herr'⟩ := ComputeNextTimeStep_spec ext m current deltaT store allPeds' hnd'
  refine ⟨?_, ?_, ?_⟩
  · intro s1 acc hv
    obtain ⟨vs, hacc, hall, -, hb⟩ :=
      (ComputeNextTimeStep_velocities_spec ext m store allPeds store [] hnd
        (SameBodies.bodies_refl store) (fun _ _ => rfl)).1 s1 acc hv
    simp only [List.nil_append] at hacc
    subst hacc
    refine ⟨fun j => ⟨(hb j).pos, (hb j).v⟩, ?_⟩
    exact hall.imp (fun i v h => by simp [h])
  · intro store' h
    obtain ⟨hin, hout⟩ := hok store' h
    have hex : ∃ store'', ComputeNextTimeStep ext m current deltaT store allPeds' = .ok store'' := by
      rw [ComputeNextTimeStep_ok_iff ext m current deltaT store allPeds' hnd']
      intro i hi hnone
      have := hin i ((hmem i).2 hi)
      simp [ComputeNextTimeStep_pedFinal, hnone] at this
    obtain ⟨store'', h''⟩ := hex
    obtain ⟨hin', hout'⟩ := hok' store'' h''
    have : store'' = store' := by
      funext j
      by_cases hj : j ∈ allPeds
      · have h1 := hin j hj
        have h2 := hin' j ((hmem j).1 hj)
        rw [h1] at h2
        exact (Option.some.inj h2).symm
      · rw [hout j hj, hout' j (fun h => hj ((hmem j).2 h))]
    rw [h'', this]
  · intro e h
    cases h' : ComputeNextTimeStep ext m current deltaT store allPeds' with
    | error e' => exact ⟨e', rfl⟩
    | ok store'' =>
      exfalso
      obtain ⟨⟨i, hi, hnone⟩, -⟩ := herr e h
      have := (hok' store'' h').1 i ((hmem i).1 hi)
      simp [ComputeNextTimeStep_pedFinal, hnone] at this

/-- C5: for a pair at distance `d_ij ≥ J_EPS`, `ForceRepPed(i, j)` is
`e_ij * (-a_ped * exp((l - d_ij)/D_ped))` with `e_ij = (p_j - p_i)/d_ij` a unit
vector and `l = 2*b_max` of agent `i`; for `a_ped > 0` it is a positive
multiple of `p_i - p_j`; and it is the same whatever the velocities of the two
agents are. -/
theorem C5_ForceRepPed (ext : Externals K) (m : Model K) (hs : IsSqrt ext.sqrt)
    (hexp : ∀ a, 0 < ext.exp a) (hJ : 0 < ext.J_EPS) (hz : ext.zeroLen < ext.J_EPS)
    (ped1 ped2 : Pedestrian K)
    (hd : (ped2.Pos - ped1.Pos).Norm ext.sqrt ≥ ext.J_EPS) :
    ForceRepPed ext m ped1 ped2
      = some (((ped2.Pos - ped1.Pos).sdiv ((ped2.Pos - ped1.Pos).Norm ext.sqrt)).smul
          (-m._aPed * ext.exp ((2 * ped1.Bmax - (ped2.Pos - ped1.Pos).Norm ext.sqrt) / m._DPed)))
    ∧ ((ped2.Pos - ped1.Pos).sdiv ((ped2.Pos - ped1.Pos).Norm ext.sqrt)).Norm ext.sqrt = 1
    ∧ (0 < m._aPed →
        ∃ c, 0 < c ∧ ForceRepPed ext m ped1 ped2 = some ((ped1.Pos - ped2.Pos).smul c))
    ∧ (∀ v1 v2 : Point K,
        ForceRepPed ext m { ped1 with V := v1 } { ped2 with V := v2 }
          = ForceRepPed ext m ped1 ped2) := by
  have hpos : 0 < (ped2.Pos - ped1.Pos).Norm ext.sqrt := lt_of_lt_of_le hJ hd
  refine ⟨ForceRepPed_eq ext m ped1 ped2 hz hd, Point.norm_sdiv_self hs _ hpos, ?_, ?_⟩
  · intro ha
    refine ⟨m._aPed * ext.exp ((2 * ped1.Bmax - (ped2.Pos - ped1.Pos).Norm ext.sqrt) / m._DPed)
      / (ped2.Pos - ped1.Pos).Norm ext.sqrt, div_pos (mul_pos ha (hexp _)) hpos, ?_⟩
    rw [ForceRepPed_eq ext m ped1 ped2 hz hd]
    simp only [Point.smul, Point.sdiv, Point.sub_def, Option.some.injEq, Point.mk.injEq]
    constructor <;> (field_simp; ring)
  · intro v1 v2
    simp only [ForceRepPed]

/-- C6: `ForceRepPed` and `GetSpacing` exit exactly when the two agents are
closer than `J_EPS` and return a value otherwise; a step in which a neighbour
in the same or a directly connected subroom is closer than `J_EPS` to an agent
exits, and no position or velocity has been written by then. -/
theorem C6_fatal_when_too_close (ext : Externals K) (m : Model K) (current deltaT : K)
    (store : Store K) (allPeds : List PedPtr) (hnd : allPeds.Nodup) (i n : PedPtr)
    (hi : i ∈ allPeds) (hn : n ∈ ext.GetNeighbourhood (store i))
    (hc : ComputeNextTimeStep_connected ext store
      (ext.GetRoomAndSubRoom (store i).Pos).1 (ext.GetRoomAndSubRoom (store i).Pos).2 n = true)
    (hd : ((store n).Pos - (store i).Pos).Norm ext.sqrt < ext.J_EPS) :
    (∀ ped1 ped2 : Pedestrian K,
      ForceRepPed ext m ped1 ped2 = none ↔ (ped2.Pos - ped1.Pos).Norm ext.sqrt < ext.J_EPS)
    ∧ (∀ (ped1 ped2 : Pedestrian K) (ei : Point K),
      GetSpacing ext ped1 ped2 ei = none ↔ (ped2.Pos - ped1.Pos).Norm ext.sqrt < ext.J_EPS)
    ∧ (∀ (ped1 ped2 : Pedestrian K) (ei : Point K),
      (ped2.Pos - ped1.Pos).Norm ext.sqrt ≥ ext.J_EPS →
        (ForceRepPed ext m ped1 ped2).isSome = true ∧ (GetSpacing ext ped1 ped2 ei).isSome = true)
    ∧ ∃ e, ComputeNextTimeStep ext m current deltaT store allPeds = .error e
        ∧ ∀ j, (e j).Pos = (store j).Pos ∧ (e j).V = (store j).V := by
  refine ⟨ForceRepPed_eq_none_iff ext m, GetSpacing_eq_none_iff ext, ?_,
    ComputeNextTimeStep_fatal ext m current deltaT store allPeds hnd i n hi hn hc hd⟩
  intro ped1 ped2 ei h
  constructor
  · rw [Option.isSome_iff_ne_none, Ne, ForceRepPed_eq_none_iff]
    exact not_lt.2 h
  · rw [Option.isSome_iff_ne_none, Ne, GetSpacing_eq_none_iff]
    exact not_lt.2 h

/-- C7 (amended): the spacing used for agent `i` with candidate direction `d`
is 100 only when no neighbour lies in the same or a directly connected
subroom; when such neighbours exist and none satisfies `<d, e_ij> ≥ 0` and
`|<d_perp, e_ij>| ≤ l/d_ij` it is `FLT_MAX`; otherwise it is the minimum of
`d_ij` over the neighbours that satisfy both (none of them being beyond
`FLT_MAX`). -/
theorem C7_spacing (ext : Externals K) (s : Store K)
    (ped : Pedestrian K) (room : RoomPtr) (subroom : SubRoomPtr) (direction : Point K)
    (ns : List PedPtr) (spacings : List (my_pair K))
    (h : ComputeNextTimeStep_spacings ext s ped room subroom direction ns [] = some spacings) :
    (ns.filter (ComputeNextTimeStep_connected ext s room subroom) = [] →
      ComputeNextTimeStep_minSpacing spacings = 100)
    ∧ (ns.filter (ComputeNextTimeStep_connected ext s room subroom) ≠ [] →
        (∀ n ∈ ns.filter (ComputeNextTimeStep_connected ext s room subroom),
          ¬ SpacingCondition ext ped (s n) direction) →
        ComputeNextTimeStep_minSpacing spacings = FLT_MAX)
    ∧ (∀ n ∈ ns.filter (ComputeNextTimeStep_connected ext s room subroom),
        SpacingCondition ext ped (s n) direction →
        ComputeNextTimeStep_minSpacing spacings ≤ ((s n).Pos - ped.Pos).Norm ext.sqrt)
    ∧ ((∃ n ∈ ns.filter (ComputeNextTimeStep_connected ext s room subroom),
          SpacingCondition ext ped (s n) direction
            ∧ ((s n).Pos - ped.Pos).Norm ext.sqrt ≤ FLT_MAX) →
        ∃ n ∈ ns.filter (ComputeNextTimeStep_connected ext s room subroom),
          SpacingCondition ext ped (s n) direction
            ∧ ComputeNextTimeStep_minSpacing spacings = ((s n).Pos - ped.Pos).Norm ext.sqrt) := by
  obtain ⟨new, hout, hall⟩ :=
    ComputeNextTimeStep_spacings_spec ext s ped room subroom direction ns [] spacings h
  simp only [List.nil_append] at hout
  subst hout
  have hnonempty : ns.filter (ComputeNextTimeStep_connected ext s room subroom) ≠ [] →
      spacings ≠ [] := by
    intro hne hnil
    rw [hnil] at hall
    exact hne (List.forall₂_nil_right_iff.1 hall)
  refine ⟨?_, ?_, ?_, ?_⟩
  · intro hnil
    rw [hnil] at hall
    cases hall
    exact ComputeNextTimeStep_minSpacing_nil
  · intro hne hnone
    obtain ⟨⟨x, hx, hxm⟩, -⟩ := ComputeNextTimeStep_minSpacing_min spacings (hnonempty hne)
    obtain ⟨n, hn, -, hr⟩ := forall₂_mem_right hall hx
    rw [← hxm, hr (hnone n hn)]
  · intro n hn hc
    obtain ⟨x, hx, hr, -⟩ := forall₂_mem_left hall hn
    have hne : spacings ≠ [] := List.ne_nil_of_mem hx
    rw [← hr hc]
    exact (ComputeNextTimeStep_minSpacing_min spacings hne).2 x hx
  · rintro ⟨n0, hn0, hc0, hle0⟩
    obtain ⟨x0, hx0, hr0, -⟩ := forall₂_mem_left hall hn0
    have hne : spacings ≠ [] := List.ne_nil_of_mem hx0
    obtain ⟨⟨x, hx, hxm⟩, hmin⟩ := ComputeNextTimeStep_minSpacing_min spacings hne
    obtain ⟨n, hn, hr1, hr2⟩ := forall₂_mem_right hall hx
    by_cases hc : SpacingCondition ext ped (s n) direction
    · exact ⟨n, hn, hc, by rw [← hxm, hr1 hc]⟩
    · refine ⟨n0, hn0, hc0, le_antisymm ?_ ?_⟩
      · rw [← hr0 hc0]
        exact hmin x0 hx0
      · rw [← hxm, hr2 hc]
        exact hle0

/-- C9 (amended): in `ForceRepWall`, with `d` the distance from the agent to
the closest point `pt` of the wall: for `d > 1 mm` the direction is
`(pt - p_i)/d`; for `d ≤ 1 mm` it is the vector from the agent towards the
centroid of the subroom, divided by its length (a unit vector unless the
agent stands on the centroid), when `inside` holds, and the opposite vector
otherwise, where `inside`, as `ForceRepRoom` passes it, tells whether the
centroid of the subroom (not the agent) lies in the subroom. -/
theorem C9_wall_direction (ext : Externals K) (m : Model K) (ped : Pedestrian K)
    (subroom : SubRoom K) (w : Line K) (centroid : Point K) (inside : Bool) :
    (ForceRepWall ext m ped w centroid inside
      = if ext.DistToSquare ped.ExitLine ped.Pos < ext.J_EPS_GOAL * ext.J_EPS_GOAL then 0
        else (ForceRepWall_e_iw ext ped w centroid inside).smul
          (-m._aWall * ext.exp
            ((ped.Bmax - (ext.ShortestPoint w ped.Pos - ped.Pos).Norm ext.sqrt) / m._DWall)))
    ∧ ((ext.ShortestPoint w ped.Pos - ped.Pos).Norm ext.sqrt > 1 / 1000 →
      ForceRepWall_e_iw ext ped w centroid inside
        = (ext.ShortestPoint w ped.Pos - ped.Pos).sdiv
            ((ext.ShortestPoint w ped.Pos - ped.Pos).Norm ext.sqrt))
    ∧ ((ext.ShortestPoint w ped.Pos - ped.Pos).Norm ext.sqrt ≤ 1 / 1000 → inside = true →
      ForceRepWall_e_iw ext ped w centroid inside
        = (centroid - ped.Pos).sdiv ((centroid - ped.Pos).Norm ext.sqrt))
    ∧ ((ext.ShortestPoint w ped.Pos - ped.Pos).Norm ext.sqrt ≤ 1 / 1000 → inside = false →
      ForceRepWall_e_iw ext ped w centroid inside
        = ((centroid - ped.Pos).sdiv ((centroid - ped.Pos).Norm ext.sqrt)).smul (-1))
    ∧ (IsSqrt ext.sqrt → 0 < (centroid - ped.Pos).Norm ext.sqrt →
      ((centroid - ped.Pos).sdiv ((centroid - ped.Pos).Norm ext.sqrt)).Norm ext.sqrt = 1)
    ∧ (ForceRepRoom ext m ped subroom
      = if ∃ obst ∈ subroom.AllObstacles, ext.Contains obst ped.Pos = true then none
        else some (((ForceRepRoom_lines subroom).map
          (fun w => ForceRepWall ext m ped w subroom.Centroid
            (ext.IsInSubRoom subroom subroom.Centroid))).foldl (fun f g => f + g) 0)) := by
  obtain ⟨h1, h2, h3⟩ := ForceRepWall_e_iw_eq ext ped w centroid inside
  refine ⟨?_, h1, h2, h3, fun hs hpos => Point.norm_sdiv_self hs _ hpos,
    ForceRepRoom_eq ext m ped subroom⟩
  simp only [ForceRepWall, add_zero]

/-- C10 (amended): for an agent whose squared distance to its exit line is
below `J_EPS_GOAL` squared, `ForceRepWall` is the zero vector for every wall,
and `ForceRepRoom` returns the zero vector unless an obstacle of the subroom
contains the agent, in which case it exits. -/
theorem C10_no_wall_force_at_goal (ext : Externals K) (m : Model K) (ped : Pedestrian K)
    (subroom : SubRoom K)
    (h : ext.DistToSquare ped.ExitLine ped.Pos < ext.J_EPS_GOAL * ext.J_EPS_GOAL) :
    (∀ (w : Line K) (centroid : Point K) (inside : Bool),
      ForceRepWall ext m ped w centroid inside = 0)
    ∧ ((∀ obst ∈ subroom.AllObstacles, ext.Contains obst ped.Pos = false) →
      ForceRepRoom ext m ped subroom = some 0)
    ∧ ((∃ obst ∈ subroom.AllObstacles, ext.Contains obst ped.Pos = true) →
      ForceRepRoom ext m ped subroom = none) := by
  refine ⟨fun w centroid inside => ForceRepWall_eq_zero ext m ped w centroid inside h, ?_, ?_⟩
  · intro hno
    rw [ForceRepRoom_eq, if_neg]
    · rw [foldl_add_zero]
      intro g hg
      obtain ⟨w, -, rfl⟩ := List.mem_map.1 hg
      exact ForceRepWall_eq_zero ext m ped w _ _ h
    · rintro ⟨obst, ho, hc⟩
      rw [hno obst ho] at hc
      exact Bool.false_ne_true hc
  · intro hex
    rw [ForceRepRoom_eq, if_pos hex]

end Claims

end VelocityModel

/-! ## Concrete runs -/

namespace VelocityModel

section Runs

theorem real_isSqrt : IsSqrt Real.sqrt :=
  fun a ha => ⟨Real.sqrt_nonneg a, Real.mul_self_sqrt ha⟩

theorem real_sqrt_eq (a r : ℝ) (hr : 0 ≤ r) (h : r * r = a) : Real.sqrt a = r :=
  real_isSqrt.eq_of_sq hr h

theorem real_norm (a b r : ℝ) (hr : 0 ≤ r) (h : r * r = a * a + b * b) :
    Point.Norm Real.sqrt ⟨a, b⟩ = r :=
  real_sqrt_eq _ r hr h

/-- In a world without walls and neighbours the iteration of an agent ends. -/
theorem Scenario.openWorld_pedResult {K : Type} [LinearOrderedField K] (sqrt exp : K → K)
    (store : Store K) (i : PedPtr) :
    ComputeNextTimeStep_pedResult (Scenario.openWorld sqrt exp) Scenario.model store i ≠ none := by
  have he : ∀ ped room, e0 (Scenario.openWorld sqrt exp) Scenario.model ped room ≠ none := by
    intro ped room
    simp only [e0, Scenario.model]
    split_ifs <;> simp
  have he' := he (store i) 0
  cases h : e0 (Scenario.openWorld sqrt exp) Scenario.model (store i) 0 with
  | none => exact absurd h he'
  | some r =>
    simp [ComputeNextTimeStep_pedResult, ComputeNextTimeStep_ped, Scenario.openWorld,
      Scenario.ext, ComputeNextTimeStep_repPed, ForceRepRoom, ForceRepRoom_obstacles,
      Scenario.emptySubRoom, ComputeNextTimeStep_spacings] at h ⊢
    simp [h]

/-- C1, at an agent with desired speed 1, spacing 2 and direction (3, 4). -/
theorem C1_speed_bound_witness :
    IsSqrt (Scenario.openWorld Real.sqrt Real.exp).sqrt
    ∧ (0 : ℝ) ≤ (Scenario.agent 1 ⟨0, 0⟩ ⟨0, 0⟩ 0 : Pedestrian ℝ).V0Norm
    ∧ ((Point.Normalized (Scenario.openWorld Real.sqrt Real.exp).sqrt
          (Scenario.openWorld Real.sqrt Real.exp).zeroLen ⟨3, 4⟩).smul
        (OptimalSpeed (Scenario.agent 1 ⟨0, 0⟩ ⟨0, 0⟩ 0) 2)).Norm
          (Scenario.openWorld Real.sqrt Real.exp).sqrt
      ≤ (Scenario.agent 1 ⟨0, 0⟩ ⟨0, 0⟩ 0 : Pedestrian ℝ).V0Norm :=
  ⟨real_isSqrt, by simp [Scenario.agent],
    (C1_speed_bound (Scenario.openWorld Real.sqrt Real.exp) real_isSqrt
      (Scenario.agent 1 ⟨0, 0⟩ ⟨0, 0⟩ 0) 2 ⟨3, 4⟩ (by simp [Scenario.agent])).1⟩

/-- C3 as stated fails: an agent in its premovement time (until t = 5) that
has velocity (1, 0) before the step at t = 0 has velocity (1, 0), not zero,
after it. -/
theorem C3_counterexample :
    ∃ store', ComputeNextTimeStep (Scenario.openWorld Real.sqrt Real.exp) Scenario.model 0
        (1 / 100) Scenario.waitingStore [0] = .ok store'
      ∧ (Scenario.waitingStore 0).InPremovement (0 : ℝ) = true
      ∧ (store' 0).V = ⟨1, 0⟩ ∧ (store' 0).V ≠ 0 := by
  have hnd : ([0] : List PedPtr).Nodup := by simp
  obtain ⟨store', h⟩ := (ComputeNextTimeStep_ok_iff (Scenario.openWorld Real.sqrt Real.exp)
    Scenario.model 0 (1 / 100) Scenario.waitingStore [0] hnd).2
    (fun i _ => Scenario.openWorld_pedResult Real.sqrt Real.exp _ i)
  have hpre : (Scenario.waitingStore 0).InPremovement (0 : ℝ) = true := by
    simp [Scenario.waitingStore, Scenario.store, Scenario.agent, Pedestrian.InPremovement]
  have hfin := ((ComputeNextTimeStep_spec _ _ _ _ _ _ hnd).1 store' h).1 0 (by simp)
  unfold ComputeNextTimeStep_pedFinal at hfin
  have hv : (store' 0).V = ⟨1, 0⟩ := by
    cases hres : ComputeNextTimeStep_pedResult (Scenario.openWorld Real.sqrt Real.exp)
        Scenario.model Scenario.waitingStore 0 with
    | none => simp [hres] at hfin
    | some r =>
      obtain ⟨p, v⟩ := r
      simp only [hres, Option.map_some', Option.some.injEq] at hfin
      have hb := ComputeNextTimeStep_pedResult_sameBody _ _ _ _ p v hres
      rw [← hfin, ((ComputeNextTimeStep_updatePed_spec _ 0 (1 / 100) _ p v hb).1 hpre).2]
      simp [Scenario.waitingStore, Scenario.store, Scenario.agent]
  refine ⟨store', h, hpre, hv, ?_⟩
  rw [hv]
  intro h0
  have := congrArg Point.x h0
  simp [Point.zero_def] at this

/-- C3 (amended), at the step of the same agent. -/
theorem C3_premovement_update_witness :
    ∃ store', ComputeNextTimeStep (Scenario.openWorld Real.sqrt Real.exp) Scenario.model 0
        (1 / 100) Scenario.waitingStore [0] = .ok store'
      ∧ ([0] : List PedPtr).Nodup ∧ 0 ∈ ([0] : List PedPtr)
      ∧ ∃ p v, ComputeNextTimeStep_pedResult (Scenario.openWorld Real.sqrt Real.exp)
          Scenario.model Scenario.waitingStore 0 = some (p, v)
        ∧ ((Scenario.waitingStore 0).InPremovement (0 : ℝ) = true →
            (store' 0).Pos = (Scenario.waitingStore 0).Pos
            ∧ (store' 0).V = (Scenario.waitingStore 0).V)
        ∧ ((Scenario.waitingStore 0).InPremovement (0 : ℝ) = false →
            (store' 0).Pos = (Scenario.waitingStore 0).Pos + v.smul (1 / 100)
            ∧ (store' 0).V = v) := by
  have hnd : ([0] : List PedPtr).Nodup := by simp
  obtain ⟨store', h⟩ := (ComputeNextTimeStep_ok_iff (Scenario.openWorld Real.sqrt Real.exp)
    Scenario.model 0 (1 / 100) Scenario.waitingStore [0] hnd).2
    (fun i _ => Scenario.openWorld_pedResult Real.sqrt Real.exp _ i)
  exact ⟨store', h, hnd, by simp,
    C3_premovement_update _ _ _ _ _ _ hnd 0 (by simp) store' h⟩

/-- C4, at the agents behind the pointers 0 and 1, walked through as 0, 1 and
as 1, 0. -/
theorem C4_snapshot_order_independent_witness :
    ([0, 1] : List PedPtr).Nodup ∧ ([0, 1] : List PedPtr).Perm [1, 0]
    ∧ ∀ store', ComputeNextTimeStep (Scenario.openWorld Real.sqrt Real.exp) Scenario.model 0
        (1 / 100) Scenario.waitingStore [0, 1] = .ok store' →
      ComputeNextTimeStep (Scenario.openWorld Real.sqrt Real.exp) Scenario.model 0
        (1 / 100) Scenario.waitingStore [1, 0] = .ok store' :=
  ⟨by simp, List.Perm.swap 1 0 [],
    (C4_snapshot_order_independent (Scenario.openWorld Real.sqrt Real.exp) Scenario.model 0
      (1 / 100) Scenario.waitingStore [0, 1] [1, 0] (by simp) (List.Perm.swap 1 0 [])).2.1⟩

/-- C5, at the agents at (0, 0) and (1, 0). -/
theorem C5_ForceRepPed_witness :
    IsSqrt (Scenario.openWorld Real.sqrt Real.exp).sqrt
    ∧ (∀ a, 0 < (Scenario.openWorld Real.sqrt Real.exp).exp a)
    ∧ 0 < (Scenario.openWorld Real.sqrt Real.exp).J_EPS
    ∧ (Scenario.openWorld Real.sqrt Real.exp).zeroLen
        < (Scenario.openWorld Real.sqrt Real.exp).J_EPS
    ∧ ((Scenario.agent 2 ⟨1, 0⟩ ⟨0, 0⟩ 0 : Pedestrian ℝ).Pos
          - (Scenario.agent 1 ⟨0, 0⟩ ⟨0, 0⟩ 0 : Pedestrian ℝ).Pos).Norm
        (Scenario.openWorld Real.sqrt Real.exp).sqrt
        ≥ (Scenario.openWorld Real.sqrt Real.exp).J_EPS
    ∧ ∀ v1 v2 : Point ℝ,
        ForceRepPed (Scenario.openWorld Real.sqrt Real.exp) Scenario.model
            { Scenario.agent 1 ⟨0, 0⟩ ⟨0, 0⟩ 0 with V := v1 }
            { Scenario.agent 2 ⟨1, 0⟩ ⟨0, 0⟩ 0 with V := v2 }
          = ForceRepPed (Scenario.openWorld Real.sqrt Real.exp) Scenario.model
            (Scenario.agent 1 ⟨0, 0⟩ ⟨0, 0⟩ 0) (Scenario.agent 2 ⟨1, 0⟩ ⟨0, 0⟩ 0) := by
  have hJ : 0 < (Scenario.openWorld Real.sqrt Real.exp).J_EPS := by
    simp [Scenario.openWorld, Scenario.ext]
  have hz : (Scenario.openWorld Real.sqrt Real.exp).zeroLen
      < (Scenario.openWorld Real.sqrt Real.exp).J_EPS := by
    simp only [Scenario.openWorld, Scenario.ext]
    norm_num
  have hd : ((Scenario.agent 2 ⟨1, 0⟩ ⟨0, 0⟩ 0 : Pedestrian ℝ).Pos
        - (Scenario.agent 1 ⟨0, 0⟩ ⟨0, 0⟩ 0 : Pedestrian ℝ).Pos).Norm
      (Scenario.openWorld Real.sqrt Real.exp).sqrt
      ≥ (Scenario.openWorld Real.sqrt Real.exp).J_EPS := by
    simp only [Scenario.agent, Scenario.openWorld, Scenario.ext, Point.sub_def]
    rw [real_norm (1 - 0) (0 - 0) 1 zero_le_one (by norm_num)]
    norm_num
  exact ⟨real_isSqrt, Real.exp_pos, hJ, hz, hd,
    (C5_ForceRepPed (Scenario.openWorld Real.sqrt Real.exp) Scenario.model real_isSqrt
      Real.exp_pos hJ hz (Scenario.agent 1 ⟨0, 0⟩ ⟨0, 0⟩ 0)
      (Scenario.agent 2 ⟨1, 0⟩ ⟨0, 0⟩ 0) hd).2.2.2⟩

/-- C6, at two agents that stand on the same point and are neighbours of each
other: the step exits and has moved nobody. -/
theorem C6_fatal_when_too_close_witness :
    ([0, 1] : List PedPtr).Nodup ∧ 0 ∈ ([0, 1] : List PedPtr)
    ∧ 1 ∈ (Scenario.pairWorld Real.sqrt Real.exp true).GetNeighbourhood (Scenario.pairStore 0 0)
    ∧ ComputeNextTimeStep_connected (Scenario.pairWorld Real.sqrt Real.exp true)
        (Scenario.pairStore 0)
        ((Scenario.pairWorld Real.sqrt Real.exp true).GetRoomAndSubRoom
          (Scenario.pairStore (0 : ℝ) 0).Pos).1
        ((Scenario.pairWorld Real.sqrt Real.exp true).GetRoomAndSubRoom
          (Scenario.pairStore (0 : ℝ) 0).Pos).2 1 = true
    ∧ ((Scenario.pairStore (0 : ℝ) 1).Pos - (Scenario.pairStore (0 : ℝ) 0).Pos).Norm
          (Scenario.pairWorld Real.sqrt Real.exp true).sqrt
        < (Scenario.pairWorld Real.sqrt Real.exp true).J_EPS
    ∧ ∃ e, ComputeNextTimeStep (Scenario.pairWorld Real.sqrt Real.exp true) Scenario.model 0
          (1 / 100) (Scenario.pairStore 0) [0, 1] = .error e
        ∧ ∀ j, (e j).Pos = (Scenario.pairStore (0 : ℝ) j).Pos
          ∧ (e j).V = (Scenario.pairStore (0 : ℝ) j).V := by
  have hn : 1 ∈ (Scenario.pairWorld Real.sqrt Real.exp true).GetNeighbourhood
      (Scenario.pairStore 0 0) := by
    simp [Scenario.pairWorld, Scenario.ext, Scenario.pairStore, Scenario.store, Scenario.agent]
  have hd : ((Scenario.pairStore (0 : ℝ) 1).Pos - (Scenario.pairStore (0 : ℝ) 0).Pos).Norm
        (Scenario.pairWorld Real.sqrt Real.exp true).sqrt
      < (Scenario.pairWorld Real.sqrt Real.exp true).J_EPS := by
    simp only [Scenario.pairWorld, Scenario.ext, Scenario.pairStore, Scenario.store,
      Scenario.agent, Point.sub_def, if_true, one_ne_zero, if_false]
    rw [real_norm (0 - 0) (0 - 0) 0 le_rfl (by norm_num)]
    norm_num
  have hc : ComputeNextTimeStep_connected (Scenario.pairWorld Real.sqrt Real.exp true)
      (Scenario.pairStore 0)
      ((Scenario.pairWorld Real.sqrt Real.exp true).GetRoomAndSubRoom
        (Scenario.pairStore (0 : ℝ) 0).Pos).1
      ((Scenario.pairWorld Real.sqrt Real.exp true).GetRoomAndSubRoom
        (Scenario.pairStore (0 : ℝ) 0).Pos).2 1 = true := by
    simp [ComputeNextTimeStep_connected, Scenario.pairWorld, Scenario.ext]
  exact ⟨by simp, by simp, hn, hc, hd,
    (C6_fatal_when_too_close (Scenario.pairWorld Real.sqrt Real.exp true) Scenario.model 0
      (1 / 100) (Scenario.pairStore 0) [0, 1] (by simp) 0 1 (by simp) hn hc hd).2.2.2⟩

theorem Scenario.shortestPoint_exit :
    Scenario.ShortestPoint (⟨⟨10, -1⟩, ⟨10, 1⟩⟩ : Line ℝ) ⟨0, 0⟩ = ⟨10, 0⟩ := by
  simp [Scenario.ShortestPoint, Point.sub_def, Point.add_def, Point.NormSquare,
    Point.ScalarProduct, Point.smul]
  norm_num

/-- The desired direction of the agent at (0, 0) of the concrete runs: the
unit vector (1, 0) towards the exit line. -/
theorem Scenario.e0_origin (subroom : SubRoom ℝ) (inSubRoom : Point ℝ → Bool)
    (contains : Obstacle ℝ → Point ℝ → Bool) (visible : Bool) (neighbours : Int → List PedPtr)
    (room : RoomPtr) :
    e0 (Scenario.ext Real.sqrt Real.exp subroom inSubRoom contains visible neighbours)
        Scenario.model (Scenario.pairStore 1 0) room
      = some (⟨1, 0⟩,
          { Scenario.agent 1 ⟨0, 0⟩ ⟨0, 0⟩ (-1) with LastE0 := ⟨10, 0⟩, V0 := ⟨1, 0⟩ }) := by
  have hn10 : Point.Norm Real.sqrt (⟨10, 0⟩ : Point ℝ) = 10 :=
    real_norm 10 0 10 (by norm_num) (by norm_num)
  have h100 : Real.sqrt (Point.NormSquare (⟨-10, 0⟩ : Point ℝ)) = 10 :=
    real_sqrt_eq _ 10 (by norm_num) (by norm_num [Point.NormSquare])
  simp [e0, Scenario.model, Scenario.ext, Scenario.pairStore, Scenario.store, Scenario.agent,
    Scenario.shortestPoint_exit, Pedestrian.GetV0To, Point.sub_def, h100, hn10,
    Point.Normalized, Point.sdiv]
  norm_num

/-- The agent at (10, 0) stands on its exit line. -/
theorem Scenario.atGoal :
    (Scenario.boxWorld Real.sqrt Real.exp).DistToSquare
        (Scenario.agent 1 ⟨10, 0⟩ ⟨0, 0⟩ (-1) : Pedestrian ℝ).ExitLine
        (Scenario.agent 1 ⟨10, 0⟩ ⟨0, 0⟩ (-1) : Pedestrian ℝ).Pos
      < (Scenario.boxWorld Real.sqrt Real.exp).J_EPS_GOAL
        * (Scenario.boxWorld Real.sqrt Real.exp).J_EPS_GOAL := by
  have hpt : Scenario.ShortestPoint (⟨⟨10, -1⟩, ⟨10, 1⟩⟩ : Line ℝ) ⟨10, 0⟩ = ⟨10, 0⟩ := by
    simp [Scenario.ShortestPoint, Point.sub_def, Point.add_def, Point.NormSquare,
      Point.ScalarProduct, Point.smul]
    norm_num
  simp only [Scenario.boxWorld, Scenario.ext, Scenario.agent, hpt]
  norm_num [Point.sub_def, Point.NormSquare]

/-- The neighbour at (-1, 0) of the agent at (0, 0) with direction (1, 0) is
behind the agent: `GetSpacing` answers `FLT_MAX` for it. -/
theorem Scenario.behind_spacings :
    ComputeNextTimeStep_spacings (Scenario.pairWorld Real.sqrt Real.exp true)
        (Scenario.pairStore (-1)) (Scenario.pairStore (-1) 0) 0 0 ⟨1, 0⟩ [1] []
      = some [(FLT_MAX, 2)] := by
  have hn : Point.Norm Real.sqrt (⟨-1, 0⟩ : Point ℝ) = 1 :=
    real_norm (-1) 0 1 zero_le_one (by norm_num)
  simp [ComputeNextTimeStep_spacings, Scenario.pairWorld, Scenario.ext, Scenario.pairStore,
    Scenario.store, Scenario.agent, GetSpacing, Point.sub_def, hn, Point.Normalized,
    Point.sdiv, Point.ScalarProduct, Point.Rotate]
  norm_num

/-- C7 as stated fails: the agent at (0, 0) with direction (1, 0) has one
neighbour, behind it at (-1, 0); no neighbour satisfies the two conditions,
yet the spacing is `FLT_MAX`, not 100. -/
theorem C7_counterexample :
    ComputeNextTimeStep_spacings (Scenario.pairWorld Real.sqrt Real.exp true)
        (Scenario.pairStore (-1)) (Scenario.pairStore (-1) 0) 0 0 ⟨1, 0⟩ [1] []
      = some [(FLT_MAX, 2)]
    ∧ ¬ SpacingCondition (Scenario.pairWorld Real.sqrt Real.exp true)
        (Scenario.pairStore (-1) 0) (Scenario.pairStore (-1) 1) ⟨1, 0⟩
    ∧ ComputeNextTimeStep_minSpacing [((FLT_MAX : ℝ), (2 : ℝ))] = FLT_MAX
    ∧ ComputeNextTimeStep_minSpacing [((FLT_MAX : ℝ), (2 : ℝ))] ≠ 100 := by
  have hn : Point.Norm Real.sqrt (⟨-1, 0⟩ : Point ℝ) = 1 :=
    real_norm (-1) 0 1 zero_le_one (by norm_num)
  have hmin : ComputeNextTimeStep_minSpacing [((FLT_MAX : ℝ), (2 : ℝ))] = FLT_MAX := by
    simp [ComputeNextTimeStep_minSpacing]
  refine ⟨Scenario.behind_spacings, ?_, hmin, ?_⟩
  · simp [SpacingCondition, Scenario.pairWorld, Scenario.ext, Scenario.pairStore,
      Scenario.store, Scenario.agent, Point.sub_def, hn, Point.Normalized,
      Point.sdiv, Point.ScalarProduct, Point.Rotate]
    norm_num
  · rw [hmin]
    simp only [FLT_MAX]
    norm_num

/-- C7 (amended), at the agent with the neighbour behind it. -/
theorem C7_spacing_witness :
    ComputeNextTimeStep_spacings (Scenario.pairWorld Real.sqrt Real.exp true)
        (Scenario.pairStore (-1)) (Scenario.pairStore (-1) 0) 0 0 ⟨1, 0⟩ [1] []
      = some [(FLT_MAX, 2)]
    ∧ (([1] : List PedPtr).filter (ComputeNextTimeStep_connected
          (Scenario.pairWorld Real.sqrt Real.exp true) (Scenario.pairStore (-1)) 0 0) ≠ [] →
        (∀ n ∈ ([1] : List PedPtr).filter (ComputeNextTimeStep_connected
            (Scenario.pairWorld Real.sqrt Real.exp true) (Scenario.pairStore (-1)) 0 0),
          ¬ SpacingCondition (Scenario.pairWorld Real.sqrt Real.exp true)
            (Scenario.pairStore (-1) 0) (Scenario.pairStore (-1) n) ⟨1, 0⟩) →
        ComputeNextTimeStep_minSpacing [((FLT_MAX : ℝ), (2 : ℝ))] = FLT_MAX) :=
  ⟨Scenario.behind_spacings,
    (C7_spacing (Scenario.pairWorld Real.sqrt Real.exp true) (Scenario.pairStore (-1))
      (Scenario.pairStore (-1) 0) 0 0 ⟨1, 0⟩ [1] [(FLT_MAX, 2)] Scenario.behind_spacings).2.1⟩

/-- C8 on the code: the agent at (0, 0) has a neighbour at (1, 0) in its own
subroom that it does not see.  The neighbour adds nothing to the repulsion, but
it is taken for the spacing, which is 1 instead of 100, and the agent gets the
velocity (1/2, 0) where it gets (1, 0) without that neighbour. -/
theorem C8_hidden_neighbour_in_spacing :
    ComputeNextTimeStep_visible (Scenario.pairWorld Real.sqrt Real.exp false)
        (Scenario.pairStore 1) (Scenario.pairStore 1 0) 0 1 = false
    ∧ ComputeNextTimeStep_repPed (Scenario.pairWorld Real.sqrt Real.exp false) Scenario.model
        (Scenario.pairStore 1) (Scenario.pairStore 1 0) 0 0 [1] 0 = some 0
    ∧ ComputeNextTimeStep_spacings (Scenario.pairWorld Real.sqrt Real.exp false)
        (Scenario.pairStore 1) (Scenario.pairStore 1 0) 0 0 ⟨1, 0⟩ [1] [] = some [(1, 2)]
    ∧ (ComputeNextTimeStep_pedResult (Scenario.pairWorld Real.sqrt Real.exp false)
        Scenario.model (Scenario.pairStore 1) 0).map Prod.snd = some ⟨1 / 2, 0⟩
    ∧ (ComputeNextTimeStep_pedResult (Scenario.openWorld Real.sqrt Real.exp)
        Scenario.model (Scenario.pairStore 1) 0).map Prod.snd = some ⟨1, 0⟩ := by
  have hn : Point.Norm Real.sqrt (⟨1, 0⟩ : Point ℝ) = 1 :=
    real_norm 1 0 1 zero_le_one (by norm_num)
  have hn10 : Point.Norm Real.sqrt (⟨10, 0⟩ : Point ℝ) = 10 :=
    real_norm 10 0 10 (by norm_num) (by norm_num)
  have h100 : Real.sqrt 100 = 10 := real_sqrt_eq 100 10 (by norm_num) (by norm_num)
  refine ⟨?_, ?_, ?_, ?_, ?_⟩
  · simp [ComputeNextTimeStep_visible, Scenario.pairWorld, Scenario.ext]
  · simp [ComputeNextTimeStep_repPed, Scenario.pairWorld, Scenario.ext]
  · simp [ComputeNextTimeStep_spacings, Scenario.pairWorld, Scenario.ext, Scenario.pairStore,
      Scenario.store, Scenario.agent, GetSpacing, Point.sub_def, hn, Point.Normalized,
      Point.sdiv, Point.ScalarProduct, Point.Rotate]
    norm_num
  · rw [ComputeNextTimeStep_pedResult_eq (Scenario.pairWorld Real.sqrt Real.exp false)
      Scenario.model (Scenario.pairStore 1) 0 0 0 ⟨1, 0⟩
      { Scenario.agent 1 ⟨0, 0⟩ ⟨0, 0⟩ (-1) with LastE0 := ⟨10, 0⟩, V0 := ⟨1, 0⟩ } [(1, 2)]
      (by simp [ComputeNextTimeStep_repPed, Scenario.pairWorld, Scenario.ext,
        Scenario.pairStore, Scenario.store, Scenario.agent])
      (by simp [ForceRepRoom, ForceRepRoom_obstacles, Scenario.pairWorld, Scenario.ext,
        Scenario.emptySubRoom])
      (Scenario.e0_origin _ _ _ _ _ _)
      (by
        simp [ComputeNextTimeStep_spacings, Scenario.pairWorld, Scenario.ext,
          Scenario.pairStore, Scenario.store, Scenario.agent, GetSpacing, Point.sub_def,
          Point.add_def, Point.zero_def, hn, Point.Normalized, Point.sdiv,
          Point.ScalarProduct, Point.Rotate, Function.update_apply]
        norm_num)]
    simp [ComputeNextTimeStep_minSpacing, OptimalSpeed, Scenario.pairWorld, Scenario.ext,
      Scenario.agent, Point.add_def, Point.zero_def, Point.Normalized, hn, Point.sdiv,
      Point.smul]
    norm_num
  · rw [ComputeNextTimeStep_pedResult_eq (Scenario.openWorld Real.sqrt Real.exp)
      Scenario.model (Scenario.pairStore 1) 0 0 0 ⟨1, 0⟩
      { Scenario.agent 1 ⟨0, 0⟩ ⟨0, 0⟩ (-1) with LastE0 := ⟨10, 0⟩, V0 := ⟨1, 0⟩ } []
      (by simp [ComputeNextTimeStep_repPed, Scenario.openWorld, Scenario.ext,
        Scenario.pairStore, Scenario.store, Scenario.agent])
      (by simp [ForceRepRoom, ForceRepRoom_obstacles, Scenario.openWorld, Scenario.ext,
        Scenario.emptySubRoom])
      (Scenario.e0_origin _ _ _ _ _ _)
      (by simp [ComputeNextTimeStep_spacings, Scenario.openWorld, Scenario.ext,
          Scenario.pairStore, Scenario.store, Scenario.agent])]
    simp [ComputeNextTimeStep_minSpacing, OptimalSpeed, Scenario.openWorld, Scenario.ext,
      Scenario.agent, Point.add_def, Point.zero_def, Point.Normalized, hn, Point.sdiv,
      Point.smul]
    norm_num

/-- C9 as stated fails: in the L-shaped subroom the agent at (0.2756, 0.0008)
is inside the subroom and 0.8 mm from the wall from (0, 0) to (3, 0); the
centroid (1.1, 1.1) is outside the subroom, and the direction is
(-3/5, -4/5), opposite to the unit vector (3/5, 4/5) towards the centroid. -/
theorem C9_counterexample :
    (Scenario.lWorld Real.sqrt Real.exp).IsInSubRoom Scenario.lSubRoom
        (Scenario.agent 1 ⟨689 / 2500, 1 / 1250⟩ ⟨0, 0⟩ (-1) : Pedestrian ℝ).Pos = true
    ∧ (Scenario.lWorld Real.sqrt Real.exp).IsInSubRoom Scenario.lSubRoom
        (Scenario.lSubRoom : SubRoom ℝ).Centroid = false
    ∧ ((Scenario.lWorld Real.sqrt Real.exp).ShortestPoint ⟨⟨0, 0⟩, ⟨3, 0⟩⟩
          (Scenario.agent 1 ⟨689 / 2500, 1 / 1250⟩ ⟨0, 0⟩ (-1) : Pedestrian ℝ).Pos
        - (Scenario.agent 1 ⟨689 / 2500, 1 / 1250⟩ ⟨0, 0⟩ (-1) : Pedestrian ℝ).Pos).Norm Real.sqrt
        ≤ 1 / 1000
    ∧ ((Scenario.lSubRoom : SubRoom ℝ).Centroid
          - (Scenario.agent 1 ⟨689 / 2500, 1 / 1250⟩ ⟨0, 0⟩ (-1) : Pedestrian ℝ).Pos).sdiv
        (((Scenario.lSubRoom : SubRoom ℝ).Centroid
          - (Scenario.agent 1 ⟨689 / 2500, 1 / 1250⟩ ⟨0, 0⟩ (-1) : Pedestrian ℝ).Pos).Norm
            Real.sqrt) = ⟨3 / 5, 4 / 5⟩
    ∧ ForceRepWall_e_iw (Scenario.lWorld Real.sqrt Real.exp)
        (Scenario.agent 1 ⟨689 / 2500, 1 / 1250⟩ ⟨0, 0⟩ (-1)) ⟨⟨0, 0⟩, ⟨3, 0⟩⟩
        (Scenario.lSubRoom : SubRoom ℝ).Centroid
        ((Scenario.lWorld Real.sqrt Real.exp).IsInSubRoom Scenario.lSubRoom
          (Scenario.lSubRoom : SubRoom ℝ).Centroid) = ⟨-3 / 5, -4 / 5⟩ := by
  have hpt : Scenario.ShortestPoint (⟨⟨0, 0⟩, ⟨3, 0⟩⟩ : Line ℝ) ⟨689 / 2500, 1 / 1250⟩
      = ⟨689 / 2500, 0⟩ := by
    simp [Scenario.ShortestPoint, Point.sub_def, Point.add_def, Point.NormSquare,
      Point.ScalarProduct, Point.smul]
    norm_num
  have hd : Point.Norm Real.sqrt ((⟨689 / 2500, 0⟩ : Point ℝ) - ⟨689 / 2500, 1 / 1250⟩)
      = 1 / 1250 := by
    rw [Point.sub_def]
    exact real_norm _ _ _ (by norm_num) (by norm_num)
  have hc : Point.Norm Real.sqrt ((⟨11 / 10, 11 / 10⟩ : Point ℝ) - ⟨689 / 2500, 1 / 1250⟩)
      = 687 / 500 := by
    rw [Point.sub_def]
    exact real_norm _ _ _ (by norm_num) (by norm_num)
  have hin : Scenario.inL (⟨11 / 10, 11 / 10⟩ : Point ℝ) = false := by
    simp [Scenario.inL]
    norm_num
  refine ⟨?_, ?_, ?_, ?_, ?_⟩
  · simp [Scenario.lWorld, Scenario.ext, Scenario.agent, Scenario.inL]
    norm_num
  · simpa [Scenario.lWorld, Scenario.ext, Scenario.lSubRoom] using hin
  · simp only [Scenario.lWorld, Scenario.ext, Scenario.agent, hpt, hd]
    norm_num
  · simp only [Scenario.lSubRoom, Scenario.agent, hc]
    simp [Point.sub_def, Point.sdiv]
    norm_num
  · simp only [ForceRepWall_e_iw, Scenario.lWorld, Scenario.ext, Scenario.agent,
      Scenario.lSubRoom, hpt, hd, hc, hin, add_zero]
    simp [Point.sub_def, Point.sdiv, Point.smul]
    norm_num

/-- C10 as stated fails: the agent at (10, 0) stands on its exit line and
inside an obstacle of its subroom; `ForceRepRoom` does not return the zero
vector for it, it exits. -/
theorem C10_counterexample :
    (Scenario.boxWorld Real.sqrt Real.exp).DistToSquare
        (Scenario.agent 1 ⟨10, 0⟩ ⟨0, 0⟩ (-1) : Pedestrian ℝ).ExitLine
        (Scenario.agent 1 ⟨10, 0⟩ ⟨0, 0⟩ (-1) : Pedestrian ℝ).Pos
      < (Scenario.boxWorld Real.sqrt Real.exp).J_EPS_GOAL
        * (Scenario.boxWorld Real.sqrt Real.exp).J_EPS_GOAL
    ∧ ForceRepRoom (Scenario.boxWorld Real.sqrt Real.exp) Scenario.model
        (Scenario.agent 1 ⟨10, 0⟩ ⟨0, 0⟩ (-1)) Scenario.boxSubRoom = none
    ∧ ForceRepRoom (Scenario.boxWorld Real.sqrt Real.exp) Scenario.model
        (Scenario.agent 1 ⟨10, 0⟩ ⟨0, 0⟩ (-1)) Scenario.boxSubRoom ≠ some 0 := by
  have hnone : ForceRepRoom (Scenario.boxWorld Real.sqrt Real.exp) Scenario.model
      (Scenario.agent 1 ⟨10, 0⟩ ⟨0, 0⟩ (-1)) Scenario.boxSubRoom = none := by
    rw [ForceRepRoom_eq, if_pos]
    refine ⟨Scenario.box, by simp [Scenario.boxSubRoom], ?_⟩
    simp [Scenario.boxWorld, Scenario.ext, Scenario.inBox, Scenario.agent]
    norm_num
  refine ⟨Scenario.atGoal, hnone, ?_⟩
  rw [hnone]
  simp

/-- C10 (amended), at the agent that stands on its exit line. -/
theorem C10_no_wall_force_at_goal_witness :
    (Scenario.boxWorld Real.sqrt Real.exp).DistToSquare
        (Scenario.agent 1 ⟨10, 0⟩ ⟨0, 0⟩ (-1) : Pedestrian ℝ).ExitLine
        (Scenario.agent 1 ⟨10, 0⟩ ⟨0, 0⟩ (-1) : Pedestrian ℝ).Pos
      < (Scenario.boxWorld Real.sqrt Real.exp).J_EPS_GOAL
        * (Scenario.boxWorld Real.sqrt Real.exp).J_EPS_GOAL
    ∧ ∀ (w : Line ℝ) (centroid : Point ℝ) (inside : Bool),
        ForceRepWall (Scenario.boxWorld Real.sqrt Real.exp) Scenario.model
          (Scenario.agent 1 ⟨10, 0⟩ ⟨0, 0⟩ (-1)) w centroid inside = 0 :=
  ⟨Scenario.atGoal,
    (C10_no_wall_force_at_goal (Scenario.boxWorld Real.sqrt Real.exp) Scenario.model
      (Scenario.agent 1 ⟨10, 0⟩ ⟨0, 0⟩ (-1)) Scenario.boxSubRoom Scenario.atGoal).1⟩


end Runs

end VelocityModel

/-! ## The lines of `ForceRepRoom` -/

namespace VelocityModel

section RoomLines

variable {K : Type} [LinearOrderedField K]

theorem not_isOpen_eq (t : Transition K) :
    (!t.IsOpen) = decide (t.State = DoorState.CLOSE ∨ t.State = DoorState.TEMP_CLOSE) := by
  cases t with
  | mk uid line state => cases state <;> simp [Transition.IsOpen]

theorem ForceRepRoom_lines_eq (subroom : SubRoom K) :
    ForceRepRoom_lines subroom
      = subroom.AllWalls ++ subroom.AllObstacles.flatMap (fun obst => obst.AllWalls)
        ++ (subroom.AllTransitions.filter (fun t =>
            decide (t.State = DoorState.CLOSE ∨ t.State = DoorState.TEMP_CLOSE))).map
          (fun t => t.line) := by
  unfold ForceRepRoom_lines
  congr 3
  funext t
  exact not_isOpen_eq t

/-- C11 (amended): when no obstacle of the subroom contains the agent,
`ForceRepRoom` returns the sum of `ForceRepWall` over the walls of the subroom,
the walls of its obstacles and the transitions in state CLOSE or TEMP_CLOSE,
in which an open transition does not occur and every other transition occurs
as often as in the subroom; when an obstacle contains the agent it returns
nothing, it exits. -/
theorem C11_ForceRepRoom_sum (ext : Externals K) (m : Model K) (ped : Pedestrian K)
    (subroom : SubRoom K) :
    ((∀ obst ∈ subroom.AllObstacles, ext.Contains obst ped.Pos = false) →
      ForceRepRoom ext m ped subroom
        = some (((subroom.AllWalls ++ subroom.AllObstacles.flatMap (fun obst => obst.AllWalls)
            ++ (subroom.AllTransitions.filter (fun t =>
                decide (t.State = DoorState.CLOSE ∨ t.State = DoorState.TEMP_CLOSE))).map
              (fun t => t.line)).map
          (fun w => ForceRepWall ext m ped w subroom.Centroid
            (ext.IsInSubRoom subroom subroom.Centroid))).foldl (fun f g => f + g) 0))
    ∧ ((∃ obst ∈ subroom.AllObstacles, ext.Contains obst ped.Pos = true) →
      ForceRepRoom ext m ped subroom = none)
    ∧ (∀ t : Transition K,
      (subroom.AllTransitions.filter (fun t =>
          decide (t.State = DoorState.CLOSE ∨ t.State = DoorState.TEMP_CLOSE))).count t
        = if t.State = DoorState.OPEN then 0 else subroom.AllTransitions.count t) := by
  refine ⟨?_, ?_, ?_⟩
  · intro hno
    rw [ForceRepRoom_eq, if_neg, ForceRepRoom_lines_eq]
    rintro ⟨obst, ho, hc⟩
    rw [hno obst ho] at hc
    exact Bool.false_ne_true hc
  · intro hex
    rw [ForceRepRoom_eq, if_pos hex]
  · intro t
    split_ifs with h
    · rw [List.count_eq_zero]
      intro hmem
      have := (List.mem_filter.1 hmem).2
      simp [h] at this
    · apply List.count_filter
      cases t with
      | mk uid line state => cases state <;> simp at h ⊢

/-- C11 as stated fails: in the subroom with the three doors the agent at
(10, 0) stands inside the obstacle; `ForceRepRoom` does not return the sum
over the lines of the subroom for it, it exits. -/
theorem C11_counterexample :
    ForceRepRoom (Scenario.doorWorld Real.sqrt Real.exp) Scenario.model
        (Scenario.agent 1 ⟨10, 0⟩ ⟨0, 0⟩ (-1)) Scenario.doorSubRoom = none
    ∧ ForceRepRoom (Scenario.doorWorld Real.sqrt Real.exp) Scenario.model
        (Scenario.agent 1 ⟨10, 0⟩ ⟨0, 0⟩ (-1)) Scenario.doorSubRoom
      ≠ some ((([⟨⟨0, 2⟩, ⟨10, 2⟩⟩] ++ (Scenario.box : Obstacle ℝ).AllWalls
            ++ [⟨⟨2, -2⟩, ⟨3, -2⟩⟩, ⟨⟨4, -2⟩, ⟨5, -2⟩⟩] : List (Line ℝ)).map
          (fun w => ForceRepWall (Scenario.doorWorld Real.sqrt Real.exp) Scenario.model
            (Scenario.agent 1 ⟨10, 0⟩ ⟨0, 0⟩ (-1)) w ⟨5, 0⟩ true)).foldl
          (fun f g => f + g) 0) := by
  have hnone : ForceRepRoom (Scenario.doorWorld Real.sqrt Real.exp) Scenario.model
      (Scenario.agent 1 ⟨10, 0⟩ ⟨0, 0⟩ (-1)) Scenario.doorSubRoom = none := by
    rw [ForceRepRoom_eq, if_pos]
    refine ⟨Scenario.box, by simp [Scenario.doorSubRoom], ?_⟩
    simp [Scenario.doorWorld, Scenario.ext, Scenario.inBox, Scenario.agent]
    norm_num
  refine ⟨hnone, ?_⟩
  rw [hnone]
  exact fun h => Option.noConfusion h

/-- C11 (amended), at the agent at (0, 0) in the subroom with the three
doors: the sum runs over the wall, the four walls of the obstacle, the
temporarily closed door and the closed door. -/
theorem C11_ForceRepRoom_sum_witness :
    (∀ obst ∈ (Scenario.doorSubRoom : SubRoom ℝ).AllObstacles,
      (Scenario.doorWorld Real.sqrt Real.exp).Contains obst
        (Scenario.agent 1 ⟨0, 0⟩ ⟨0, 0⟩ (-1) : Pedestrian ℝ).Pos = false)
    ∧ ForceRepRoom (Scenario.doorWorld Real.sqrt Real.exp) Scenario.model
        (Scenario.agent 1 ⟨0, 0⟩ ⟨0, 0⟩ (-1)) Scenario.doorSubRoom
      = some ((([⟨⟨0, 2⟩, ⟨10, 2⟩⟩] ++ (Scenario.box : Obstacle ℝ).AllWalls
            ++ [⟨⟨2, -2⟩, ⟨3, -2⟩⟩, ⟨⟨4, -2⟩, ⟨5, -2⟩⟩] : List (Line ℝ)).map
          (fun w => ForceRepWall (Scenario.doorWorld Real.sqrt Real.exp) Scenario.model
            (Scenario.agent 1 ⟨0, 0⟩ ⟨0, 0⟩ (-1)) w ⟨5, 0⟩ true)).foldl
          (fun f g => f + g) 0) := by
  have hno : ∀ obst ∈ (Scenario.doorSubRoom : SubRoom ℝ).AllObstacles,
      (Scenario.doorWorld Real.sqrt Real.exp).Contains obst
        (Scenario.agent 1 ⟨0, 0⟩ ⟨0, 0⟩ (-1) : Pedestrian ℝ).Pos = false := by
    intro obst _
    simp [Scenario.doorWorld, Scenario.ext, Scenario.inBox, Scenario.agent]
  refine ⟨hno, ?_⟩
  have hl : (Scenario.doorSubRoom : SubRoom ℝ).AllWalls
        ++ (Scenario.doorSubRoom : SubRoom ℝ).AllObstacles.flatMap (fun obst => obst.AllWalls)
        ++ ((Scenario.doorSubRoom : SubRoom ℝ).AllTransitions.filter (fun t =>
            decide (t.State = DoorState.CLOSE ∨ t.State = DoorState.TEMP_CLOSE))).map
          (fun t => t.line)
      = [⟨⟨0, 2⟩, ⟨10, 2⟩⟩] ++ (Scenario.box : Obstacle ℝ).AllWalls
        ++ [⟨⟨2, -2⟩, ⟨3, -2⟩⟩, ⟨⟨4, -2⟩, ⟨5, -2⟩⟩] := by
    simp [Scenario.doorSubRoom, List.filter]
  have h := (C11_ForceRepRoom_sum (Scenario.doorWorld Real.sqrt Real.exp) Scenario.model
    (Scenario.agent 1 ⟨0, 0⟩ ⟨0, 0⟩ (-1)) Scenario.doorSubRoom).1 hno
  rw [h, hl]
  rfl

end RoomLines

end VelocityModel

/-! ## The loop of libcore -/

namespace LibCore

open VelocityModel

section Loop

variable {K : Type} [LinearOrderedField K]

theorem RemoveAgents_frame (s : Simulation K) (ids : List Int) :
    (RemoveAgents s ids)._clock = s._clock ∧ (RemoveAgents s ids).calls = s.calls
      ∧ (RemoveAgents s ids)._eventProcessed = s._eventProcessed
      ∧ (RemoveAgents s ids)._routingEngine = s._routingEngine
      ∧ (RemoveAgents s ids)._building = s._building :=
  ⟨rfl, rfl, rfl, rfl, rfl⟩

theorem UpdateLocations_frame (ext : Externals K) (s : Simulation K) :
    (UpdateLocations ext s)._clock = s._clock
      ∧ (UpdateLocations ext s).calls = s.calls ++ [Call.UpdateLocations]
      ∧ (UpdateLocations ext s)._eventProcessed = s._eventProcessed
      ∧ (UpdateLocations ext s)._routingEngine.rebuilds = s._routingEngine.rebuilds :=
  ⟨rfl, rfl, rfl, rfl⟩

theorem UpdateRoutes_frame (ext : Externals K) (s : Simulation K) :
    (UpdateRoutes ext s)._clock = s._clock
      ∧ (UpdateRoutes ext s)._eventProcessed = s._eventProcessed
      ∧ (UpdateRoutes ext s)._building = s._building := by
  unfold UpdateRoutes
  split_ifs <;> exact ⟨rfl, rfl, rfl⟩

/-- The calls of `UpdateRoutes`: the router is rebuilt first when it needs it,
then the route of every agent is resolved, in the order of the agents. -/
theorem UpdateRoutes_calls (ext : Externals K) (s : Simulation K) :
    (UpdateRoutes ext s).calls
      = s.calls ++ (if s._routingEngine.NeedsUpdate then [Call.UpdateRouter] else [])
        ++ s._agents.map (fun ped => Call.FindExit ped.UID) := by
  unfold UpdateRoutes
  split_ifs <;> simp [Simulation.called]

/-- The router that resolves the routes in `UpdateRoutes`: rebuilt when it
needed an update. -/
theorem UpdateRoutes_agents (ext : Externals K) (s : Simulation K) :
    (UpdateRoutes ext s)._agents
      = s._agents.map (UpdateRoutes_ped ext
          (if s._routingEngine.NeedsUpdate then s._routingEngine.UpdateRouter
            else s._routingEngine) s._building s._clock.ElapsedTime) := by
  unfold UpdateRoutes
  split_ifs <;> rfl

/-- A tick in which the elapsed time has not passed the premovement times
skips the decision steps: it updates the grid and the time of the router,
clears the event flag and advances the clock. -/
theorem Iterate_premovement (ext : Externals K) (s : Simulation K)
    (h : s._clock.ElapsedTime ≤ ext.GetMinPremovementTime) :
    Iterate ext s = some
      { s with
        _building := ext.UpdateGrid s._building s._agents
        _routingEngine := ext.UpdateTime s._routingEngine s._clock.ElapsedTime
        _eventProcessed := false
        _clock := s._clock.Advance
        calls := s.calls ++ [Call.UpdateGrid, Call.DirectionManagerUpdate,
          Call.OperationalModelUpdate, Call.UpdateTime, Call.Advance] } := by
  unfold Iterate
  simp only [Simulation.called, gt_iff_lt, not_lt.2 h, ↓reduceIte, List.append_assoc,
    List.singleton_append, List.cons_append, List.nil_append]

/-- The calls of `UpdateRoutes` after the router was told whether it needs an
update: the rebuild, when there is one, comes before every `FindExit`. -/
theorem Iterate_decisions_frame (ext : Externals K) (s s' : Simulation K) (t : K)
    (h : Iterate_decisions ext s t = some s') :
    s'._clock = s._clock ∧ s'._eventProcessed = s._eventProcessed
      ∧ s'.calls = s.calls
          ++ (if s._eventProcessed || s._routingEngine.NeedsUpdate then [Call.UpdateRouter]
            else [])
          ++ s._agents.map (fun ped => Call.FindExit ped.UID)
          ++ [Call.ComputeNextTimeStep] ++ (if s._eventProcessed then [Call.ReInit] else [])
          ++ [Call.UpdateLocations, Call.GoalManagerUpdate] := by
  unfold Iterate_decisions at h
  simp only [] at h
  obtain ⟨U, hU⟩ : ∃ U, U = UpdateRoutes ext
      { s with
        _routingEngine :=
          (s._routingEngine.setNeedUpdate (s._eventProcessed || s._routingEngine.NeedsUpdate)) } :=
    ⟨_, rfl⟩
  have hf := UpdateRoutes_frame ext
    { s with
      _routingEngine :=
        (s._routingEngine.setNeedUpdate (s._eventProcessed || s._routingEngine.NeedsUpdate)) }
  have hcalls := UpdateRoutes_calls ext
    { s with
      _routingEngine :=
        (s._routingEngine.setNeedUpdate (s._eventProcessed || s._routingEngine.NeedsUpdate)) }
  rw [← hU] at h hf hcalls
  simp only [RoutingEngine.setNeedUpdate, RoutingEngine.NeedsUpdate] at hf hcalls
  split at h
  · exact absurd h (by simp)
  · rename_i agents hc
    simp only [Option.some.injEq] at h
    subst h
    refine ⟨?_, ?_, ?_⟩
    · simp only [Simulation.called, (UpdateLocations_frame _ _).1]
      split_ifs <;> exact hf.1
    · simp only [Simulation.called, (UpdateLocations_frame _ _).2.2.1]
      split_ifs <;> exact hf.2.1
    · simp only [Simulation.called, (UpdateLocations_frame _ _).2.1, hf.2.1,
        RoutingEngine.NeedsUpdate]
      cases he : s._eventProcessed <;> simp only [he] at hcalls ⊢ <;> simp [hcalls]

/-- Every tick that returns advances the clock, clears the event flag, and
notes the advance last. -/
theorem Iterate_clock (ext : Externals K) (s s' : Simulation K) (h : Iterate ext s = some s') :
    s'._clock = s._clock.Advance ∧ s'._eventProcessed = false
      ∧ s'.calls.getLast? = some Call.Advance := by
  unfold Iterate at h
  simp only [Simulation.called] at h
  split at h
  · exact absurd h (by simp)
  · rename_i r s1 hr
    simp only [Option.some.injEq] at h
    subst h
    refine ⟨?_, rfl, by simp⟩
    split_ifs at hr with ht
    · rw [(Iterate_decisions_frame ext _ _ _ hr).1]
    · simp only [Option.some.injEq] at hr
      subst hr
      rfl

/-- A tick returns when the operational model returns. -/
theorem Iterate_isSome (ext : Externals K) (s : Simulation K)
    (h : ∀ t dT building agents, (ext.ComputeNextTimeStep t dT building agents).isSome) :
    (Iterate ext s).isSome := by
  have hd : ∀ (s : Simulation K) (t : K), (Iterate_decisions ext s t).isSome := by
    intro s t
    unfold Iterate_decisions
    simp only []
    split
    · rename_i hc
      rw [← Option.not_isSome_iff_eq_none] at hc
      exact absurd (h _ _ _ _) hc
    · rfl
  unfold Iterate
  simp only []
  split
  · rename_i hr
    split_ifs at hr
    · rw [← Option.not_isSome_iff_eq_none] at hr
      exact absurd (hd _ _) hr
  · rfl

theorem IterateN_clock (ext : Externals K) (n : Nat) :
    ∀ s s' : Simulation K, IterateN ext n s = some s' →
      s'._clock._iteration = s._clock._iteration + n ∧ s'._clock._dT = s._clock._dT := by
  induction n with
  | zero =>
    intro s s' h
    simp only [IterateN, Option.some.injEq] at h
    subst h
    exact ⟨rfl, rfl⟩
  | succ n ih =>
    intro s s' h
    simp only [IterateN] at h
    cases h1 : Iterate ext s with
    | none => simp [h1] at h
    | some s1 =>
      rw [h1] at h
      simp only [Option.some_bind] at h
      obtain ⟨h2, h3⟩ := ih s1 s' h
      have hc := (Iterate_clock ext s s1 h1).1
      rw [h2, h3, hc]
      simp only [SimulationClock.Advance]
      exact ⟨by omega, trivial⟩

end Loop

end LibCore

namespace LibCore

open VelocityModel

section Routes

variable {K : Type} [LinearOrderedField K]

/-- The calls of a tick in which the elapsed time has passed the premovement
times: a rebuild of the router comes before every `FindExit` when an event was
processed or the router needed an update. -/
theorem Iterate_calls (ext : Externals K) (s s' : Simulation K) (h : Iterate ext s = some s')
    (ht : s._clock.ElapsedTime > ext.GetMinPremovementTime) :
    s'.calls = s.calls
      ++ [Call.UpdateGrid, Call.DirectionManagerUpdate, Call.OperationalModelUpdate,
        Call.UpdateTime]
      ++ (if s._eventProcessed
            || (ext.UpdateTime s._routingEngine s._clock.ElapsedTime).NeedsUpdate
          then [Call.UpdateRouter] else [])
      ++ s._agents.map (fun ped => Call.FindExit ped.UID)
      ++ [Call.ComputeNextTimeStep] ++ (if s._eventProcessed then [Call.ReInit] else [])
      ++ [Call.UpdateLocations, Call.GoalManagerUpdate, Call.Advance] := by
  unfold Iterate at h
  simp only [Simulation.called, if_pos ht] at h
  split at h
  · exact absurd h (by simp)
  · rename_i r s1 hr
    simp only [Option.some.injEq] at h
    subst h
    have hf := (Iterate_decisions_frame ext _ _ _ hr).2.2
    simp only [hf, List.append_assoc, List.singleton_append, List.cons_append,
      List.nil_append]

/-- The router that resolves the routes of a tick. -/
theorem UpdateRoutes_rebuilds (ext : Externals K) (s : Simulation K) :
    (UpdateRoutes ext s)._routingEngine.rebuilds
      = s._routingEngine.rebuilds + (if s._routingEngine.NeedsUpdate then 1 else 0) := by
  unfold UpdateRoutes
  split_ifs <;> rfl

theorem Iterate_decisions_rebuilds (ext : Externals K) (s s' : Simulation K) (t : K)
    (h : Iterate_decisions ext s t = some s') :
    s'._routingEngine.rebuilds
      = s._routingEngine.rebuilds
        + (if s._eventProcessed || s._routingEngine.NeedsUpdate then 1 else 0) := by
  unfold Iterate_decisions at h
  simp only [] at h
  obtain ⟨U, hU⟩ : ∃ U, U = UpdateRoutes ext
      { s with
        _routingEngine :=
          (s._routingEngine.setNeedUpdate (s._eventProcessed || s._routingEngine.NeedsUpdate)) } :=
    ⟨_, rfl⟩
  have hr := UpdateRoutes_rebuilds ext
    { s with
      _routingEngine :=
        (s._routingEngine.setNeedUpdate (s._eventProcessed || s._routingEngine.NeedsUpdate)) }
  rw [← hU] at h hr
  simp only [RoutingEngine.setNeedUpdate, RoutingEngine.NeedsUpdate] at hr
  split at h
  · exact absurd h (by simp)
  · simp only [Option.some.injEq] at h
    subst h
    simp only [Simulation.called, RoutingEngine.NeedsUpdate]
    rw [(UpdateLocations_frame ext _).2.2.2, ← hr]
    split_ifs <;> rfl

/-- The rebuilds of the router after a tick in which the elapsed time has
passed the premovement times. -/
theorem Iterate_rebuilds (ext : Externals K) (s s' : Simulation K) (h : Iterate ext s = some s')
    (ht : s._clock.ElapsedTime > ext.GetMinPremovementTime) :
    s'._routingEngine.rebuilds
      = (ext.UpdateTime s._routingEngine s._clock.ElapsedTime).rebuilds
        + (if s._eventProcessed
              || (ext.UpdateTime s._routingEngine s._clock.ElapsedTime).NeedsUpdate
            then 1 else 0) := by
  unfold Iterate at h
  simp only [Simulation.called, if_pos ht] at h
  split at h
  · exact absurd h (by simp)
  · rename_i r s1 hr
    simp only [Option.some.injEq] at h
    subst h
    exact Iterate_decisions_rebuilds ext _ _ _ hr

/-- C14: `InitArgs` returns false exactly when the linked-cell size is
smaller than `distEffMaxPed` and true exactly when it is at least
`distEffMaxPed`; when it returns false `UpdateLocations` has not run, when it
returns true it has run last; the default configuration passes, and it fails
with the linked-cell size lowered to 1. -/
theorem C14_InitArgs (ext : Externals K) (s : Simulation K) :
    ((InitArgs ext s).1 = false ↔ s._config.linkedCellSize < s._config.distEffMaxPed)
    ∧ ((InitArgs ext s).1 = true ↔ s._config.linkedCellSize ≥ s._config.distEffMaxPed)
    ∧ ((InitArgs ext s).1 = false →
      (InitArgs ext s).2.calls = s.calls ++ [Call.OperationalModelInit])
    ∧ ((InitArgs ext s).1 = true →
      (InitArgs ext s).2.calls = s.calls ++ [Call.OperationalModelInit, Call.UpdateLocations])
    ∧ (InitArgs ext { s with _config := Configuration.defaults }).1 = true
    ∧ (InitArgs ext
        { s with _config := { (Configuration.defaults : Configuration K) with
            linkedCellSize := 1 } }).1 = false := by
  have key : ∀ s : Simulation K,
      InitArgs ext s
        = if s._config.distEffMaxPed > s._config.linkedCellSize then
            (false,
              { s with
                _fps := s._config.fps
                _agents := (ext.OperationalModelInit s._building s._agents s._config).map
                  (fun ped => ext.SetDeltaT ped s._clock.dT)
                _seed := s._config.seed
                calls := s.calls ++ [Call.OperationalModelInit] })
          else
            (true, UpdateLocations ext
              { s with
                _fps := s._config.fps
                _agents := (ext.OperationalModelInit s._building s._agents s._config).map
                  (fun ped => ext.SetDeltaT ped s._clock.dT)
                _seed := s._config.seed
                calls := s.calls ++ [Call.OperationalModelInit] }) := by
    intro s
    rfl
  refine ⟨?_, ?_, ?_, ?_, ?_, ?_⟩
  · rw [key]
    split_ifs with h <;> simp [h]
  · rw [key]
    split_ifs with h <;> simp [h]
    exact not_lt.1 h
  · rw [key]
    split_ifs with h
    · intro _
      rfl
    · intro hf
      exact absurd hf (by simp)
  · rw [key]
    split_ifs with h
    · intro hf
      exact absurd hf (by simp)
    · intro _
      simp [(UpdateLocations_frame _ _).2.1]
  · rw [key]
    simp only [Configuration.defaults]
    norm_num
  · rw [key]
    simp only [Configuration.defaults]
    norm_num

/-- What `UpdateRoutes` does to one agent, by the answer of the router: an
agent without target waits; an agent in the room and subroom of a target door
that is temporarily closed waits. -/
theorem UpdateRoutes_ped_waits (ext : Externals K) (engine : RoutingEngine)
    (building : Building K) (elapsed : K) (ped : Pedestrian K) :
    ((ext.FindExit engine building ped).1 = ext.FINAL_DEST_OUT →
      (UpdateRoutes_ped ext engine building elapsed ped).IsWaiting = true)
    ∧ (∀ cross : Transition K,
      (ext.FindExit engine building ped).1 ≠ ext.FINAL_DEST_OUT →
      ext.GetTransOrCrossByUID building (ext.FindExit engine building ped).1
        = some (Hline.Crossing cross) →
      ext.IsInRoom cross
        (ext.GetRoomAndSubRoomIDs building (ext.FindExit engine building ped).2.Pos).1 = true →
      ext.IsInSubRoom cross
        (ext.GetRoomAndSubRoomIDs building (ext.FindExit engine building ped).2.Pos).2.1
          = true →
      cross.State = DoorState.TEMP_CLOSE →
      (UpdateRoutes_ped ext engine building elapsed ped).IsWaiting = true) := by
  constructor
  · intro h
    simp [UpdateRoutes_ped, h, StartWaiting]
  · intro cross hne hdoor hroom hsub hstate
    have hpos : ∀ p : Pedestrian K, (EndWaiting p).Pos = p.Pos := fun _ => rfl
    have hopen : cross.IsOpen = false := by simp [Transition.IsOpen, hstate]
    have htemp : IsTempClose cross = true := by simp [IsTempClose, hstate]
    simp only [UpdateRoutes_ped, if_neg hne, ne_eq, hne, not_false_eq_true, ↓reduceIte, hdoor]
    split_ifs <;>
      simp_all [StartWaiting, EndWaiting]

end Routes

end LibCore

namespace LibCore

open VelocityModel

section RoutesClaims

variable {K : Type} [LinearOrderedField K]

/-- C17: after a run of `UpdateRoutes`, every agent for which `FindExit`
returned `FINAL_DEST_OUT` is waiting, and every agent that stands in the room
and subroom of its target door while that door is TEMP_CLOSE is waiting,
whether it was waiting before or not. -/
theorem C17_waiting_after_UpdateRoutes (ext : Externals K) (s : Simulation K) :
    List.Forall₂
      (fun ped ped' =>
        ((ext.FindExit (UpdateRoutes ext s)._routingEngine s._building ped).1
            = ext.FINAL_DEST_OUT → ped'.IsWaiting = true)
        ∧ (∀ cross : Transition K,
          (ext.FindExit (UpdateRoutes ext s)._routingEngine s._building ped).1
            ≠ ext.FINAL_DEST_OUT →
          ext.GetTransOrCrossByUID s._building
              (ext.FindExit (UpdateRoutes ext s)._routingEngine s._building ped).1
            = some (Hline.Crossing cross) →
          ext.IsInRoom cross (ext.GetRoomAndSubRoomIDs s._building
            (ext.FindExit (UpdateRoutes ext s)._routingEngine s._building ped).2.Pos).1 = true →
          ext.IsInSubRoom cross (ext.GetRoomAndSubRoomIDs s._building
            (ext.FindExit (UpdateRoutes ext s)._routingEngine s._building ped).2.Pos).2.1
              = true →
          cross.State = DoorState.TEMP_CLOSE →
          ped'.IsWaiting = true))
      s._agents (UpdateRoutes ext s)._agents := by
  have he : (UpdateRoutes ext s)._routingEngine
      = (if s._routingEngine.NeedsUpdate then s._routingEngine.UpdateRouter
          else s._routingEngine) := by
    unfold UpdateRoutes
    split_ifs <;> rfl
  rw [UpdateRoutes_agents, he, List.forall₂_map_right_iff, List.forall₂_same]
  intro ped _
  exact UpdateRoutes_ped_waits ext _ s._building s._clock.ElapsedTime ped

end RoutesClaims

section RoutesRuns

/-- An agent that does not wait and is routed to the temporarily closed door
of its subroom waits after `UpdateRoutes`. -/
theorem Scenario.tempClose_waits :
    (VelocityModel.Scenario.agent 1 ⟨0, 0⟩ ⟨0, 0⟩ (-1) : Pedestrian ℚ).IsWaiting = false
    ∧ (Scenario.ext (0 : ℚ) 2 Scenario.splice).GetTransOrCrossByUID Scenario.building 2
      = some (Hline.Crossing ⟨2, ⟨⟨2, -2⟩, ⟨3, -2⟩⟩, DoorState.TEMP_CLOSE⟩)
    ∧ (UpdateRoutes (Scenario.ext (0 : ℚ) 2 Scenario.splice)
        (Scenario.sim 1 [VelocityModel.Scenario.agent 1 ⟨0, 0⟩ ⟨0, 0⟩ (-1)]))._agents.map
          (fun ped => ped.IsWaiting) = [true] := by
  refine ⟨rfl, rfl, rfl⟩

/-- C16 fails: the agent 1 waits and is routed to door 3, which is in state
CLOSE and lies in the room and subroom of the agent; no waiting area holds the
agent.  After `UpdateRoutes` the agent does not wait any more. -/
theorem C16_leaves_waiting_at_closed_door :
    (Scenario.waiting 1 : Pedestrian ℚ).IsWaiting = true
    ∧ (Scenario.ext (0 : ℚ) 3 Scenario.splice).FindExit ⟨false, 0⟩ Scenario.building
        (Scenario.waiting 1) = (3, Scenario.waiting 1)
    ∧ (Scenario.ext (0 : ℚ) 3 Scenario.splice).GetTransOrCrossByUID Scenario.building 3
      = some (Hline.Crossing ⟨3, ⟨⟨4, -2⟩, ⟨5, -2⟩⟩, DoorState.CLOSE⟩)
    ∧ (UpdateRoutes (Scenario.ext (0 : ℚ) 3 Scenario.splice)
        (Scenario.sim 1 [Scenario.waiting 1]))._agents.map (fun ped => ped.IsWaiting)
      = [false] := by
  refine ⟨rfl, rfl, rfl, rfl⟩

/-- C15 fails: door 1 is closed before the first tick, at elapsed time 0 with
the premovement times ending at 0.  The first tick skips the decision steps
and clears the event flag; the second tick resolves the route of the agent
without a rebuild of the router, which was never told about the event. -/
theorem C15_event_dropped_in_premovement :
    ∃ s1 s2 : Simulation ℚ,
      Iterate Scenario.world (CloseDoor Scenario.world Scenario.start 1) = some s1
      ∧ Iterate Scenario.world s1 = some s2
      ∧ (CloseDoor Scenario.world (Scenario.start : Simulation ℚ) 1)._eventProcessed = true
      ∧ (CloseDoor Scenario.world (Scenario.start : Simulation ℚ) 1)._building.AllTransitions.map
          (fun door => (door.UniqueID, door.State))
        = [(1, DoorState.CLOSE), (2, DoorState.TEMP_CLOSE), (3, DoorState.CLOSE)]
      ∧ s1._eventProcessed = false
      ∧ s1._routingEngine = ⟨false, 0⟩
      ∧ s1.calls = [Call.UpdateGrid, Call.DirectionManagerUpdate, Call.OperationalModelUpdate,
          Call.UpdateTime, Call.Advance]
      ∧ s2.calls = [Call.UpdateGrid, Call.DirectionManagerUpdate, Call.OperationalModelUpdate,
          Call.UpdateTime, Call.Advance, Call.UpdateGrid, Call.DirectionManagerUpdate,
          Call.OperationalModelUpdate, Call.UpdateTime, Call.FindExit 1,
          Call.ComputeNextTimeStep, Call.UpdateLocations, Call.GoalManagerUpdate, Call.Advance]
      ∧ s2._routingEngine.rebuilds = 0 := by
  have h0 : (CloseDoor Scenario.world (Scenario.start : Simulation ℚ) 1)._clock.ElapsedTime
      ≤ (Scenario.world : Externals ℚ).GetMinPremovementTime := by
    simp [CloseDoor, Scenario.start, Scenario.world, Scenario.sim, Scenario.ext,
      SimulationClock.ElapsedTime]
  have h1 := Iterate_premovement _ _ h0
  obtain ⟨s1, hs1⟩ : ∃ s1, s1 =
      ({ CloseDoor Scenario.world (Scenario.start : Simulation ℚ) 1 with
        _building := (Scenario.world : Externals ℚ).UpdateGrid
          (CloseDoor Scenario.world (Scenario.start : Simulation ℚ) 1)._building
          (CloseDoor Scenario.world (Scenario.start : Simulation ℚ) 1)._agents
        _routingEngine := (Scenario.world : Externals ℚ).UpdateTime
          (CloseDoor Scenario.world (Scenario.start : Simulation ℚ) 1)._routingEngine
          (CloseDoor Scenario.world (Scenario.start : Simulation ℚ) 1)._clock.ElapsedTime
        _eventProcessed := false
        _clock := (CloseDoor Scenario.world (Scenario.start : Simulation ℚ) 1)._clock.Advance
        calls := (CloseDoor Scenario.world (Scenario.start : Simulation ℚ) 1).calls
          ++ [Call.UpdateGrid, Call.DirectionManagerUpdate, Call.OperationalModelUpdate,
            Call.UpdateTime, Call.Advance] } : Simulation ℚ) :=
    ⟨_, rfl⟩
  rw [← hs1] at h1
  have ht : s1._clock.ElapsedTime > (Scenario.world : Externals ℚ).GetMinPremovementTime := by
    rw [hs1]
    simp [CloseDoor, Scenario.start, Scenario.world, Scenario.sim, Scenario.ext,
      SimulationClock.ElapsedTime, SimulationClock.Advance]
  obtain ⟨s2, h2⟩ := Option.isSome_iff_exists.1
    (Iterate_isSome (Scenario.world : Externals ℚ) s1 (fun _ _ _ _ => rfl))
  have hcalls := Iterate_calls _ _ _ h2 ht
  have hreb := Iterate_rebuilds _ _ _ h2 ht
  refine ⟨s1, s2, h1, h2, rfl, rfl, ?_, ?_, ?_, ?_, ?_⟩
  · rw [hs1]
  · rw [hs1]
    rfl
  · rw [hs1]
    rfl
  · rw [hcalls, hs1]
    rfl
  · rw [hreb, hs1]
    rfl

end RoutesRuns

end LibCore

namespace LibCore

open VelocityModel

section Trains

variable {K : Type} [LinearOrderedField K]

theorem foldl_RemoveWall (walls : List (Line K)) (subroom : SubRoom K) :
    walls.foldl RemoveWall subroom
      = { subroom with AllWalls := subroom.AllWalls.diff walls } := by
  induction walls generalizing subroom with
  | nil => rfl
  | cons w rest ih =>
    rw [List.foldl_cons, ih, List.diff_cons]
    rfl

theorem foldl_AddWall (walls : List (Line K)) (subroom : SubRoom K) :
    walls.foldl AddWall subroom = { subroom with AllWalls := subroom.AllWalls ++ walls } := by
  induction walls generalizing subroom with
  | nil => simp
  | cons w rest ih =>
    rw [List.foldl_cons, ih]
    simp [AddWall]

theorem foldl_AddTransition (doors : List (Transition K)) (subroom : SubRoom K) :
    doors.foldl AddTransition subroom
      = { subroom with AllTransitions := subroom.AllTransitions ++ doors } := by
  induction doors generalizing subroom with
  | nil => simp
  | cons d rest ih =>
    rw [List.foldl_cons, ih]
    simp [AddTransition]

theorem foldl_Building_AddTransition (doors : List (Transition K)) (building : Building K) :
    doors.foldl Building.AddTransition building
      = { building with AllTransitions := building.AllTransitions ++ doors } := by
  induction doors generalizing building with
  | nil => simp
  | cons d rest ih =>
    rw [List.foldl_cons, ih]
    simp [Building.AddTransition]

/-- The loop of `DeactivateTrain` over the doors of the train: every transition
with the unique id of one of the doors leaves the subroom and the building. -/
theorem foldl_RemoveTransition (doors : List (Transition K)) (subroom : SubRoom K)
    (building : Building K) :
    doors.foldl
        (fun (sb : SubRoom K × Building K) (door : Transition K) =>
          (RemoveTransitionByUID sb.1 door.UniqueID, sb.2.RemoveTransition door))
        (subroom, building)
      = ({ subroom with
            AllTransitions := subroom.AllTransitions.filter
              (fun t => doors.all (fun door => t.UniqueID != door.UniqueID)) },
          { building with
            AllTransitions := building.AllTransitions.filter
              (fun t => doors.all (fun door => t.UniqueID != door.UniqueID)) }) := by
  induction doors generalizing subroom building with
  | nil => simp
  | cons d rest ih =>
    rw [List.foldl_cons, ih]
    simp [RemoveTransitionByUID, Building.RemoveTransition, List.filter_filter, Bool.and_comm]

/-- Walls that were taken away, replaced by others, and then put back after
the others were taken away again, are the walls of the beginning. -/
theorem walls_restored (walls removed added : List (Line K)) (h : removed.Subperm walls) :
    (((walls.diff removed ++ added).diff added) ++ removed).Perm walls := by
  rw [← Multiset.coe_eq_coe, ← Multiset.coe_add, ← Multiset.coe_sub, ← Multiset.coe_add,
    ← Multiset.coe_sub]
  rw [add_tsub_cancel_right]
  exact tsub_add_cancel_of_le (Multiset.coe_le.2 h)

/-- Transitions that joined a list without sharing a unique id with it are
all that a removal by their unique ids takes away. -/
theorem transitions_restored (transitions doors : List (Transition K))
    (h : ∀ d ∈ doors, ∀ t ∈ transitions, t.UniqueID ≠ d.UniqueID) :
    (transitions ++ doors).filter (fun t => doors.all (fun door => t.UniqueID != door.UniqueID))
      = transitions := by
  rw [List.filter_append]
  have h1 : transitions.filter (fun t => doors.all (fun door => t.UniqueID != door.UniqueID))
      = transitions := by
    rw [List.filter_eq_self]
    intro t ht
    simp only [List.all_eq_true, bne_iff_ne, ne_eq]
    intro d hd
    exact h d hd t ht
  have h2 : doors.filter (fun t => doors.all (fun door => t.UniqueID != door.UniqueID))
      = [] := by
    rw [List.filter_eq_nil_iff]
    intro d hd hall
    simp only [List.all_eq_true, bne_iff_ne, ne_eq] at hall
    exact hall d hd rfl
  rw [h1, h2, List.append_nil]

end Trains

end LibCore

namespace LibCore

open VelocityModel

section TrainClaims

variable {K : Type} [LinearOrderedField K]

/-- What `AddTrainDoors` leaves behind on a known track: the walls and doors
of the subroom of the track after the splice, the doors of the building, and
the three sets recorded under the train id. -/
theorem AddTrainDoors_eq (ext : Externals K) (trainId trackId : Int) (building : Building K)
    (type : TrainType) (startOffset : K) (reversed : Bool) (track : Track)
    (htrack : building.GetTrack trackId = some track) :
    ∃ b1 : Building K,
      AddTrainDoors ext trainId trackId building type startOffset reversed = some b1
      ∧ b1.Tracks = building.Tracks
      ∧ b1.SubRooms = (fun r s =>
          if r = track._roomID ∧ s = track._subRoomID then
            { building.GetSubRoom track._roomID track._subRoomID with
              AllWalls := (building.GetSubRoom track._roomID track._subRoomID).AllWalls.diff
                  (ext.TrainDoors building trackId type startOffset reversed).wallsRemoved
                ++ (ext.TrainDoors building trackId type startOffset reversed).wallsAdded
              AllTransitions :=
                (building.GetSubRoom track._roomID track._subRoomID).AllTransitions
                  ++ (ext.TrainDoors building trackId type startOffset reversed).doorsAdded }
          else building.SubRooms r s)
      ∧ b1.AllTransitions = building.AllTransitions
          ++ (ext.TrainDoors building trackId type startOffset reversed).doorsAdded
      ∧ b1.TrainWallsAdded = Function.update building.TrainWallsAdded trainId
          (some (ext.TrainDoors building trackId type startOffset reversed).wallsAdded)
      ∧ b1.TrainWallsRemoved = Function.update building.TrainWallsRemoved trainId
          (some (ext.TrainDoors building trackId type startOffset reversed).wallsRemoved)
      ∧ b1.TrainDoorsAdded = Function.update building.TrainDoorsAdded trainId
          (some (ext.TrainDoors building trackId type startOffset reversed).doorsAdded) := by
  unfold AddTrainDoors
  simp only [htrack, foldl_RemoveWall, foldl_AddWall, foldl_AddTransition,
    foldl_Building_AddTransition]
  exact ⟨_, rfl, rfl, rfl, rfl, rfl, rfl, rfl⟩

/-- What `DeactivateTrain` leaves behind on a known track for a train with
three recorded sets. -/
theorem DeactivateTrain_eq (ext : Externals K) (s : Simulation K) (trainId trackId : Int)
    (track : Track) (added removed : List (Line K)) (doors : List (Transition K))
    (htrack : s._building.GetTrack trackId = some track)
    (hadded : s._building.TrainWallsAdded trainId = some added)
    (hremoved : s._building.TrainWallsRemoved trainId = some removed)
    (hdoors : s._building.TrainDoorsAdded trainId = some doors) :
    ∃ s2 : Simulation K,
      DeactivateTrain ext s trainId trackId = .ok s2
      ∧ s2._eventProcessed = true
      ∧ s2._building.Tracks = s._building.Tracks
      ∧ (s2._building.GetSubRoom track._roomID track._subRoomID).AllWalls
        = (s._building.GetSubRoom track._roomID track._subRoomID).AllWalls.diff added ++ removed
      ∧ (s2._building.GetSubRoom track._roomID track._subRoomID).AllTransitions
        = (s._building.GetSubRoom track._roomID track._subRoomID).AllTransitions.filter
            (fun t => doors.all (fun door => t.UniqueID != door.UniqueID))
      ∧ (s2._building.GetSubRoom track._roomID track._subRoomID).AllObstacles
        = (s._building.GetSubRoom track._roomID track._subRoomID).AllObstacles
      ∧ (∀ r sr, ¬(r = track._roomID ∧ sr = track._subRoomID) →
          s2._building.SubRooms r sr = s._building.SubRooms r sr)
      ∧ s2._building.AllTransitions = s._building.AllTransitions.filter
          (fun t => doors.all (fun door => t.UniqueID != door.UniqueID))
      ∧ s2._building.TrainWallsAdded trainId = none
      ∧ s2._building.TrainWallsRemoved trainId = none
      ∧ s2._building.TrainDoorsAdded trainId = none := by
  unfold DeactivateTrain
  simp only [htrack, Building.GetTrainWallsAdded, Building.GetTrainWallsRemoved,
    Building.GetTrainDoorsAdded, Building.ClearTrainWallsAdded, Building.ClearTrainWallsRemoved,
    Building.ClearTrainDoorsAdded, hadded, hremoved, hdoors, foldl_RemoveWall, foldl_AddWall,
    foldl_RemoveTransition]
  refine ⟨_, rfl, rfl, rfl, ?_, ?_, ?_, ?_, rfl, ?_, ?_, ?_⟩
  · simp [Building.GetSubRoom, Building.SetSubRoom, SubRoom_Update]
  · simp [Building.GetSubRoom, Building.SetSubRoom, SubRoom_Update]
  · simp [Building.GetSubRoom, Building.SetSubRoom, SubRoom_Update]
  · intro r sr h
    simp [Building.SetSubRoom, h]
  · simp [Building.SetSubRoom]
  · simp [Building.SetSubRoom]
  · simp [Building.SetSubRoom]

/-- C18: on a known track, a train activation that takes walls of the
subroom away, adds walls and adds doors whose unique ids are new to the subroom
and to the building, followed by `DeactivateTrain` for that train, restores
the subroom: its walls are those from before the activation up to their order,
its transitions and obstacles are those from before, the added doors are gone
from the building, whose transitions are those from before, the three sets
recorded for the train are cleared, and every other subroom is as it was. -/
theorem C18_train_restores (ext : Externals K) (s : Simulation K) (trainId trackId : Int)
    (type : TrainType) (startOffset : K) (reversed : Bool) (track : Track)
    (htrack : s._building.GetTrack trackId = some track)
    (hwalls : (ext.TrainDoors s._building trackId type startOffset reversed).wallsRemoved.Subperm
      (s._building.GetSubRoom track._roomID track._subRoomID).AllWalls)
    (hsub : ∀ d ∈ (ext.TrainDoors s._building trackId type startOffset reversed).doorsAdded,
      ∀ t ∈ (s._building.GetSubRoom track._roomID track._subRoomID).AllTransitions,
        t.UniqueID ≠ d.UniqueID)
    (hbuilding : ∀ d ∈ (ext.TrainDoors s._building trackId type startOffset reversed).doorsAdded,
      ∀ t ∈ s._building.AllTransitions, t.UniqueID ≠ d.UniqueID) :
    ∃ s1 s2 : Simulation K,
      ActivateTrain ext s trainId trackId type startOffset reversed = .ok s1
      ∧ (s1._building.GetSubRoom track._roomID track._subRoomID).AllWalls
        = (s._building.GetSubRoom track._roomID track._subRoomID).AllWalls.diff
            (ext.TrainDoors s._building trackId type startOffset reversed).wallsRemoved
          ++ (ext.TrainDoors s._building trackId type startOffset reversed).wallsAdded
      ∧ (s1._building.GetSubRoom track._roomID track._subRoomID).AllTransitions
        = (s._building.GetSubRoom track._roomID track._subRoomID).AllTransitions
          ++ (ext.TrainDoors s._building trackId type startOffset reversed).doorsAdded
      ∧ s1._building.GetTrainWallsAdded trainId
        = some (ext.TrainDoors s._building trackId type startOffset reversed).wallsAdded
      ∧ s1._building.GetTrainWallsRemoved trainId
        = some (ext.TrainDoors s._building trackId type startOffset reversed).wallsRemoved
      ∧ s1._building.GetTrainDoorsAdded trainId
        = some (ext.TrainDoors s._building trackId type startOffset reversed).doorsAdded
      ∧ DeactivateTrain ext s1 trainId trackId = .ok s2
      ∧ (s2._building.GetSubRoom track._roomID track._subRoomID).AllWalls.Perm
          (s._building.GetSubRoom track._roomID track._subRoomID).AllWalls
      ∧ (s2._building.GetSubRoom track._roomID track._subRoomID).AllTransitions
        = (s._building.GetSubRoom track._roomID track._subRoomID).AllTransitions
      ∧ (s2._building.GetSubRoom track._roomID track._subRoomID).AllObstacles
        = (s._building.GetSubRoom track._roomID track._subRoomID).AllObstacles
      ∧ (∀ r sr, ¬(r = track._roomID ∧ sr = track._subRoomID) →
          s2._building.SubRooms r sr = s._building.SubRooms r sr)
      ∧ (∀ d ∈ (ext.TrainDoors s._building trackId type startOffset reversed).doorsAdded,
          d ∉ s2._building.AllTransitions)
      ∧ s2._building.AllTransitions = s._building.AllTransitions
      ∧ s2._building.GetTrainWallsAdded trainId = none
      ∧ s2._building.GetTrainWallsRemoved trainId = none
      ∧ s2._building.GetTrainDoorsAdded trainId = none := by
  obtain ⟨b1, hb1, htracks, hrooms, htrans, hA, hR, hD⟩ :=
    AddTrainDoors_eq ext trainId trackId s._building type startOffset reversed track htrack
  have hact : ActivateTrain ext s trainId trackId type startOffset reversed
      = .ok { s with _building := b1, _eventProcessed := true } := by
    unfold ActivateTrain
    simp only [hb1]
  have htrack1 : b1.GetTrack trackId = some track := by
    unfold Building.GetTrack at htrack ⊢
    rw [htracks]
    exact htrack
  have hroom1 : b1.GetSubRoom track._roomID track._subRoomID
      = { s._building.GetSubRoom track._roomID track._subRoomID with
          AllWalls := (s._building.GetSubRoom track._roomID track._subRoomID).AllWalls.diff
              (ext.TrainDoors s._building trackId type startOffset reversed).wallsRemoved
            ++ (ext.TrainDoors s._building trackId type startOffset reversed).wallsAdded
          AllTransitions :=
            (s._building.GetSubRoom track._roomID track._subRoomID).AllTransitions
              ++ (ext.TrainDoors s._building trackId type startOffset reversed).doorsAdded } := by
    unfold Building.GetSubRoom
    rw [hrooms]
    simp [Building.GetSubRoom]
  have hrest1 : ∀ r sr, ¬(r = track._roomID ∧ sr = track._subRoomID) →
      b1.SubRooms r sr = s._building.SubRooms r sr := by
    intro r sr h
    rw [hrooms]
    simp only [if_neg h]
  obtain ⟨s2, hde, -, -, hw2, ht2, ho2, hrest2, hb2, hc1, hc2, hc3⟩ :=
    DeactivateTrain_eq ext { s with _building := b1, _eventProcessed := true } trainId trackId
      track _ _ _ htrack1 (by rw [hA]; exact Function.update_same _ _ _)
      (by rw [hR]; exact Function.update_same _ _ _)
      (by rw [hD]; exact Function.update_same _ _ _)
  refine ⟨_, s2, hact, ?_, ?_, ?_, ?_, ?_, hde, ?_, ?_, ?_, ?_, ?_, ?_, hc1, hc2, hc3⟩
  · rw [hroom1]
  · rw [hroom1]
  · simp only [Building.GetTrainWallsAdded]
    rw [hA]
    exact Function.update_same _ _ _
  · simp only [Building.GetTrainWallsRemoved]
    rw [hR]
    exact Function.update_same _ _ _
  · simp only [Building.GetTrainDoorsAdded]
    rw [hD]
    exact Function.update_same _ _ _
  · rw [hw2, hroom1]
    exact walls_restored _ _ _ hwalls
  · rw [ht2, hroom1]
    exact transitions_restored _ _ hsub
  · rw [ho2, hroom1]
  · intro r sr h
    rw [hrest2 r sr h]
    exact hrest1 r sr h
  · intro d hd hmem
    rw [hb2] at hmem
    have := (List.mem_filter.1 hmem).2
    simp only [List.all_eq_true, bne_iff_ne, ne_eq] at this
    exact this d hd rfl
  · rw [hb2]
    simp only [htrans]
    exact transitions_restored _ _ hbuilding

/-- C19 (amended): `DeactivateTrain` fails, and leaves the simulation as it
was, when the track id is unknown.  When the track is known and nothing is
recorded for the train id it does not fail: no wall, obstacle or transition of
any subroom and no transition of the building is added or removed, but the
subroom of the track is updated and the event-processed flag is set. -/
theorem C19_DeactivateTrain_unknown (ext : Externals K) (s : Simulation K)
    (trainId trackId : Int) :
    (s._building.GetTrack trackId = none → DeactivateTrain ext s trainId trackId = .error s)
    ∧ (∀ track : Track, s._building.GetTrack trackId = some track →
      s._building.GetTrainWallsAdded trainId = none →
      s._building.GetTrainWallsRemoved trainId = none →
      s._building.GetTrainDoorsAdded trainId = none →
      ∃ s2 : Simulation K,
        DeactivateTrain ext s trainId trackId = .ok s2
        ∧ s2._eventProcessed = true
        ∧ (∀ r sr, (s2._building.SubRooms r sr).AllWalls = (s._building.SubRooms r sr).AllWalls
            ∧ (s2._building.SubRooms r sr).AllTransitions
              = (s._building.SubRooms r sr).AllTransitions
            ∧ (s2._building.SubRooms r sr).AllObstacles
              = (s._building.SubRooms r sr).AllObstacles)
        ∧ s2._building.AllTransitions = s._building.AllTransitions
        ∧ (s2._building.GetSubRoom track._roomID track._subRoomID).Centroid
          = ext.ComputeCentroid (s._building.GetSubRoom track._roomID track._subRoomID)) := by
  constructor
  · intro h
    unfold DeactivateTrain
    simp only [h]
  · intro track htrack hA hR hD
    unfold DeactivateTrain
    simp only [htrack, hA, hR, hD]
    refine ⟨_, rfl, rfl, ?_, rfl, ?_⟩
    · intro r sr
      simp only [Building.SetSubRoom, Building.GetSubRoom, SubRoom_Update]
      split_ifs with h
      · obtain ⟨rfl, rfl⟩ := h
        exact ⟨rfl, rfl, rfl⟩
      · exact ⟨rfl, rfl, rfl⟩
    · simp [Building.SetSubRoom, Building.GetSubRoom, SubRoom_Update]

end TrainClaims

section TrainRuns

/-- C18, at the train of the concrete runs on track 1. -/
theorem C18_train_restores_witness :
    (Scenario.start : Simulation ℚ)._building.GetTrack 1 = some ⟨0, 0⟩
    ∧ ∃ s1 s2 : Simulation ℚ,
      ActivateTrain Scenario.world Scenario.start 5 1 ⟨"ICE"⟩ 0 false = .ok s1
      ∧ (s1._building.GetSubRoom 0 0).AllWalls = [⟨⟨0, 2⟩, ⟨4, 2⟩⟩, ⟨⟨6, 2⟩, ⟨10, 2⟩⟩]
      ∧ DeactivateTrain Scenario.world s1 5 1 = .ok s2
      ∧ (s2._building.GetSubRoom 0 0).AllWalls.Perm [⟨⟨0, 2⟩, ⟨10, 2⟩⟩]
      ∧ (s2._building.GetSubRoom 0 0).AllTransitions
        = (VelocityModel.Scenario.doorSubRoom : SubRoom ℚ).AllTransitions := by
  have htrack : (Scenario.start : Simulation ℚ)._building.GetTrack 1 = some ⟨0, 0⟩ := rfl
  obtain ⟨s1, s2, h1, hw1, -, -, -, -, h2, hw2, ht2, -⟩ :=
    C18_train_restores (Scenario.world : Externals ℚ) Scenario.start 5 1 ⟨"ICE"⟩ 0 false ⟨0, 0⟩
      htrack (List.Subperm.refl _) (by decide) (by decide)
  refine ⟨htrack, s1, s2, h1, ?_, h2, hw2, ht2⟩
  rw [hw1]
  decide

/-- C19 as stated fails: track 1 is known and nothing is recorded for train
5; `DeactivateTrain(5, 1)` does not fail and it sets the event-processed flag. -/
theorem C19_counterexample :
    (Scenario.start : Simulation ℚ)._building.GetTrack 1 = some ⟨0, 0⟩
    ∧ (Scenario.start : Simulation ℚ)._building.GetTrainWallsAdded 5 = none
    ∧ (Scenario.start : Simulation ℚ)._building.GetTrainWallsRemoved 5 = none
    ∧ (Scenario.start : Simulation ℚ)._building.GetTrainDoorsAdded 5 = none
    ∧ (Scenario.start : Simulation ℚ)._eventProcessed = false
    ∧ ∃ s2 : Simulation ℚ, DeactivateTrain Scenario.world Scenario.start 5 1 = .ok s2
      ∧ s2._eventProcessed = true :=
  ⟨rfl, rfl, rfl, rfl, rfl, _, rfl, rfl⟩

/-- C19 (amended), at the unknown track 2 and at the unknown train 5 on the
known track 1. -/
theorem C19_DeactivateTrain_unknown_witness :
    ((Scenario.start : Simulation ℚ)._building.GetTrack 2 = none
      ∧ DeactivateTrain Scenario.world (Scenario.start : Simulation ℚ) 5 2
        = .error Scenario.start)
    ∧ ((Scenario.start : Simulation ℚ)._building.GetTrack 1 = some ⟨0, 0⟩
      ∧ ∃ s2 : Simulation ℚ, DeactivateTrain Scenario.world Scenario.start 5 1 = .ok s2
        ∧ s2._eventProcessed = true
        ∧ s2._building.AllTransitions
          = (Scenario.start : Simulation ℚ)._building.AllTransitions) := by
  refine ⟨⟨rfl, (C19_DeactivateTrain_unknown Scenario.world Scenario.start 5 2).1 rfl⟩, rfl, ?_⟩
  obtain ⟨s2, h, he, -, ht, -⟩ :=
    (C19_DeactivateTrain_unknown (Scenario.world : Externals ℚ) Scenario.start 5 1).2 ⟨0, 0⟩
      rfl rfl rfl rfl
  exact ⟨s2, h, he, ht⟩

end TrainRuns

end LibCore

/-! ## The loop of libsimulator -/

namespace LibSimulator

open VelocityModel (Point)

section Loop

variable {K : Type} [LinearOrderedField K]

/-- The strategic pass, whether it returns or throws, leaves the clock, the
agent list, the neighbour index and the noted calls of the simulation as they
are, and hands back as many agents as it was given. -/
theorem StrategicalDecisionSystem_Run_frame (ext : Externals K)
    (agents : List (GenericAgent K)) :
    ∀ (s : Simulation K) (r : Simulation K × List (GenericAgent K)),
      StrategicalDecisionSystem_Run ext s agents = .ok r
        ∨ StrategicalDecisionSystem_Run ext s agents = .error r →
      r.1._clock = s._clock ∧ r.1.calls = s.calls
        ∧ r.1._neighborhoodSearch = s._neighborhoodSearch ∧ r.1._agents = s._agents
        ∧ r.2.length = agents.length := by
  induction agents with
  | nil =>
    intro s r h
    simp only [StrategicalDecisionSystem_Run] at h
    rcases h with h | h
    · rw [← Except.ok.inj h]
      exact ⟨rfl, rfl, rfl, rfl, rfl⟩
    · exact absurd h (by simp)
  | cons a rest ih =>
    intro s r h
    simp only [StrategicalDecisionSystem_Run] at h
    cases ht : ext.Target s._journeys s._stages s._removedAgentsInLastIteration a with
    | none =>
      simp only [ht] at h
      rcases h with h | h
      · exact absurd h (by simp)
      · rw [← Except.error.inj h]
        exact ⟨rfl, rfl, rfl, rfl, rfl⟩
    | some t =>
      simp only [ht] at h
      cases hr : StrategicalDecisionSystem_Run ext
          { s with
            _journeys := t.journeys
            _stages := t.stages
            _removedAgentsInLastIteration := t.removed } rest with
      | ok r1 =>
        obtain ⟨h1, h2, h3, h4, h5⟩ := ih _ r1 (Or.inl hr)
        simp only [hr] at h
        rcases h with h | h
        · rw [← Except.ok.inj h]
          exact ⟨h1, h2, h3, h4, by simp [h5]⟩
        · exact absurd h (by simp)
      | error r1 =>
        obtain ⟨h1, h2, h3, h4, h5⟩ := ih _ r1 (Or.inr hr)
        simp only [hr] at h
        rcases h with h | h
        · exact absurd h (by simp)
        · rw [← Except.error.inj h]
          exact ⟨h1, h2, h3, h4, by simp [h5]⟩

/-- The tactical pass, whether it returns or throws, hands back as many agents
as it was given. -/
theorem TacticalDecisionSystem_Run_length (ext : Externals K)
    (agents : List (GenericAgent K)) :
    ∀ r : List (GenericAgent K),
      TacticalDecisionSystem_Run ext agents = .ok r
        ∨ TacticalDecisionSystem_Run ext agents = .error r →
      r.length = agents.length := by
  induction agents with
  | nil =>
    intro r h
    simp only [TacticalDecisionSystem_Run] at h
    rcases h with h | h
    · rw [← Except.ok.inj h]
    · exact absurd h (by simp)
  | cons a rest ih =>
    intro r h
    simp only [TacticalDecisionSystem_Run] at h
    cases hw : ext.ComputeWaypoint a.pos a.target with
    | none =>
      simp only [hw] at h
      rcases h with h | h
      · exact absurd h (by simp)
      · rw [← Except.error.inj h]
    | some w =>
      simp only [hw] at h
      cases hr : TacticalDecisionSystem_Run ext rest with
      | ok r1 =>
        have h5 := ih r1 (Or.inl hr)
        simp only [hr] at h
        rcases h with h | h
        · rw [← Except.ok.inj h]
          simp [h5]
        · exact absurd h (by simp)
      | error r1 =>
        have h5 := ih r1 (Or.inr hr)
        simp only [hr] at h
        rcases h with h | h
        · exact absurd h (by simp)
        · rw [← Except.error.inj h]
          simp [h5]

/-- The strategic pass returns when no journey throws. -/
theorem StrategicalDecisionSystem_Run_returns (ext : Externals K)
    (hT : ∀ journeys stages removed agent, (ext.Target journeys stages removed agent).isSome)
    (agents : List (GenericAgent K)) :
    ∀ s : Simulation K, ∃ r, StrategicalDecisionSystem_Run ext s agents = .ok r := by
  induction agents with
  | nil =>
    intro s
    exact ⟨_, rfl⟩
  | cons a rest ih =>
    intro s
    simp only [StrategicalDecisionSystem_Run]
    cases ht : ext.Target s._journeys s._stages s._removedAgentsInLastIteration a with
    | none =>
      have := hT s._journeys s._stages s._removedAgentsInLastIteration a
      rw [ht] at this
      exact absurd this (by simp)
    | some t =>
      obtain ⟨r, hr⟩ := ih
        { s with
          _journeys := t.journeys
          _stages := t.stages
          _removedAgentsInLastIteration := t.removed }
      simp only [hr]
      exact ⟨_, rfl⟩

/-- The tactical pass returns when the router does not throw. -/
theorem TacticalDecisionSystem_Run_returns (ext : Externals K)
    (hW : ∀ pos target, (ext.ComputeWaypoint pos target).isSome)
    (agents : List (GenericAgent K)) :
    ∃ r, TacticalDecisionSystem_Run ext agents = .ok r := by
  induction agents with
  | nil => exact ⟨_, rfl⟩
  | cons a rest ih =>
    simp only [TacticalDecisionSystem_Run]
    cases hw : ext.ComputeWaypoint a.pos a.target with
    | none =>
      have := hW a.pos a.target
      rw [hw] at this
      exact absurd this (by simp)
    | some w =>
      obtain ⟨r, hr⟩ := ih
      simp only [hr]
      exact ⟨_, rfl⟩

/-- The simulation as the strategic pass of a tick finds it: the agents that
the exit system left, the index rebuilt from them, and the stages updated with
that index. -/
theorem Iterate_eq (ext : Externals K) (s : Simulation K) :
    Iterate ext s
      = match StrategicalDecisionSystem_Run ext
          { _clock := s._clock
            _agents := (ext.AgentExitSystemRun s._agents s._removedAgentsInLastIteration).1
            _removedAgentsInLastIteration :=
              (ext.AgentExitSystemRun s._agents s._removedAgentsInLastIteration).2
            _neighborhoodSearch :=
              ⟨(ext.AgentExitSystemRun s._agents s._removedAgentsInLastIteration).1⟩
            _stages := s._stages.map (Iterate_stage ext
              ⟨(ext.AgentExitSystemRun s._agents s._removedAgentsInLastIteration).1⟩)
            _journeys := s._journeys
            calls := s.calls ++ [Call.AgentExitSystemRun, Call.NeighborhoodSearchUpdate]
              ++ (s._stages.filter updatable).map (fun entry => Call.StageUpdate entry.1
                ((ext.AgentExitSystemRun s._agents s._removedAgentsInLastIteration).1.map
                  (fun agent => agent.id))) }
          (ext.AgentExitSystemRun s._agents s._removedAgentsInLastIteration).1 with
        | .error (s1, agents1) =>
          .error { s1 with _agents := agents1, calls := s1.calls ++ [Call.StrategicalRun] }
        | .ok (s1, agents1) =>
          match TacticalDecisionSystem_Run ext agents1 with
          | .error agents2 =>
            .error { s1 with
              _agents := agents2
              calls := s1.calls ++ [Call.StrategicalRun, Call.TacticalRun] }
          | .ok agents2 =>
            .ok { s1 with
              _agents := ext.OperationalRun s1._clock.dT s1._clock.ElapsedTime
                s1._neighborhoodSearch agents2
              _clock := s1._clock.Advance
              calls := s1.calls ++ [Call.StrategicalRun, Call.TacticalRun,
                Call.OperationalRun s1._neighborhoodSearch.ids, Call.Advance] } := by
  unfold Iterate
  simp only [Simulation.called, NeighborhoodSearch.Update, NeighborhoodSearch.ids,
    List.append_assoc, List.singleton_append, List.cons_append, List.nil_append]

end Loop

end LibSimulator

namespace LibSimulator

open VelocityModel (Point)

section LoopClaims

variable {K : Type} [LinearOrderedField K]

end LoopClaims

end LibSimulator

namespace LibSimulator

open VelocityModel (Point)

section AddAgentClaims

variable {K : Type} [LinearOrderedField K]

/-- The range of the last agent of a list that has just grown by one. -/
theorem drop_last (l : List (GenericAgent K)) (a : GenericAgent K) :
    (l ++ [a]).drop ((l ++ [a]).length - 1) = [a]
      ∧ (l ++ [a]).take ((l ++ [a]).length - 1) = l := by
  have h : (l ++ [a]).length - 1 = l.length := by simp
  rw [h]
  exact ⟨List.drop_left _ _, List.take_left _ _⟩

/-- The three checks of `AddAgent`, one by one. -/
theorem AddAgent_checks_iff (ext : Externals K) (s : Simulation K) (agent : GenericAgent K) :
    AddAgent_checks ext s agent = true
      ↔ ext.ValidateAgent
          { agent with orientation := agent.orientation.Normalized ext.sqrt ext.zeroLen }
          s._neighborhoodSearch = true
        ∧ ∃ journey, s.journey agent.journeyId = some journey
          ∧ journey.ContainsStage agent.stageId = true := by
  unfold AddAgent_checks
  cases hj : s.journey agent.journeyId with
  | none => simp
  | some journey => simp

/-- What `AddAgent` does, by its three checks and by the answers of the
journey and of the router for the new agent. -/
theorem AddAgent_eq (ext : Externals K) (s : Simulation K) (agent : GenericAgent K) :
    AddAgent ext s agent
      = (let a : GenericAgent K :=
          { agent with orientation := agent.orientation.Normalized ext.sqrt ext.zeroLen }
        if AddAgent_checks ext s agent = false then .error s
        else
          match ext.Target s._journeys s._stages s._removedAgentsInLastIteration a with
          | none =>
            .error { s with
              _agents := s._agents ++ [a]
              _neighborhoodSearch := s._neighborhoodSearch.AddAgent a }
          | some t =>
            match ext.ComputeWaypoint a.pos t.target with
            | none =>
              .error { s with
                _agents := s._agents ++ [{ a with target := t.target, stageId := t.stageId }]
                _neighborhoodSearch := s._neighborhoodSearch.AddAgent a
                _journeys := t.journeys
                _stages := t.stages
                _removedAgentsInLastIteration := t.removed }
            | some w =>
              .ok (agent.id,
                { s with
                  _agents := s._agents ++
                    [{ a with target := t.target, stageId := t.stageId, destination := w }]
                  _neighborhoodSearch := s._neighborhoodSearch.AddAgent a
                  _journeys := t.journeys
                  _stages := t.stages
                  _removedAgentsInLastIteration := t.removed })) := by
  unfold AddAgent AddAgent_checks
  simp only []
  cases hv : ext.ValidateAgent
      { agent with orientation := agent.orientation.Normalized ext.sqrt ext.zeroLen }
      s._neighborhoodSearch with
  | false => simp
  | true =>
    cases hj : s.journey agent.journeyId with
    | none => simp
    | some journey =>
      cases hc : journey.ContainsStage agent.stageId with
      | false => simp [hc]
      | true =>
        simp only [hc, Bool.true_eq_false, ↓reduceIte, Bool.and_self, drop_last,
          StrategicalDecisionSystem_Run]
        cases ht : ext.Target s._journeys s._stages s._removedAgentsInLastIteration
            { agent with orientation := agent.orientation.Normalized ext.sqrt ext.zeroLen } with
        | none => simp [drop_last]
        | some t =>
          simp only [drop_last, TacticalDecisionSystem_Run]
          cases hw : ext.ComputeWaypoint agent.pos t.target with
          | none => simp [drop_last]
          | some w => simp [drop_last]

/-- C20 (amended): `AddAgent` fails when the operational model rejects the
agent, when the journey id of the agent is unknown, and when its stage id is
not part of that journey; after such a call the simulation, so the agent list
and the neighbour index, is as before the call.  When the three checks pass,
the agent is appended and put into the index, and the strategic and the
tactical pass run over it: if the journey or the router throws, the call fails
with the agent left as the last of the list and in the index; otherwise the
call returns, the agent list is the list from before with one agent appended
last, which has the id, the journey, the position and the speed of the given
agent and its orientation normalised, the index has grown by that agent, and
the returned id is its id. -/
theorem C20_AddAgent (ext : Externals K) (s : Simulation K) (agent : GenericAgent K) :
    let a : GenericAgent K :=
      { agent with orientation := agent.orientation.Normalized ext.sqrt ext.zeroLen }
    (AddAgent_checks ext s agent = true
      ↔ ext.ValidateAgent a s._neighborhoodSearch = true
        ∧ ∃ journey, s.journey agent.journeyId = some journey
          ∧ journey.ContainsStage agent.stageId = true)
    ∧ (ext.ValidateAgent a s._neighborhoodSearch = false → AddAgent ext s agent = .error s)
    ∧ (s.journey agent.journeyId = none → AddAgent ext s agent = .error s)
    ∧ (∀ journey, s.journey agent.journeyId = some journey →
      journey.ContainsStage agent.stageId = false → AddAgent ext s agent = .error s)
    ∧ (∀ e, AddAgent ext s agent = .error e →
      (AddAgent_checks ext s agent = false ∧ e = s)
      ∨ (AddAgent_checks ext s agent = true
        ∧ e._neighborhoodSearch.agents = s._neighborhoodSearch.agents ++ [a]
        ∧ (∃ last : GenericAgent K, e._agents = s._agents ++ [last] ∧ last.id = agent.id)
        ∧ (ext.Target s._journeys s._stages s._removedAgentsInLastIteration a = none
          ∨ ∃ t, ext.Target s._journeys s._stages s._removedAgentsInLastIteration a = some t
            ∧ ext.ComputeWaypoint a.pos t.target = none)))
    ∧ (AddAgent_checks ext s agent = true →
      ext.Target s._journeys s._stages s._removedAgentsInLastIteration a = none →
      ∃ e, AddAgent ext s agent = .error e ∧ e._agents = s._agents ++ [a]
        ∧ e._neighborhoodSearch.agents = s._neighborhoodSearch.agents ++ [a])
    ∧ (∀ t, AddAgent_checks ext s agent = true →
      ext.Target s._journeys s._stages s._removedAgentsInLastIteration a = some t →
      ext.ComputeWaypoint a.pos t.target = none →
      ∃ e, AddAgent ext s agent = .error e
        ∧ e._agents = s._agents ++ [{ a with target := t.target, stageId := t.stageId }]
        ∧ e._neighborhoodSearch.agents = s._neighborhoodSearch.agents ++ [a])
    ∧ (∀ t w, AddAgent_checks ext s agent = true →
      ext.Target s._journeys s._stages s._removedAgentsInLastIteration a = some t →
      ext.ComputeWaypoint a.pos t.target = some w →
      ∃ s', AddAgent ext s agent = .ok (agent.id, s'))
    ∧ (∀ id s', AddAgent ext s agent = .ok (id, s') →
      id = agent.id
      ∧ s'._neighborhoodSearch.agents = s._neighborhoodSearch.agents ++ [a]
      ∧ ∃ last : GenericAgent K,
        s'._agents = s._agents ++ [last] ∧ last.id = agent.id
          ∧ last.journeyId = agent.journeyId ∧ last.pos = agent.pos
          ∧ last.speed = agent.speed
          ∧ last.orientation = agent.orientation.Normalized ext.sqrt ext.zeroLen) := by
  intro a
  have hiff := AddAgent_checks_iff ext s agent
  have hfalse : AddAgent_checks ext s agent = false → AddAgent ext s agent = .error s := by
    intro h
    rw [AddAgent_eq]
    simp only [h, ↓reduceIte]
  refine ⟨hiff, ?_, ?_, ?_, ?_, ?_, ?_, ?_, ?_⟩
  · intro hv
    apply hfalse
    rw [← Bool.not_eq_true, hiff]
    rintro ⟨h, -⟩
    rw [hv] at h
    exact absurd h (by simp)
  · intro hj
    apply hfalse
    rw [← Bool.not_eq_true, hiff]
    rintro ⟨-, journey, h, -⟩
    rw [hj] at h
    exact absurd h (by simp)
  · intro journey hj hc
    apply hfalse
    rw [← Bool.not_eq_true, hiff]
    rintro ⟨-, journey', h, h'⟩
    rw [hj] at h
    rw [← Option.some.inj h, hc] at h'
    exact absurd h' (by simp)
  · intro e h
    rw [AddAgent_eq] at h
    simp only [] at h
    cases hc : AddAgent_checks ext s agent with
    | false =>
      simp only [hc, ↓reduceIte] at h
      exact Or.inl ⟨rfl, (Except.error.inj h).symm⟩
    | true =>
      simp only [hc, Bool.true_eq_false, ↓reduceIte] at h
      refine Or.inr ⟨rfl, ?_⟩
      cases ht : ext.Target s._journeys s._stages s._removedAgentsInLastIteration a with
      | none =>
        simp only [a] at ht
        simp only [ht] at h
        rw [← Except.error.inj h]
        exact ⟨rfl, ⟨_, rfl, rfl⟩, Or.inl rfl⟩
      | some t =>
        simp only [a] at ht
        simp only [ht] at h
        cases hw : ext.ComputeWaypoint agent.pos t.target with
        | none =>
          simp only [hw] at h
          rw [← Except.error.inj h]
          exact ⟨rfl, ⟨_, rfl, rfl⟩, Or.inr ⟨t, rfl, hw⟩⟩
        | some w =>
          simp only [hw] at h
          exact absurd h (by simp)
  · intro hc ht
    simp only [a] at ht
    rw [AddAgent_eq]
    simp only [hc, Bool.true_eq_false, ↓reduceIte, ht]
    exact ⟨_, rfl, rfl, rfl⟩
  · intro t hc ht hw
    simp only [a] at ht hw
    rw [AddAgent_eq]
    simp only [hc, Bool.true_eq_false, ↓reduceIte, ht, hw]
    exact ⟨_, rfl, rfl, rfl⟩
  · intro t w hc ht hw
    simp only [a] at ht hw
    rw [AddAgent_eq]
    simp only [hc, Bool.true_eq_false, ↓reduceIte, ht, hw]
    exact ⟨_, rfl⟩
  · intro id s' h
    rw [AddAgent_eq] at h
    simp only [] at h
    cases hc : AddAgent_checks ext s agent with
    | false =>
      simp only [hc, ↓reduceIte] at h
      exact absurd h (by simp)
    | true =>
      simp only [hc, Bool.true_eq_false, ↓reduceIte] at h
      cases ht : ext.Target s._journeys s._stages s._removedAgentsInLastIteration a with
      | none =>
        simp only [a] at ht
        simp only [ht] at h
        exact absurd h (by simp)
      | some t =>
        simp only [a] at ht
        simp only [ht] at h
        cases hw : ext.ComputeWaypoint agent.pos t.target with
        | none =>
          simp only [hw] at h
          exact absurd h (by simp)
        | some w =>
          simp only [hw, Except.ok.injEq, Prod.mk.injEq] at h
          obtain ⟨rfl, rfl⟩ := h
          exact ⟨rfl, rfl, _, rfl, rfl, rfl, rfl, rfl, rfl⟩

end AddAgentClaims

end LibSimulator

namespace LibSimulator

open VelocityModel (Point)

section LoopRuns

/-- C20 (amended), at the first agent of a simulation, at a second agent that
is put where the first one stands, at an agent of an unknown journey, at an
agent of a stage outside its journey, and at an agent whose target lies
outside the navigation mesh. -/
theorem C20_AddAgent_witness :
    (∃ s', AddAgent (Scenario.ext Real.sqrt) (Scenario.sim [] [])
        (Scenario.agent 1 ⟨0, 0⟩) = .ok (1, s'))
    ∧ AddAgent (Scenario.ext Real.sqrt) (Scenario.sim [Scenario.agent 1 ⟨0, 0⟩] [])
        (Scenario.agent 2 ⟨0, 0⟩) = .error (Scenario.sim [Scenario.agent 1 ⟨0, 0⟩] [])
    ∧ AddAgent (Scenario.ext Real.sqrt) (Scenario.sim [] [])
        { (Scenario.agent 1 ⟨0, 0⟩ : GenericAgent ℝ) with journeyId := 7 }
      = .error (Scenario.sim [] [])
    ∧ AddAgent (Scenario.ext Real.sqrt) (Scenario.sim [] [])
        { (Scenario.agent 1 ⟨0, 0⟩ : GenericAgent ℝ) with stageId := 2 }
      = .error (Scenario.sim [] [])
    ∧ (∃ e, AddAgent (Scenario.offMesh Real.sqrt) (Scenario.sim [] [])
        (Scenario.lost 1 ⟨0, 0⟩) = .error e ∧ e._agents.length = 1) := by
  refine ⟨?_, ?_, ?_, ?_, ?_⟩
  · exact (C20_AddAgent (Scenario.ext Real.sqrt) (Scenario.sim [] [])
      (Scenario.agent 1 ⟨0, 0⟩)).2.2.2.2.2.2.2.1 _ _ rfl rfl rfl
  · apply (C20_AddAgent (Scenario.ext Real.sqrt) (Scenario.sim [Scenario.agent 1 ⟨0, 0⟩] [])
      (Scenario.agent 2 ⟨0, 0⟩)).2.1
    simp [Scenario.ext, Scenario.sim, Scenario.agent]
  · exact (C20_AddAgent (Scenario.ext Real.sqrt) (Scenario.sim [] [])
      { (Scenario.agent 1 ⟨0, 0⟩ : GenericAgent ℝ) with journeyId := 7 }).2.2.1 rfl
  · exact (C20_AddAgent (Scenario.ext Real.sqrt) (Scenario.sim [] [])
      { (Scenario.agent 1 ⟨0, 0⟩ : GenericAgent ℝ) with stageId := 2 }).2.2.2.1
      ⟨1, [(1, ⟨1, Transition.FixedTransition 1⟩)]⟩ rfl rfl
  · obtain ⟨e, he, ha, -⟩ := (C20_AddAgent (Scenario.offMesh Real.sqrt) (Scenario.sim [] [])
      (Scenario.lost 1 ⟨0, 0⟩)).2.2.2.2.2.2.1
      ⟨[(1, ⟨1, [(1, ⟨1, Transition.FixedTransition 1⟩)]⟩)],
        [(1, BaseStage.Waypoint ⟨10, 0⟩ 1), (2, BaseStage.NotifiableQueue [⟨5, 0⟩] []),
          (3, BaseStage.Exit [⟨10, -1⟩, ⟨11, -1⟩, ⟨11, 1⟩, ⟨10, 1⟩])], [], ⟨-1, 0⟩, 1⟩
      rfl rfl (by simp [Scenario.offMesh])
    exact ⟨e, he, by rw [ha]; rfl⟩

/-- C20 as stated fails: an agent that passes the three checks and whose
target, (-1, 0), lies outside the navigation mesh makes the router throw in
the tactical pass of `AddAgent`.  The call fails, and the agent list and the
neighbour index, empty before the call, hold the agent after it. -/
theorem C20_counterexample :
    (Scenario.sim [] [] : Simulation ℝ)._agents = []
    ∧ (Scenario.sim [] [] : Simulation ℝ)._neighborhoodSearch.agents = []
    ∧ ∃ e : Simulation ℝ,
      AddAgent (Scenario.offMesh Real.sqrt) (Scenario.sim [] []) (Scenario.lost 1 ⟨0, 0⟩)
        = .error e
      ∧ e._agents.map (fun agent => agent.id) = [1]
      ∧ e._neighborhoodSearch.ids = [1]
      ∧ e._agents ≠ (Scenario.sim [] [] : Simulation ℝ)._agents
      ∧ e._neighborhoodSearch ≠ (Scenario.sim [] [] : Simulation ℝ)._neighborhoodSearch := by
  refine ⟨rfl, rfl, ?_⟩
  have hc : AddAgent_checks (Scenario.offMesh Real.sqrt) (Scenario.sim [] [])
      (Scenario.lost 1 ⟨0, 0⟩ : GenericAgent ℝ) = true := rfl
  have hw : ((-1 : ℝ) < 0) := by norm_num
  rw [AddAgent_eq]
  simp only [hc, Bool.true_eq_false, ↓reduceIte, Scenario.offMesh, Scenario.ext, Scenario.lost,
    Scenario.agent, hw]
  refine ⟨_, rfl, rfl, rfl, ?_, ?_⟩
  · simp [Scenario.sim]
  · simp [Scenario.sim, NeighborhoodSearch.AddAgent]

end LoopRuns

end LibSimulator
/-! ## The clock of both loops -/

namespace LibSimulator

section Clock

variable {K : Type} [LinearOrderedField K]

/-- A tick that returns: the advance of the clock is its last change.  The
simulation `b` that the operational step leaves has the clock of before the
tick, its agents are what the operational step made at that clock, and the
result of the tick is `b` with the clock advanced. -/
theorem Iterate_last (ext : Externals K) (s s' : Simulation K) (h : Iterate ext s = .ok s') :
    ∃ (b : Simulation K) (agents : List (GenericAgent K)),
      b._clock = s._clock
      ∧ b._agents
        = ext.OperationalRun s._clock.dT s._clock.ElapsedTime b._neighborhoodSearch agents
      ∧ s' = { b with _clock := s._clock.Advance, calls := b.calls ++ [Call.Advance] } := by
  rw [Iterate_eq] at h
  split at h
  · exact absurd h (by simp)
  · rename_i s1 agents1 h1
    have hc := (StrategicalDecisionSystem_Run_frame ext _ _ _ (Or.inl h1)).1
    simp only at hc
    split at h
    · exact absurd h (by simp)
    · rename_i agents2 h2
      rw [← Except.ok.inj h]
      refine ⟨{ s1 with
          _agents := (ext.OperationalRun s1._clock.dT s1._clock.ElapsedTime
            s1._neighborhoodSearch agents2)
          calls := (s1.calls ++ [Call.StrategicalRun, Call.TacticalRun,
            Call.OperationalRun s1._neighborhoodSearch.ids]) }, agents2, hc, ?_, ?_⟩
      · simp only [hc]
      · simp only [hc, List.append_assoc, List.singleton_append, List.cons_append,
          List.nil_append]

/-- A tick that throws leaves the clock as it is. -/
theorem Iterate_throws (ext : Externals K) (s e : Simulation K) (h : Iterate ext s = .error e) :
    e._clock = s._clock := by
  rw [Iterate_eq] at h
  split at h
  · rename_i s1 agents1 h1
    have hc := (StrategicalDecisionSystem_Run_frame ext _ _ _ (Or.inr h1)).1
    simp only at hc
    rw [← Except.error.inj h]
    exact hc
  · rename_i s1 agents1 h1
    have hc := (StrategicalDecisionSystem_Run_frame ext _ _ _ (Or.inl h1)).1
    simp only at hc
    split at h
    · rw [← Except.error.inj h]
      exact hc
    · exact absurd h (by simp)

/-- A tick returns when neither a journey nor the router throws. -/
theorem Iterate_returns (ext : Externals K)
    (hT : ∀ journeys stages removed agent, (ext.Target journeys stages removed agent).isSome)
    (hW : ∀ pos target, (ext.ComputeWaypoint pos target).isSome) (s : Simulation K) :
    ∃ s', Iterate ext s = .ok s' := by
  rw [Iterate_eq]
  obtain ⟨r, hr⟩ := StrategicalDecisionSystem_Run_returns ext hT
    (ext.AgentExitSystemRun s._agents s._removedAgentsInLastIteration).1
    { _clock := s._clock
      _agents := (ext.AgentExitSystemRun s._agents s._removedAgentsInLastIteration).1
      _removedAgentsInLastIteration :=
        (ext.AgentExitSystemRun s._agents s._removedAgentsInLastIteration).2
      _neighborhoodSearch :=
        ⟨(ext.AgentExitSystemRun s._agents s._removedAgentsInLastIteration).1⟩
      _stages := s._stages.map (Iterate_stage ext
        ⟨(ext.AgentExitSystemRun s._agents s._removedAgentsInLastIteration).1⟩)
      _journeys := s._journeys
      calls := s.calls ++ [Call.AgentExitSystemRun, Call.NeighborhoodSearchUpdate]
        ++ (s._stages.filter updatable).map (fun entry => Call.StageUpdate entry.1
          ((ext.AgentExitSystemRun s._agents s._removedAgentsInLastIteration).1.map
            (fun agent => agent.id))) }
  obtain ⟨r2, hr2⟩ := TacticalDecisionSystem_Run_returns ext hW r.2
  obtain ⟨s1, agents1⟩ := r
  rw [hr]
  simp only at hr2 ⊢
  rw [hr2]
  exact ⟨_, rfl⟩

/-- The clock after `n` ticks that return. -/
theorem IterateN_ticks (ext : Externals K) (n : Nat) :
    ∀ s s' : Simulation K, IterateN ext n s = .ok s' →
      s'._clock._iteration = s._clock._iteration + n ∧ s'._clock._dT = s._clock._dT := by
  induction n with
  | zero =>
    intro s s' h
    simp only [IterateN, Except.ok.injEq] at h
    subst h
    exact ⟨rfl, rfl⟩
  | succ n ih =>
    intro s s' h
    simp only [IterateN] at h
    cases h1 : Iterate ext s with
    | error e =>
      simp only [h1] at h
      exact absurd h (by simp)
    | ok s1 =>
      simp only [h1] at h
      obtain ⟨h2, h3⟩ := ih s1 s' h
      obtain ⟨b, agents, hb, -, hs1⟩ := Iterate_last ext s s1 h1
      rw [h2, h3, hs1]
      simp only [SimulationClock.Advance]
      exact ⟨by omega, trivial⟩

/-- The run of `n` ticks returns when neither a journey nor the router throws. -/
theorem IterateN_returns (ext : Externals K)
    (hT : ∀ journeys stages removed agent, (ext.Target journeys stages removed agent).isSome)
    (hW : ∀ pos target, (ext.ComputeWaypoint pos target).isSome) (n : Nat) :
    ∀ s : Simulation K, ∃ s', IterateN ext n s = .ok s' := by
  induction n with
  | zero =>
    intro s
    exact ⟨s, rfl⟩
  | succ n ih =>
    intro s
    obtain ⟨s1, h1⟩ := Iterate_returns ext hT hW s
    obtain ⟨s2, h2⟩ := ih s1
    exact ⟨s2, by simp only [IterateN, h1, h2]⟩

end Clock

end LibSimulator

namespace LibCore

section Clock

variable {K : Type} [LinearOrderedField K]

/-- A tick of libcore that returns: the advance of the clock is its last
change.  The simulation `b` before the last two assignments has the clock of
before the tick: it is the result of the decision steps, run at the state that
the first four calls leave, or that state itself when the elapsed time has not
passed the premovement times; the result of the tick is `b` with the event
flag cleared and the clock advanced. -/
theorem Iterate_before_advance (ext : Externals K) (s s' : Simulation K)
    (h : Iterate ext s = some s') :
    ∃ b : Simulation K,
      b._clock = s._clock
      ∧ (if s._clock.ElapsedTime > ext.GetMinPremovementTime then
          Iterate_decisions ext
            { s with
              _building := ext.UpdateGrid s._building s._agents
              _routingEngine := ext.UpdateTime s._routingEngine s._clock.ElapsedTime
              calls := s.calls ++ [Call.UpdateGrid, Call.DirectionManagerUpdate,
                Call.OperationalModelUpdate, Call.UpdateTime] }
            s._clock.ElapsedTime = some b
        else
          b = { s with
            _building := ext.UpdateGrid s._building s._agents
            _routingEngine := ext.UpdateTime s._routingEngine s._clock.ElapsedTime
            calls := s.calls ++ [Call.UpdateGrid, Call.DirectionManagerUpdate,
              Call.OperationalModelUpdate, Call.UpdateTime] })
      ∧ s' = { b with
        _eventProcessed := false
        _clock := s._clock.Advance
        calls := b.calls ++ [Call.Advance] } := by
  unfold Iterate at h
  simp only [Simulation.called, List.append_assoc, List.singleton_append, List.cons_append,
    List.nil_append] at h
  split at h
  · exact absurd h (by simp)
  · rename_i r b hr
    simp only [Option.some.injEq] at h
    subst h
    have hc : b._clock = s._clock := by
      by_cases ht : s._clock.ElapsedTime > ext.GetMinPremovementTime
      · simp only [ht, ↓reduceIte] at hr
        exact (Iterate_decisions_frame ext _ _ _ hr).1
      · simp only [ht, ↓reduceIte, Option.some.injEq] at hr
        rw [← hr]
    refine ⟨b, hc, ?_, by rw [hc]⟩
    by_cases ht : s._clock.ElapsedTime > ext.GetMinPremovementTime
    · simp only [ht, ↓reduceIte, List.append_assoc, List.singleton_append, List.cons_append,
        List.nil_append] at hr ⊢
      exact hr
    · simp only [ht, ↓reduceIte, Option.some.injEq, List.append_assoc, List.singleton_append,
        List.cons_append, List.nil_append] at hr ⊢
      exact hr.symm

/-- C12: a call of `Iterate` that returns advances the clock once, as its last
change: the iteration counter after it is the counter before plus one and the
step is kept, so that `n` calls from 0 end at counter `n` and elapsed time
`n * dT`; every step before the advance works at the clock of before the call,
and the result of the call is the simulation that these steps leave with the
clock advanced.  In the loop of libsimulator the operational step, the step
before the advance, is handed the step and the elapsed time of before the
call; a call that throws leaves the clock as it is; the calls return when
neither a journey nor the router throws.  In the loop of libcore the decision
steps run at the state with the clock of before the call, and the result is
what they leave with the event flag cleared and the clock advanced; a call
returns whenever the operational model returns; a tick at an elapsed time that
has not passed the premovement times returns, skips the decision steps, and
advances the clock all the same. -/
theorem C12_clock_advance (extS : LibSimulator.Externals K) (extC : Externals K) :
    (∀ s s' : LibSimulator.Simulation K, LibSimulator.Iterate extS s = .ok s' →
      s'._clock.Iteration = s._clock.Iteration + 1
      ∧ s'._clock.dT = s._clock.dT
      ∧ s'.calls.getLast? = some LibSimulator.Call.Advance
      ∧ ∃ (b : LibSimulator.Simulation K) (agents : List (LibSimulator.GenericAgent K)),
        b._clock = s._clock
        ∧ b._agents
          = extS.OperationalRun s._clock.dT s._clock.ElapsedTime b._neighborhoodSearch agents
        ∧ s' = { b with
          _clock := s._clock.Advance
          calls := b.calls ++ [LibSimulator.Call.Advance] })
    ∧ (∀ s e : LibSimulator.Simulation K, LibSimulator.Iterate extS s = .error e →
      e._clock = s._clock)
    ∧ ((∀ journeys stages removed agent,
        (extS.Target journeys stages removed agent).isSome) →
      (∀ pos target, (extS.ComputeWaypoint pos target).isSome) →
      ∀ (n : Nat) (s : LibSimulator.Simulation K),
        ∃ s', LibSimulator.IterateN extS n s = .ok s')
    ∧ (∀ (n : Nat) (s s' : LibSimulator.Simulation K),
      LibSimulator.IterateN extS n s = .ok s' →
      s'._clock.Iteration = s._clock.Iteration + n
      ∧ (s._clock.Iteration = 0 →
        s'._clock.Iteration = n ∧ s'._clock.ElapsedTime = (n : K) * s._clock.dT))
    ∧ (∀ s s' : Simulation K, Iterate extC s = some s' →
      s'._clock.Iteration = s._clock.Iteration + 1 ∧ s'._clock.dT = s._clock.dT
      ∧ s'.calls.getLast? = some Call.Advance
      ∧ ∃ b : Simulation K,
        b._clock = s._clock
        ∧ (if s._clock.ElapsedTime > extC.GetMinPremovementTime then
            Iterate_decisions extC
              { s with
                _building := extC.UpdateGrid s._building s._agents
                _routingEngine := extC.UpdateTime s._routingEngine s._clock.ElapsedTime
                calls := s.calls ++ [Call.UpdateGrid, Call.DirectionManagerUpdate,
                  Call.OperationalModelUpdate, Call.UpdateTime] }
              s._clock.ElapsedTime = some b
          else
            b = { s with
              _building := extC.UpdateGrid s._building s._agents
              _routingEngine := extC.UpdateTime s._routingEngine s._clock.ElapsedTime
              calls := s.calls ++ [Call.UpdateGrid, Call.DirectionManagerUpdate,
                Call.OperationalModelUpdate, Call.UpdateTime] })
        ∧ s' = { b with
          _eventProcessed := false
          _clock := s._clock.Advance
          calls := b.calls ++ [Call.Advance] })
    ∧ (∀ s : Simulation K, s._clock.ElapsedTime ≤ extC.GetMinPremovementTime →
      ∃ s', Iterate extC s = some s' ∧ s'._clock.Iteration = s._clock.Iteration + 1
        ∧ s'._agents = s._agents
        ∧ s'.calls = s.calls ++ [Call.UpdateGrid, Call.DirectionManagerUpdate,
          Call.OperationalModelUpdate, Call.UpdateTime, Call.Advance])
    ∧ (∀ (n : Nat) (s s' : Simulation K), IterateN extC n s = some s' →
      s'._clock.Iteration = s._clock.Iteration + n
      ∧ (s._clock.Iteration = 0 →
        s'._clock.Iteration = n ∧ s'._clock.ElapsedTime = (n : K) * s._clock.dT))
    ∧ ((∀ t dT building agents, (extC.ComputeNextTimeStep t dT building agents).isSome) →
      ∀ s : Simulation K, (Iterate extC s).isSome) := by
  refine ⟨?_, ?_, ?_, ?_, ?_, ?_, ?_, ?_⟩
  · intro s s' h
    obtain ⟨b, agents, hb, ha, hs⟩ := LibSimulator.Iterate_last extS s s' h
    refine ⟨?_, ?_, ?_, b, agents, hb, ha, hs⟩
    · rw [hs]
      rfl
    · rw [hs]
      rfl
    · rw [hs]
      exact List.getLast?_concat _
  · intro s e h
    exact LibSimulator.Iterate_throws extS s e h
  · intro hT hW n s
    exact LibSimulator.IterateN_returns extS hT hW n s
  · intro n s s' h
    obtain ⟨h1, h2⟩ := LibSimulator.IterateN_ticks extS n s s' h
    refine ⟨h1, ?_⟩
    intro h0
    simp only [SimulationClock.Iteration] at h0
    simp only [SimulationClock.Iteration, SimulationClock.ElapsedTime, SimulationClock.dT, h1,
      h2, h0, Nat.zero_add, and_self]
  · intro s s' h
    obtain ⟨h1, -, h3⟩ := Iterate_clock extC s s' h
    refine ⟨?_, ?_, h3, Iterate_before_advance extC s s' h⟩
    · rw [h1]
      rfl
    · rw [h1]
      rfl
  · intro s h
    exact ⟨_, Iterate_premovement extC s h, rfl, rfl, rfl⟩
  · intro n s s' h
    obtain ⟨h1, h2⟩ := IterateN_clock extC n s s' h
    refine ⟨h1, ?_⟩
    intro h0
    simp only [SimulationClock.Iteration] at h0
    simp only [SimulationClock.Iteration, SimulationClock.ElapsedTime, SimulationClock.dT, h1,
      h2, h0, Nat.zero_add, and_self]
  · intro h s
    exact Iterate_isSome extC s h

end Clock

section ClockRuns

/-- C12, at the first tick of the libcore run with an early event, in which
the elapsed time 0 has not passed the premovement times, and at three ticks of
the libsimulator run. -/
theorem C12_clock_advance_witness :
    ((Scenario.start : Simulation ℝ)._clock.ElapsedTime
        ≤ (Scenario.world : Externals ℝ).GetMinPremovementTime
      ∧ ∃ s', Iterate Scenario.world (Scenario.start : Simulation ℝ) = some s'
        ∧ s'._clock.Iteration = 1)
    ∧ ∃ s' : LibSimulator.Simulation ℝ,
      LibSimulator.IterateN (LibSimulator.Scenario.ext Real.sqrt) 3
        (LibSimulator.Scenario.sim [LibSimulator.Scenario.agent 1 ⟨0, 0⟩] []) = .ok s'
      ∧ s'._clock.Iteration = 3
      ∧ s'._clock.ElapsedTime = 3 * (1 / 100) := by
  have h0 : (Scenario.start : Simulation ℝ)._clock.ElapsedTime
      ≤ (Scenario.world : Externals ℝ).GetMinPremovementTime := by
    simp [Scenario.start, Scenario.world, Scenario.sim, Scenario.ext,
      SimulationClock.ElapsedTime]
  have h := C12_clock_advance (LibSimulator.Scenario.ext Real.sqrt)
    (Scenario.world : Externals ℝ)
  refine ⟨⟨h0, ?_⟩, ?_⟩
  · obtain ⟨s', h1, h2, -⟩ := h.2.2.2.2.2.1 Scenario.start h0
    exact ⟨s', h1, h2⟩
  · obtain ⟨s', hs'⟩ := h.2.2.1 (fun _ _ _ _ => rfl) (fun _ _ => rfl) 3
      (LibSimulator.Scenario.sim [LibSimulator.Scenario.agent 1 ⟨0, 0⟩] [])
    have h3 := (h.2.2.2.1 3 _ s' hs').2 rfl
    refine ⟨s', hs', h3.1, ?_⟩
    rw [h3.2]
    simp [LibSimulator.Scenario.sim, SimulationClock.dT]

end ClockRuns

end LibCore
/-! ## The desired direction -/

namespace VelocityModel

section DesiredDirection

variable {K : Type} [LinearOrderedField K]

/-- C25: with a direction manager `dir` in place, whose target for the agent
is `target`, `e0` returns: under a floor-field strategy `target - p`, except
that for `|target - p|² < 0.25` and an agent that does not wait it returns the
direction stored from the previous call and leaves that stored direction as it
is; without a floor-field strategy the direction to the target
(`GetV0(target)`) when the distance to the exit line exceeds `J_EPS_GOAL`, and
else the previous desired direction (`GetV0()`) with the agent marked for smooth
turning.  In every case but the reuse the stored last direction is
`target - p` after the call; position and waiting state are never written. -/
theorem C25_e0_rule (ext : Externals K) (m : Model K) (ped : Pedestrian K) (room : RoomPtr)
    (dir : DirectionManager K) (hdir : m._direction = some dir) :
    (dir.LocalFloorfield = true →
      ((dir.GetTarget room ped - ped.Pos).NormSquare < 1 / 4 ∧ ped.IsWaiting = false) →
      e0 ext m ped room = some (ped.LastE0, ped))
    ∧ (dir.LocalFloorfield = true →
      ¬((dir.GetTarget room ped - ped.Pos).NormSquare < 1 / 4 ∧ ped.IsWaiting = false) →
      e0 ext m ped room
        = some (dir.GetTarget room ped - ped.Pos,
          { ped with LastE0 := dir.GetTarget room ped - ped.Pos }))
    ∧ (dir.LocalFloorfield = false → ext.DistTo ped.ExitLine ped.Pos > ext.J_EPS_GOAL →
      e0 ext m ped room
        = some (ext.GetV0Target { ped with LastE0 := dir.GetTarget room ped - ped.Pos }
            (dir.GetTarget room ped),
          { ped with
            LastE0 := dir.GetTarget room ped - ped.Pos
            V0 := ext.GetV0Target { ped with LastE0 := dir.GetTarget room ped - ped.Pos }
              (dir.GetTarget room ped) }))
    ∧ (dir.LocalFloorfield = false → ¬(ext.DistTo ped.ExitLine ped.Pos > ext.J_EPS_GOAL) →
      e0 ext m ped room
        = some (ped.V0,
          { ped with LastE0 := dir.GetTarget room ped - ped.Pos, SmoothTurning := true }))
    ∧ (∀ e ped', e0 ext m ped room = some (e, ped') →
      ped'.Pos = ped.Pos ∧ ped'.IsWaiting = ped.IsWaiting
      ∧ (ped'.LastE0 = dir.GetTarget room ped - ped.Pos
        ∨ (dir.LocalFloorfield = true
          ∧ (dir.GetTarget room ped - ped.Pos).NormSquare < 1 / 4 ∧ ped.IsWaiting = false
          ∧ ped'.LastE0 = ped.LastE0 ∧ e = ped.LastE0))) := by
  refine ⟨?_, ?_, ?_, ?_, ?_⟩
  · intro hf hc
    simp only [e0, hdir, hf, ↓reduceIte, if_pos hc]
  · intro hf hc
    simp only [e0, hdir, hf, ↓reduceIte, if_neg hc]
  · intro hf hd
    simp only [e0, hdir, hf, Bool.false_eq_true, ↓reduceIte, if_pos hd, Pedestrian.GetV0To]
  · intro hf hd
    simp only [e0, hdir, hf, Bool.false_eq_true, ↓reduceIte, if_neg hd,
      Pedestrian.SetSmoothTurning]
  · intro e ped' h
    simp only [e0, hdir] at h
    split_ifs at h with hf hc hd <;>
      simp only [Option.some.injEq, Prod.mk.injEq, Pedestrian.GetV0To,
        Pedestrian.SetSmoothTurning] at h <;>
      obtain ⟨rfl, rfl⟩ := h
    · exact ⟨rfl, rfl, Or.inr ⟨hf, hc.1, hc.2, rfl, rfl⟩⟩
    · exact ⟨rfl, rfl, Or.inl rfl⟩
    · exact ⟨rfl, rfl, Or.inl rfl⟩
    · exact ⟨rfl, rfl, Or.inl rfl⟩

end DesiredDirection

section DesiredDirectionRuns

/-- C25, under the floor-field strategy with target (10, 0): the agent at
(0, 0) is sent along (10, 0), the agent at (9.9, 0), closer than 0.5 to the
target, along its stored direction (0, 0). -/
theorem C25_e0_rule_witness :
    e0 (Scenario.openWorld Real.sqrt Real.exp) Scenario.floorModel
        (Scenario.agent 1 ⟨0, 0⟩ ⟨0, 0⟩ (-1)) 0
      = some (⟨10, 0⟩ - ⟨0, 0⟩,
        { (Scenario.agent 1 ⟨0, 0⟩ ⟨0, 0⟩ (-1) : Pedestrian ℝ) with LastE0 := ⟨10, 0⟩ - ⟨0, 0⟩ })
    ∧ e0 (Scenario.openWorld Real.sqrt Real.exp) Scenario.floorModel
        (Scenario.agent 1 ⟨99 / 10, 0⟩ ⟨0, 0⟩ (-1)) 0
      = some (0, Scenario.agent 1 ⟨99 / 10, 0⟩ ⟨0, 0⟩ (-1)) := by
  constructor
  · refine (C25_e0_rule (Scenario.openWorld Real.sqrt Real.exp) Scenario.floorModel
      (Scenario.agent 1 ⟨0, 0⟩ ⟨0, 0⟩ (-1)) 0 _ rfl).2.1 rfl ?_
    simp only [Scenario.agent, Point.sub_def, Point.NormSquare]
    norm_num
  · refine (C25_e0_rule (Scenario.openWorld Real.sqrt Real.exp) Scenario.floorModel
      (Scenario.agent 1 ⟨99 / 10, 0⟩ ⟨0, 0⟩ (-1)) 0 _ rfl).1 rfl ⟨?_, rfl⟩
    simp only [Scenario.agent, Point.sub_def, Point.NormSquare]
    norm_num

end DesiredDirectionRuns

end VelocityModel

/-! ## The nearest transit access point -/

namespace LibCore

open VelocityModel

section Nearest

variable {K : Type} [LinearOrderedField K]

/-- The scan of the loop of `GetNearestTransitAPTO`: either no candidate is
closer than the start value, which stays, or the result is the first candidate
at the least straight-line distance, which is below the start value. -/
theorem GetNearestTransitAPTO_scan (sqrt : K → K) (heap : APPtr → AccessPoint K)
    (self : AccessPoint K) (l : List APPtr) :
    ∀ acc : K × APPtr,
      (l.foldl (GetNearestTransitAPTO_step sqrt heap self) acc = acc
        ∧ ∀ y ∈ l, acc.1 ≤ self.GetDistanceTo sqrt (heap y))
      ∨ ∃ (k : Nat) (c : APPtr), l[k]? = some c
        ∧ l.foldl (GetNearestTransitAPTO_step sqrt heap self) acc
          = (self.GetDistanceTo sqrt (heap c), c)
        ∧ self.GetDistanceTo sqrt (heap c) < acc.1
        ∧ (∀ y ∈ l, self.GetDistanceTo sqrt (heap c) ≤ self.GetDistanceTo sqrt (heap y))
        ∧ ∀ (j : Nat) (y : APPtr), j < k → l[j]? = some y →
          self.GetDistanceTo sqrt (heap c) < self.GetDistanceTo sqrt (heap y) := by
  induction l with
  | nil =>
    intro acc
    exact Or.inl ⟨rfl, fun y hy => absurd hy (List.not_mem_nil y)⟩
  | cons a rest ih =>
    intro acc
    rw [List.foldl_cons]
    by_cases ha : self.GetDistanceTo sqrt (heap a) < acc.1
    · have hstep : GetNearestTransitAPTO_step sqrt heap self acc a
          = (self.GetDistanceTo sqrt (heap a), a) := by
        simp only [GetNearestTransitAPTO_step, if_pos ha]
      rw [hstep]
      rcases ih (self.GetDistanceTo sqrt (heap a), a) with ⟨h1, h2⟩ | ⟨k, c, hk, h1, h2, h3, h4⟩
      · refine Or.inr ⟨0, a, by simp, h1, ha, ?_, ?_⟩
        · intro y hy
          rcases List.mem_cons.1 hy with rfl | hy
          · exact le_refl _
          · exact h2 y hy
        · intro j y hj
          exact absurd hj (Nat.not_lt_zero j)
      · refine Or.inr ⟨k + 1, c, ?_, h1, lt_trans h2 ha, ?_, ?_⟩
        · simpa using hk
        · intro y hy
          rcases List.mem_cons.1 hy with rfl | hy
          · exact le_of_lt h2
          · exact h3 y hy
        · intro j y hj hy
          cases j with
          | zero =>
            simp only [List.getElem?_cons_zero, Option.some.injEq] at hy
            subst hy
            exact h2
          | succ j =>
            simp only [List.getElem?_cons_succ] at hy
            exact h4 j y (Nat.lt_of_succ_lt_succ hj) hy
    · have hstep : GetNearestTransitAPTO_step sqrt heap self acc a = acc := by
        simp only [GetNearestTransitAPTO_step, if_neg ha]
      rw [hstep]
      rcases ih acc with ⟨h1, h2⟩ | ⟨k, c, hk, h1, h2, h3, h4⟩
      · refine Or.inl ⟨h1, ?_⟩
        intro y hy
        rcases List.mem_cons.1 hy with rfl | hy
        · exact not_lt.1 ha
        · exact h2 y hy
      · refine Or.inr ⟨k + 1, c, ?_, h1, h2, ?_, ?_⟩
        · simpa using hk
        · intro y hy
          rcases List.mem_cons.1 hy with rfl | hy
          · exact le_of_lt (lt_of_lt_of_le h2 (not_lt.1 ha))
          · exact h3 y hy
        · intro j y hj hy
          cases j with
          | zero =>
            simp only [List.getElem?_cons_zero, Option.some.injEq] at hy
            subst hy
            exact lt_of_lt_of_le h2 (not_lt.1 ha)
          | succ j =>
            simp only [List.getElem?_cons_succ] at hy
            exact h4 j y (Nat.lt_of_succ_lt_succ hj) hy

/-- The first candidate at the least distance is one candidate only. -/
theorem first_least_unique (d : APPtr → K) (l : List APPtr) (k k' : Nat) (c c' : APPtr)
    (hk : l[k]? = some c) (hk' : l[k']? = some c')
    (hmin : ∀ y ∈ l, d c ≤ d y) (hmin' : ∀ y ∈ l, d c' ≤ d y)
    (hfirst : ∀ (j : Nat) (y : APPtr), j < k → l[j]? = some y → d c < d y)
    (hfirst' : ∀ (j : Nat) (y : APPtr), j < k' → l[j]? = some y → d c' < d y) :
    c = c' := by
  have hc : c ∈ l := List.getElem?_mem hk
  have hc' : c' ∈ l := List.getElem?_mem hk'
  rcases Nat.lt_trichotomy k k' with h | h | h
  · exact absurd (hfirst' k c h hk) (not_lt.2 (hmin c' hc'))
  · subst h
    rw [hk] at hk'
    exact Option.some.inj hk'
  · exact absurd (hfirst k' c' h hk') (not_lt.2 (hmin' c hc))

/-- The result of `GetNearestTransitAPTO` for two or more candidates of which
the first has a stored distance that is not negative. -/
theorem GetNearestTransitAPTO_many (sqrt : K → K) (heap : APPtr → AccessPoint K)
    (self : AccessPoint K) (UID : Int) (first second : APPtr) (rest : List APPtr) (stored : K)
    (hl : self._navigationGraphTo UID = first :: second :: rest)
    (hs : (heap first)._mapDestToDist UID = some stored) (h0 : 0 ≤ stored) :
    ∃ (k : Nat) (c : APPtr), (first :: second :: rest)[k]? = some c
      ∧ self.GetNearestTransitAPTO sqrt heap UID = some (heap c)._id
      ∧ (∀ y ∈ first :: second :: rest,
        self.GetDistanceTo sqrt (heap c) ≤ self.GetDistanceTo sqrt (heap y))
      ∧ ∀ (j : Nat) (y : APPtr), j < k → (first :: second :: rest)[j]? = some y →
        self.GetDistanceTo sqrt (heap c) < self.GetDistanceTo sqrt (heap y) := by
  have hres : ∀ r : K × APPtr,
      (first :: second :: rest).foldl (GetNearestTransitAPTO_step sqrt heap self)
        (self.GetDistanceTo sqrt (heap first) + stored, first) = r →
      self.GetNearestTransitAPTO sqrt heap UID = some (heap r.2)._id := by
    intro r hr
    simp only [AccessPoint.GetNearestTransitAPTO, hl, AccessPoint.GetDistanceTo_UID, hs, hr,
      AccessPoint.GetID]
  rcases GetNearestTransitAPTO_scan sqrt heap self (first :: second :: rest)
      (self.GetDistanceTo sqrt (heap first) + stored, first) with
    ⟨h1, h2⟩ | ⟨k, c, hk, h1, -, h3, h4⟩
  · refine ⟨0, first, by simp, hres _ h1, ?_, ?_⟩
    · intro y hy
      have := h2 y hy
      simp only at this
      linarith
    · intro j y hj
      exact absurd hj (Nat.not_lt_zero j)
  · exact ⟨k, c, hk, hres _ h1, h3, h4⟩

/-- C26: `GetNearestTransitAPTO(UID)` returns -1 when no transit access point
is registered for `UID`, and the id of the only candidate when one is.  With
two or more candidates, of which the first has a stored distance to `UID`
that is not negative, it returns the id of the first candidate, in the order
of registration, at the least straight-line distance from the centre of this
access point; the stored distances do not enter: with any other stored
distances, not negative for the first candidate, the result is the same.
`AddTransitAPsTo` registers a candidate behind those already there, `Reset`
leaves none. -/
theorem C26_nearest_transit (sqrt : K → K) (heap : APPtr → AccessPoint K)
    (self : AccessPoint K) (UID : Int) :
    (self._navigationGraphTo UID = [] → self.GetNearestTransitAPTO sqrt heap UID = some (-1))
    ∧ (∀ only : APPtr, self._navigationGraphTo UID = [only] →
      self.GetNearestTransitAPTO sqrt heap UID = some (heap only)._id)
    ∧ (∀ (first second : APPtr) (rest : List APPtr) (stored : K),
      self._navigationGraphTo UID = first :: second :: rest →
      (heap first)._mapDestToDist UID = some stored → 0 ≤ stored →
      ∃ (k : Nat) (c : APPtr), (first :: second :: rest)[k]? = some c
        ∧ self.GetNearestTransitAPTO sqrt heap UID = some (heap c)._id
        ∧ (∀ y ∈ first :: second :: rest,
          self.GetDistanceTo sqrt (heap c) ≤ self.GetDistanceTo sqrt (heap y))
        ∧ (∀ (j : Nat) (y : APPtr), j < k → (first :: second :: rest)[j]? = some y →
          self.GetDistanceTo sqrt (heap c) < self.GetDistanceTo sqrt (heap y))
        ∧ ∀ (heap' : APPtr → AccessPoint K) (stored' : K),
          (∀ p, (heap' p)._id = (heap p)._id ∧ (heap' p).pCentre = (heap p).pCentre) →
          (heap' first)._mapDestToDist UID = some stored' → 0 ≤ stored' →
          self.GetNearestTransitAPTO sqrt heap' UID = self.GetNearestTransitAPTO sqrt heap UID)
    ∧ (∀ ap : APPtr, (self.AddTransitAPsTo UID ap).GetTransitAPsTo UID
        = self.GetTransitAPsTo UID ++ [ap])
    ∧ (self.Reset UID).GetTransitAPsTo UID = [] := by
  refine ⟨?_, ?_, ?_, ?_, ?_⟩
  · intro h
    simp only [AccessPoint.GetNearestTransitAPTO, h]
  · intro only h
    simp only [AccessPoint.GetNearestTransitAPTO, h, AccessPoint.GetID]
  · intro first second rest stored hl hs h0
    obtain ⟨k, c, hk, hr, hmin, hfirst⟩ :=
      GetNearestTransitAPTO_many sqrt heap self UID first second rest stored hl hs h0
    refine ⟨k, c, hk, hr, hmin, hfirst, ?_⟩
    intro heap' stored' hsame hs' h0'
    obtain ⟨k', c', hk', hr', hmin', hfirst'⟩ :=
      GetNearestTransitAPTO_many sqrt heap' self UID first second rest stored' hl hs' h0'
    have hd : ∀ p, self.GetDistanceTo sqrt (heap' p) = self.GetDistanceTo sqrt (heap p) := by
      intro p
      simp only [AccessPoint.GetDistanceTo, AccessPoint.GetCentre, (hsame p).2]
    simp only [hd] at hmin' hfirst'
    have hc : c = c' :=
      first_least_unique (fun p => self.GetDistanceTo sqrt (heap p)) _ k k' c c' hk hk' hmin
        hmin' hfirst hfirst'
    rw [hr, hr', ← hc, (hsame c).1]
  · intro ap
    simp only [AccessPoint.AddTransitAPsTo, AccessPoint.GetTransitAPsTo, Function.update_same]
  · simp only [AccessPoint.Reset, AccessPoint.GetTransitAPsTo, Function.update_same]

end Nearest

end LibCore

namespace LibCore

open VelocityModel

section NearestRuns

/-- The straight-line distances of the concrete run: the candidates behind the
pointers 1, 2 and 3 lie 3, 1 and 1 away from the access point 0. -/
theorem Scenario.accessPoints_distance (stored : List ℝ) :
    (Scenario.accessPoints [1, 2, 3] [3, 1, 1] stored 0).GetDistanceTo Real.sqrt
        (Scenario.accessPoints [1, 2, 3] [3, 1, 1] stored 1) = 3
    ∧ (Scenario.accessPoints [1, 2, 3] [3, 1, 1] stored 0).GetDistanceTo Real.sqrt
        (Scenario.accessPoints [1, 2, 3] [3, 1, 1] stored 2) = 1
    ∧ (Scenario.accessPoints [1, 2, 3] [3, 1, 1] stored 0).GetDistanceTo Real.sqrt
        (Scenario.accessPoints [1, 2, 3] [3, 1, 1] stored 3) = 1 := by
  refine ⟨?_, ?_, ?_⟩ <;>
    simp only [AccessPoint.GetDistanceTo, AccessPoint.GetCentre, Scenario.accessPoints,
      Point.sub_def, List.getD_cons_zero, List.getD_cons_succ]
  · exact real_norm _ _ 3 (by norm_num) (by norm_num)
  · exact real_norm _ _ 1 (by norm_num) (by norm_num)
  · exact real_norm _ _ 1 (by norm_num) (by norm_num)

/-- C26, at three candidates 3, 1 and 1 away with the stored distances 0, 50
and 0: the result is the access point 11, the first of the two candidates at
distance 1, although the way over the other one is shorter by 50. -/
theorem C26_nearest_transit_witness :
    (Scenario.accessPoints [1, 2, 3] [3, 1, 1] [(0 : ℝ), 50, 0] 0)._navigationGraphTo 7
      = [1, 2, 3]
    ∧ (Scenario.accessPoints [1, 2, 3] [3, 1, 1] [(0 : ℝ), 50, 0] 1)._mapDestToDist 7 = some 0
    ∧ (Scenario.accessPoints [1, 2, 3] [3, 1, 1] [(0 : ℝ), 50, 0] 0).GetNearestTransitAPTO
        Real.sqrt (Scenario.accessPoints [1, 2, 3] [3, 1, 1] [(0 : ℝ), 50, 0]) 7 = some 11 := by
  have hl : (Scenario.accessPoints [1, 2, 3] [3, 1, 1] [(0 : ℝ), 50, 0] 0)._navigationGraphTo 7
      = [1, 2, 3] := rfl
  have hs : (Scenario.accessPoints [1, 2, 3] [3, 1, 1] [(0 : ℝ), 50, 0] 1)._mapDestToDist 7
      = some 0 := rfl
  refine ⟨hl, hs, ?_⟩
  obtain ⟨d1, d2, d3⟩ := Scenario.accessPoints_distance [(0 : ℝ), 50, 0]
  obtain ⟨k, c, hk, hr, hmin, hfirst, -⟩ :=
    (C26_nearest_transit Real.sqrt (Scenario.accessPoints [1, 2, 3] [3, 1, 1] [(0 : ℝ), 50, 0])
      (Scenario.accessPoints [1, 2, 3] [3, 1, 1] [(0 : ℝ), 50, 0] 0) 7).2.2.1 1 2 [3] 0 hl hs
      (le_refl 0)
  rw [hr]
  have h2 := hmin 2 (by simp)
  rw [d2] at h2
  rcases k with _ | _ | _ | k
  · simp only [List.getElem?_cons_zero, Option.some.injEq] at hk
    subst hk
    rw [d1] at h2
    norm_num at h2
  · simp only [List.getElem?_cons_succ, List.getElem?_cons_zero, Option.some.injEq] at hk
    subst hk
    rfl
  · simp only [List.getElem?_cons_succ, List.getElem?_cons_zero, Option.some.injEq] at hk
    subst hk
    have h := hfirst 1 2 (by norm_num) (by simp)
    rw [d2, d3] at h
    exact absurd h (lt_irrefl 1)
  · simp at hk

end NearestRuns

end LibCore

/-! ## The agents of libsimulator: list, index and queries -/

namespace LibSimulator

open VelocityModel (Point)

section Agents

variable {K : Type} [LinearOrderedField K]

/-- A call of `RemoveAgent` that returns has erased the first agent of the
given id from the list, which is one agent shorter. -/
theorem RemoveAgent_ok (s s' : Simulation K) (id : Nat) (h : RemoveAgent s id = some (.ok s')) :
    s._agents.findIdx (fun agent => agent.id == id) < s._agents.length
      ∧ s'._agents = s._agents.eraseIdx (s._agents.findIdx (fun agent => agent.id == id))
      ∧ s'._agents.length + 1 = s._agents.length
      ∧ ∃ next : GenericAgent K,
        s._agents[s._agents.findIdx (fun agent => agent.id == id) + 1]? = some next
          ∧ s'._neighborhoodSearch = s._neighborhoodSearch.RemoveAgent next := by
  unfold RemoveAgent at h
  simp only [] at h
  split_ifs at h with hi
  · exact absurd h (by simp)
  · have hlt : s._agents.findIdx (fun agent => agent.id == id) < s._agents.length :=
      lt_of_le_of_ne (List.findIdx_le_length _) hi
    split at h
    · exact absurd h (by simp)
    · rename_i next hn
      simp only [Option.some.injEq, Except.ok.injEq] at h
      subst h
      refine ⟨hlt, rfl, ?_, next, ?_, rfl⟩
      · simp only [List.length_eraseIdx, if_pos hlt]
        omega
      · rw [List.getElem?_eraseIdx, if_neg (lt_irrefl _)] at hn
        exact hn

/-- A call of `RemoveAgent` that throws has found no agent of the given id and
has written nothing. -/
theorem RemoveAgent_error (s e : Simulation K) (id : Nat)
    (h : RemoveAgent s id = some (.error e)) :
    e = s ∧ ∀ agent ∈ s._agents, agent.id ≠ id := by
  unfold RemoveAgent at h
  simp only [] at h
  split_ifs at h with hi
  · simp only [Option.some.injEq, Except.error.injEq] at h
    refine ⟨h.symm, ?_⟩
    intro agent ha
    have := List.findIdx_eq_length.1 hi agent ha
    simpa using this
  · split at h
    · exact absurd h (by simp)
    · exact absurd h (by simp)

/-- What `RemoveAgent` does for an agent that is in the list: it returns when
an agent follows the erased one and has no defined result when none does. -/
theorem RemoveAgent_known (s : Simulation K) (id : Nat)
    (h : s._agents.findIdx (fun agent => agent.id == id) < s._agents.length) :
    RemoveAgent s id
      = match s._agents[s._agents.findIdx (fun agent => agent.id == id) + 1]? with
        | none => none
        | some next =>
          some (.ok
            { s with
              _agents := s._agents.eraseIdx (s._agents.findIdx (fun agent => agent.id == id))
              _neighborhoodSearch := s._neighborhoodSearch.RemoveAgent next }) := by
  unfold RemoveAgent
  simp only [if_neg (ne_of_lt h), List.getElem?_eraseIdx, if_neg (lt_irrefl _)]

/-- Where `RemoveAgent` has a result, the call as a build runs it has the
same. -/
theorem RemoveAgent_stale_agrees (stale : GenericAgent K) (s : Simulation K) (id : Nat)
    (r : Except (Simulation K) (Simulation K)) (h : RemoveAgent s id = some r) :
    RemoveAgent_stale stale s id = r := by
  unfold RemoveAgent at h
  unfold RemoveAgent_stale
  simp only [] at h ⊢
  split_ifs at h ⊢ with hi
  · exact Option.some.inj h
  · split at h
    · exact absurd h (by simp)
    · rename_i next hn
      rw [hn]
      exact Option.some.inj h

/-- A call of `RemoveAgent` for an agent that is in the list returns, as a
build runs it, with the first agent of the given id erased; the index loses
the agent that followed it, or what the read behind the end of the vector
yields. -/
theorem RemoveAgent_stale_known (stale : GenericAgent K) (s : Simulation K) (id : Nat)
    (h : s._agents.findIdx (fun agent => agent.id == id) < s._agents.length) :
    RemoveAgent_stale stale s id
      = .ok { s with
          _agents := s._agents.eraseIdx (s._agents.findIdx (fun agent => agent.id == id))
          _neighborhoodSearch := s._neighborhoodSearch.RemoveAgent
            ((s._agents[s._agents.findIdx (fun agent => agent.id == id) + 1]?).getD stale) } := by
  unfold RemoveAgent_stale
  simp only [if_neg (ne_of_lt h), List.getElem?_eraseIdx, if_neg (lt_irrefl _)]

/-- A call of `RemoveAgent` for an id that no agent of the list has throws and
writes nothing. -/
theorem RemoveAgent_stale_unknown (stale : GenericAgent K) (s : Simulation K) (id : Nat)
    (h : s._agents.findIdx (fun agent => agent.id == id) = s._agents.length) :
    RemoveAgent_stale stale s id = .error s := by
  unfold RemoveAgent_stale
  simp only [if_pos h]

/-- The position of the first agent of an id is inside the list exactly when
an agent of the list has the id. -/
theorem findIdx_lt_iff (agents : List (GenericAgent K)) (id : Nat) :
    agents.findIdx (fun agent => agent.id == id) < agents.length
      ↔ ∃ agent ∈ agents, agent.id = id := by
  rw [List.findIdx_lt_length]
  simp

/-- The length of the agent list after a call of `AddAgent`: one more when it
returns and when it throws after its checks, the same when a check fails. -/
theorem AddAgent_length (ext : Externals K) (s : Simulation K) (agent : GenericAgent K) :
    (∀ id s', AddAgent ext s agent = .ok (id, s') →
      s'._agents.length = s._agents.length + 1)
    ∧ (∀ e, AddAgent ext s agent = .error e →
      (AddAgent_checks ext s agent = false ∧ e = s)
      ∨ (AddAgent_checks ext s agent = true ∧ e._agents.length = s._agents.length + 1)) := by
  constructor
  · intro id s' h
    rw [AddAgent_eq] at h
    simp only [] at h
    split_ifs at h with hc
    split at h
    · exact absurd h (by simp)
    · split at h
      · exact absurd h (by simp)
      · simp only [Except.ok.injEq, Prod.mk.injEq] at h
        rw [← h.2]
        simp
  · intro e h
    rw [AddAgent_eq] at h
    simp only [] at h
    split_ifs at h with hc
    · exact Or.inl ⟨hc, (Except.error.inj h).symm⟩
    · refine Or.inr ⟨by simpa using hc, ?_⟩
      split at h
      · rw [← Except.error.inj h]
        simp
      · split at h
        · rw [← Except.error.inj h]
          simp
        · exact absurd h (by simp)

/-- The agents after a tick, whether it returns or throws, are as many as the
exit system left, when the operational step hands back as many agents as it is
given. -/
theorem Iterate_agents_length (ext : Externals K) (s : Simulation K)
    (hop : ∀ dT t index agents, (ext.OperationalRun dT t index agents).length = agents.length)
    (r : Simulation K) (h : Iterate ext s = .ok r ∨ Iterate ext s = .error r) :
    r._agents.length
      = (ext.AgentExitSystemRun s._agents s._removedAgentsInLastIteration).1.length := by
  rw [Iterate_eq] at h
  split at h
  · rename_i s1 agents1 h1
    have hl := (StrategicalDecisionSystem_Run_frame ext _ _ _ (Or.inr h1)).2.2.2.2
    simp only at hl
    rcases h with h | h
    · exact absurd h (by simp)
    · rw [← Except.error.inj h]
      exact hl
  · rename_i s1 agents1 h1
    have hl := (StrategicalDecisionSystem_Run_frame ext _ _ _ (Or.inl h1)).2.2.2.2
    simp only at hl
    split at h
    · rename_i agents2 h2
      have hl2 := TacticalDecisionSystem_Run_length ext _ _ (Or.inr h2)
      rcases h with h | h
      · exact absurd h (by simp)
      · rw [← Except.error.inj h]
        simp only
        rw [hl2, hl]
    · rename_i agents2 h2
      have hl2 := TacticalDecisionSystem_Run_length ext _ _ (Or.inl h2)
      rcases h with h | h
      · rw [← Except.ok.inj h]
        simp only
        rw [hop, hl2, hl]
      · exact absurd h (by simp)

/-- One call keeps the balance of the ledger. -/
theorem step_balance (ext : Externals K)
    (hexit : ∀ agents removed,
      (ext.AgentExitSystemRun agents removed).1.length ≤ agents.length)
    (hop : ∀ dT t index agents, (ext.OperationalRun dT t index agents).length = agents.length)
    (st : Simulation K × Ledger) (op : Op K) :
    (step ext st op).2.added + (step ext st op).2.stranded + st.1._agents.length + st.2.removed
      = (step ext st op).1._agents.length + (step ext st op).2.removed + st.2.added
        + st.2.stranded := by
  obtain ⟨s0, L0⟩ := st
  cases op with
  | AddAgent agent =>
    simp only [step]
    obtain ⟨hok, herr⟩ := AddAgent_length ext s0 agent
    split
    · rename_i id s1 hadd
      have := hok id s1 hadd
      dsimp only
      omega
    · rename_i s1 hadd
      rcases herr s1 hadd with ⟨hc, rfl⟩ | ⟨hc, hl⟩
      · simp only [hc, Bool.false_eq_true, ↓reduceIte]
        omega
      · simp only [hc, ↓reduceIte]
        omega
  | RemoveAgent id stale =>
    simp only [step]
    by_cases h : s0._agents.findIdx (fun agent => agent.id == id) < s0._agents.length
    · rw [RemoveAgent_stale_known stale s0 id h]
      simp only [List.length_eraseIdx, if_pos h]
      omega
    · have h' : s0._agents.findIdx (fun agent => agent.id == id) = s0._agents.length :=
        le_antisymm (List.findIdx_le_length _) (not_lt.1 h)
      rw [RemoveAgent_stale_unknown stale s0 id h']
      dsimp only
      omega
  | Iterate =>
    simp only [step]
    have h2 := hexit s0._agents s0._removedAgentsInLastIteration
    split
    · rename_i s1 hit
      have h1 := Iterate_agents_length ext s0 hop s1 (Or.inl hit)
      dsimp only
      omega
    · rename_i s1 hit
      have h1 := Iterate_agents_length ext s0 hop s1 (Or.inr hit)
      dsimp only
      omega

/-- A run of calls keeps the balance of the ledger. -/
theorem run_balance (ext : Externals K)
    (hexit : ∀ agents removed,
      (ext.AgentExitSystemRun agents removed).1.length ≤ agents.length)
    (hop : ∀ dT t index agents, (ext.OperationalRun dT t index agents).length = agents.length)
    (ops : List (Op K)) :
    ∀ st : Simulation K × Ledger,
      (run ext ops st).2.added + (run ext ops st).2.stranded + st.1._agents.length
          + st.2.removed
        = (run ext ops st).1._agents.length + (run ext ops st).2.removed + st.2.added
          + st.2.stranded := by
  induction ops with
  | nil =>
    intro st
    simp only [run]
    omega
  | cons op rest ih =>
    intro st
    simp only [run]
    have h1 := step_balance ext hexit hop st op
    have h2 := ih (step ext st op)
    omega

end Agents

end LibSimulator

namespace LibSimulator

open VelocityModel (Point)

section AgentsClaims

variable {K : Type} [LinearOrderedField K]

/-- C21 (amended): an `AddAgent` that returns makes the agent list one
longer; one that throws leaves the list when one of its three checks failed,
and leaves it one longer, with the agent in it, when the checks passed and the
strategic or the tactical pass threw.  A `RemoveAgent` of an id that an agent
of the list has returns, whether or not an agent follows the erased one, and
has erased one agent, the first of the given id; of an id that no agent has it
throws and leaves the list.  `RemoveAgents` of libcore keeps exactly the
agents whose uid is not among the given ones, in their order, and takes away
the others.  A tick, whether it returns or throws, leaves as many agents as
the exit system left.  So in every run of `AddAgent`, `RemoveAgent` and `Iterate` calls,
with an exit system that only takes agents away and an operational step that
hands back as many agents as it gets, the agents added by calls that returned,
those left behind by calls that threw, and those present at the start are
those present at the end and those removed; from an empty list:
added + left behind = present + removed. -/
theorem C21_mass_conservation (ext : Externals K) :
    (∀ (s : Simulation K) (agent : GenericAgent K) (id : Nat) (s' : Simulation K),
      AddAgent ext s agent = .ok (id, s') → s'._agents.length = s._agents.length + 1)
    ∧ (∀ (s : Simulation K) (agent : GenericAgent K) (e : Simulation K),
      AddAgent ext s agent = .error e →
      (AddAgent_checks ext s agent = false ∧ e._agents = s._agents)
      ∨ (AddAgent_checks ext s agent = true ∧ e._agents.length = s._agents.length + 1))
    ∧ (∀ (stale : GenericAgent K) (s : Simulation K) (id : Nat),
      (∃ agent ∈ s._agents, agent.id = id) →
      ∃ s', RemoveAgent_stale stale s id = .ok s'
        ∧ s'._agents.length + 1 = s._agents.length
        ∧ s'._agents = s._agents.eraseIdx (s._agents.findIdx (fun agent => agent.id == id))
        ∧ s'._agents.Sublist s._agents)
    ∧ (∀ (stale : GenericAgent K) (s : Simulation K) (id : Nat),
      (∀ agent ∈ s._agents, agent.id ≠ id) → RemoveAgent_stale stale s id = .error s)
    ∧ (∀ (stale : GenericAgent K) (s : Simulation K) (id : Nat)
        (r : Except (Simulation K) (Simulation K)),
      RemoveAgent s id = some r → RemoveAgent_stale stale s id = r)
    ∧ ((∀ dT t index agents, (ext.OperationalRun dT t index agents).length = agents.length) →
      ∀ s r : Simulation K, Iterate ext s = .ok r ∨ Iterate ext s = .error r →
        r._agents.length
          = (ext.AgentExitSystemRun s._agents s._removedAgentsInLastIteration).1.length)
    ∧ (∀ (s : LibCore.Simulation K) (ids : List Int),
      (LibCore.RemoveAgents s ids)._agents
        = s._agents.filter (fun agent => decide (agent.UID ∉ ids))
      ∧ (LibCore.RemoveAgents s ids)._agents.Sublist s._agents
      ∧ (∀ agent, agent ∈ (LibCore.RemoveAgents s ids)._agents
          ↔ agent ∈ s._agents ∧ agent.UID ∉ ids)
      ∧ s._agents.length = (LibCore.RemoveAgents s ids)._agents.length
          + (s._agents.filter (fun agent => decide (agent.UID ∈ ids))).length)
    ∧ ((∀ agents removed, (ext.AgentExitSystemRun agents removed).1.length ≤ agents.length) →
      (∀ dT t index agents, (ext.OperationalRun dT t index agents).length = agents.length) →
      ∀ (ops : List (Op K)) (st : Simulation K × Ledger),
        ((run ext ops st).2.added + (run ext ops st).2.stranded + st.1._agents.length
            + st.2.removed
          = (run ext ops st).1._agents.length + (run ext ops st).2.removed + st.2.added
            + st.2.stranded)
        ∧ (st.1._agents = [] → st.2 = ⟨0, 0, 0⟩ →
          (run ext ops st).2.added + (run ext ops st).2.stranded
            = (run ext ops st).1._agents.length + (run ext ops st).2.removed)) := by
  refine ⟨?_, ?_, ?_, ?_, ?_, ?_, ?_, ?_⟩
  · intro s agent id s' h
    exact (AddAgent_length ext s agent).1 id s' h
  · intro s agent e h
    rcases (AddAgent_length ext s agent).2 e h with ⟨hc, rfl⟩ | ⟨hc, hl⟩
    · exact Or.inl ⟨hc, rfl⟩
    · exact Or.inr ⟨hc, hl⟩
  · intro stale s id h
    have hlt := (findIdx_lt_iff s._agents id).2 h
    refine ⟨_, RemoveAgent_stale_known stale s id hlt, ?_, rfl, ?_⟩
    · simp only [List.length_eraseIdx, if_pos hlt]
      omega
    · exact List.eraseIdx_sublist _ _
  · intro stale s id h
    apply RemoveAgent_stale_unknown
    apply le_antisymm (List.findIdx_le_length _)
    rw [← not_lt, findIdx_lt_iff]
    rintro ⟨agent, ha, hid⟩
    exact h agent ha hid
  · intro stale s id r h
    exact RemoveAgent_stale_agrees stale s id r h
  · intro hop s r h
    exact Iterate_agents_length ext s hop r h
  · intro s ids
    have hf : (LibCore.RemoveAgents s ids)._agents
        = s._agents.filter (fun agent => decide (agent.UID ∉ ids)) := by
      simp only [LibCore.RemoveAgents]
      apply List.filter_congr
      intro agent _
      rw [Bool.eq_iff_iff]
      simp only [Bool.not_eq_true', List.any_eq_false, beq_iff_eq, decide_eq_true_eq]
      constructor
      · intro h hmem
        exact h agent.UID hmem rfl
      · intro h x hx hxe
        exact h (hxe ▸ hx)
    refine ⟨hf, ?_, ?_, ?_⟩
    · rw [hf]
      exact List.filter_sublist _
    · intro agent
      rw [hf, List.mem_filter]
      simp
    · rw [hf, List.length_eq_length_filter_add (fun agent => decide (agent.UID ∉ ids))]
      congr 2
      apply List.filter_congr
      intro agent _
      simp
  · intro hexit hop ops st
    have hb := run_balance ext hexit hop ops st
    refine ⟨hb, ?_⟩
    intro h0 hL
    rw [h0, hL] at hb
    simp only [List.length_nil] at hb
    omega

end AgentsClaims

end LibSimulator

namespace LibSimulator

open VelocityModel (Point)

section AgentsRuns

/-- A run from two agents on a navigation mesh that covers the half plane
`x ≥ 0`: the first agent is removed, a tick passes, a third agent is added, a
fourth one is rejected because it is put where the second stands, the third,
the last of the list, is removed, a fifth has its target outside the mesh, so
that `AddAgent` throws in its tactical pass, and a tick throws at that agent. -/
theorem Scenario.run_example :
    (run (Scenario.offMesh Real.sqrt)
        [Op.RemoveAgent 1 (Scenario.agent 0 ⟨0, 0⟩), Op.Iterate,
          Op.AddAgent (Scenario.agent 3 ⟨1, 1⟩), Op.AddAgent (Scenario.agent 4 ⟨5, 0⟩),
          Op.RemoveAgent 3 (Scenario.agent 0 ⟨0, 0⟩), Op.AddAgent (Scenario.lost 5 ⟨2, 2⟩),
          Op.Iterate]
        (Scenario.sim [Scenario.agent 1 ⟨0, 0⟩, Scenario.agent 2 ⟨5, 0⟩] [], ⟨2, 0, 0⟩)).2
      = ⟨3, 1, 2⟩
    ∧ (run (Scenario.offMesh Real.sqrt)
        [Op.RemoveAgent 1 (Scenario.agent 0 ⟨0, 0⟩), Op.Iterate,
          Op.AddAgent (Scenario.agent 3 ⟨1, 1⟩), Op.AddAgent (Scenario.agent 4 ⟨5, 0⟩),
          Op.RemoveAgent 3 (Scenario.agent 0 ⟨0, 0⟩), Op.AddAgent (Scenario.lost 5 ⟨2, 2⟩),
          Op.Iterate]
        (Scenario.sim [Scenario.agent 1 ⟨0, 0⟩, Scenario.agent 2 ⟨5, 0⟩] [],
          ⟨2, 0, 0⟩)).1._agents.map (fun agent => agent.id) = [2, 5] := by
  have h10 : ¬ ((10 : ℝ) < 0) := by norm_num
  have hm : ((-1 : ℝ) < 0) := by norm_num
  simp [run, step, RemoveAgent_stale, Scenario.sim, Scenario.agent, List.findIdx_cons,
    NeighborhoodSearch.RemoveAgent, Iterate, Scenario.ext, Scenario.offMesh, AddAgent,
    AddAgent_checks, StrategicalDecisionSystem_Run, TacticalDecisionSystem_Run,
    Simulation.called, NeighborhoodSearch.Update, NeighborhoodSearch.AddAgent,
    Scenario.lost, Simulation.journey, Journey.ContainsStage, h10, hm]

/-- C21 (amended), at the run from two agents: three agents were added by
calls that returned and one was left behind by a call that threw, two are
present and two were removed. -/
theorem C21_mass_conservation_witness :
    (∀ (agents : List (GenericAgent ℝ)) (removed : List Nat),
      ((Scenario.offMesh Real.sqrt).AgentExitSystemRun agents removed).1.length
        ≤ agents.length)
    ∧ (∀ (dT t : ℝ) (index : NeighborhoodSearch ℝ) (agents : List (GenericAgent ℝ)),
      ((Scenario.offMesh Real.sqrt).OperationalRun dT t index agents).length = agents.length)
    ∧ (run (Scenario.offMesh Real.sqrt)
        [Op.RemoveAgent 1 (Scenario.agent 0 ⟨0, 0⟩), Op.Iterate,
          Op.AddAgent (Scenario.agent 3 ⟨1, 1⟩), Op.AddAgent (Scenario.agent 4 ⟨5, 0⟩),
          Op.RemoveAgent 3 (Scenario.agent 0 ⟨0, 0⟩), Op.AddAgent (Scenario.lost 5 ⟨2, 2⟩),
          Op.Iterate]
        (Scenario.sim [Scenario.agent 1 ⟨0, 0⟩, Scenario.agent 2 ⟨5, 0⟩] [], ⟨2, 0, 0⟩)).2
      = ⟨3, 1, 2⟩
    ∧ (run (Scenario.offMesh Real.sqrt)
        [Op.RemoveAgent 1 (Scenario.agent 0 ⟨0, 0⟩), Op.Iterate,
          Op.AddAgent (Scenario.agent 3 ⟨1, 1⟩), Op.AddAgent (Scenario.agent 4 ⟨5, 0⟩),
          Op.RemoveAgent 3 (Scenario.agent 0 ⟨0, 0⟩), Op.AddAgent (Scenario.lost 5 ⟨2, 2⟩),
          Op.Iterate]
        (Scenario.sim [Scenario.agent 1 ⟨0, 0⟩, Scenario.agent 2 ⟨5, 0⟩] [],
          ⟨2, 0, 0⟩)).1._agents.length = 2 := by
  have hexit : ∀ (agents : List (GenericAgent ℝ)) (removed : List Nat),
      ((Scenario.offMesh Real.sqrt).AgentExitSystemRun agents removed).1.length
        ≤ agents.length := by
    intro agents removed
    exact List.length_filter_le _ _
  have hop : ∀ (dT t : ℝ) (index : NeighborhoodSearch ℝ) (agents : List (GenericAgent ℝ)),
      ((Scenario.offMesh Real.sqrt).OperationalRun dT t index agents).length = agents.length :=
    fun _ _ _ _ => rfl
  obtain ⟨hL, -⟩ := Scenario.run_example
  refine ⟨hexit, hop, hL, ?_⟩
  have hb := ((C21_mass_conservation (Scenario.offMesh Real.sqrt)).2.2.2.2.2.2.2 hexit hop
    [Op.RemoveAgent 1 (Scenario.agent 0 ⟨0, 0⟩), Op.Iterate,
      Op.AddAgent (Scenario.agent 3 ⟨1, 1⟩), Op.AddAgent (Scenario.agent 4 ⟨5, 0⟩),
      Op.RemoveAgent 3 (Scenario.agent 0 ⟨0, 0⟩), Op.AddAgent (Scenario.lost 5 ⟨2, 2⟩),
      Op.Iterate]
    (Scenario.sim [Scenario.agent 1 ⟨0, 0⟩, Scenario.agent 2 ⟨5, 0⟩] [], ⟨2, 0, 0⟩)).1
  obtain ⟨R, hR⟩ : ∃ R, R = run (Scenario.offMesh Real.sqrt)
      [Op.RemoveAgent 1 (Scenario.agent 0 ⟨0, 0⟩), Op.Iterate,
        Op.AddAgent (Scenario.agent 3 ⟨1, 1⟩), Op.AddAgent (Scenario.agent 4 ⟨5, 0⟩),
        Op.RemoveAgent 3 (Scenario.agent 0 ⟨0, 0⟩), Op.AddAgent (Scenario.lost 5 ⟨2, 2⟩),
        Op.Iterate]
      (Scenario.sim [Scenario.agent 1 ⟨0, 0⟩, Scenario.agent 2 ⟨5, 0⟩] [], ⟨2, 0, 0⟩) :=
    ⟨_, rfl⟩
  rw [← hR] at hb hL ⊢
  rw [hL] at hb
  simp only [Scenario.sim, List.length_cons, List.length_nil] at hb
  omega

/-- C21 as stated fails: from the empty simulation, one call of `AddAgent` for
an agent that passes the three checks and whose target lies outside the
navigation mesh throws in the tactical pass.  No agent was added by a call
that returned and none was removed, and one agent is present. -/
theorem C21_counterexample :
    (∃ e : Simulation ℝ,
      AddAgent (Scenario.offMesh Real.sqrt) (Scenario.sim [] []) (Scenario.lost 1 ⟨0, 0⟩)
        = .error e
      ∧ e._agents.length = (Scenario.sim [] [] : Simulation ℝ)._agents.length + 1)
    ∧ (run (Scenario.offMesh Real.sqrt) [Op.AddAgent (Scenario.lost 1 ⟨0, 0⟩)]
        (Scenario.sim [] [], ⟨0, 0, 0⟩)).2.added = 0
    ∧ (run (Scenario.offMesh Real.sqrt) [Op.AddAgent (Scenario.lost 1 ⟨0, 0⟩)]
        (Scenario.sim [] [], ⟨0, 0, 0⟩)).2.removed = 0
    ∧ (run (Scenario.offMesh Real.sqrt) [Op.AddAgent (Scenario.lost 1 ⟨0, 0⟩)]
        (Scenario.sim [] [], ⟨0, 0, 0⟩)).1._agents.length = 1
    ∧ (run (Scenario.offMesh Real.sqrt) [Op.AddAgent (Scenario.lost 1 ⟨0, 0⟩)]
        (Scenario.sim [] [], ⟨0, 0, 0⟩)).2.added
      ≠ (run (Scenario.offMesh Real.sqrt) [Op.AddAgent (Scenario.lost 1 ⟨0, 0⟩)]
          (Scenario.sim [] [], ⟨0, 0, 0⟩)).1._agents.length
        + (run (Scenario.offMesh Real.sqrt) [Op.AddAgent (Scenario.lost 1 ⟨0, 0⟩)]
          (Scenario.sim [] [], ⟨0, 0, 0⟩)).2.removed := by
  have hc : AddAgent_checks (Scenario.offMesh Real.sqrt) (Scenario.sim [] [])
      (Scenario.lost 1 ⟨0, 0⟩ : GenericAgent ℝ) = true := rfl
  have hw : ((-1 : ℝ) < 0) := by norm_num
  have hadd : ∃ e : Simulation ℝ,
      AddAgent (Scenario.offMesh Real.sqrt) (Scenario.sim [] []) (Scenario.lost 1 ⟨0, 0⟩)
        = .error e
      ∧ e._agents.length = (Scenario.sim [] [] : Simulation ℝ)._agents.length + 1 := by
    rw [AddAgent_eq]
    simp only [hc, Bool.true_eq_false, ↓reduceIte, Scenario.offMesh, Scenario.ext,
      Scenario.lost, Scenario.agent, hw]
    exact ⟨_, rfl, rfl⟩
  obtain ⟨e, he, hl⟩ := hadd
  have hl1 : e._agents.length = 1 := hl
  refine ⟨⟨e, he, hl⟩, ?_, ?_, ?_, ?_⟩
  · simp only [run, step, he]
  · simp only [run, step, he]
  · simp only [run, step, he, hl1]
  · simp only [run, step, he, hl1]
    decide

/-- C22 fails: of the agents 1, at (0, 0), and 2, at (5, 0), the first is
removed.  `RemoveAgent(1)` erases agent 1 from the list and takes agent 2, the
agent that followed it, out of the index: afterwards `AgentsInRange` around
(0, 0) returns the removed id 1 and around (5, 0) does not return the
remaining agent 2.  `RemoveAgent(2)`, of the last agent of the list, reads the
end of the vector. -/
theorem C22_wrong_agent_leaves_index :
    (∃ s' : Simulation ℝ,
      RemoveAgent (Scenario.sim [Scenario.agent 1 ⟨0, 0⟩, Scenario.agent 2 ⟨5, 0⟩] []) 1
        = some (.ok s')
      ∧ s'._agents = [Scenario.agent 2 ⟨5, 0⟩]
      ∧ s'._neighborhoodSearch.agents = [Scenario.agent 1 ⟨0, 0⟩]
      ∧ AgentsInRange (Scenario.ext Real.sqrt) s' ⟨0, 0⟩ 1 = [1]
      ∧ AgentsInRange (Scenario.ext Real.sqrt) s' ⟨5, 0⟩ 1 = [])
    ∧ RemoveAgent
        (Scenario.sim [Scenario.agent 1 ⟨0, 0⟩, Scenario.agent 2 ⟨5, 0⟩] [] : Simulation ℝ) 2
      = none := by
  have hex : ∃ s' : Simulation ℝ,
      RemoveAgent (Scenario.sim [Scenario.agent 1 ⟨0, 0⟩, Scenario.agent 2 ⟨5, 0⟩] []) 1
        = some (.ok s')
      ∧ s'._agents = [Scenario.agent 2 ⟨5, 0⟩]
      ∧ s'._neighborhoodSearch.agents = [Scenario.agent 1 ⟨0, 0⟩] := ⟨_, rfl, rfl, rfl⟩
  obtain ⟨s', h1, h2, h3⟩ := hex
  have d0 : Point.Norm Real.sqrt ((⟨0, 0⟩ : Point ℝ) - ⟨0, 0⟩) = 0 := by
    rw [VelocityModel.Point.sub_def]
    exact VelocityModel.real_norm _ _ 0 (le_refl 0) (by norm_num)
  have d5 : Point.Norm Real.sqrt ((⟨0, 0⟩ : Point ℝ) - ⟨5, 0⟩) = 5 := by
    rw [VelocityModel.Point.sub_def]
    exact VelocityModel.real_norm _ _ 5 (by norm_num) (by norm_num)
  refine ⟨⟨s', h1, h2, h3, ?_, ?_⟩, rfl⟩
  · simp only [AgentsInRange, NeighborhoodSearch.GetNeighboringAgents, h3, Scenario.ext,
      Scenario.agent, List.filter_cons, List.filter_nil, d0]
    norm_num
  · simp only [AgentsInRange, NeighborhoodSearch.GetNeighboringAgents, h3, Scenario.ext,
      Scenario.agent, List.filter_cons, List.filter_nil, d5]
    norm_num

end AgentsRuns

end LibSimulator

namespace LibSimulator

open VelocityModel (Point)

section Polygon

variable {K : Type} [LinearOrderedField K]

/-- The loop of `AgentsInPolygon` collects the ids of the candidates inside
the polygon, in their order. -/
theorem AgentsInPolygon_loop (inside : GenericAgent K → Bool) (candidates : List (GenericAgent K))
    (result : List Nat) :
    candidates.foldl
        (fun (result : List Nat) (agent : GenericAgent K) =>
          if inside agent then result ++ [agent.id] else result) result
      = result ++ (candidates.filter inside).map (fun agent => agent.id) := by
  induction candidates generalizing result with
  | nil => simp
  | cons a rest ih =>
    rw [List.foldl_cons, ih]
    cases h : inside a <;> simp [List.filter_cons, h]

/-- What `AgentsInPolygon` does, by its check. -/
theorem AgentsInPolygon_eq (ext : Externals K) (s : Simulation K) (polygon : List (Point K)) :
    AgentsInPolygon ext s polygon
      = if ext.IsConvex polygon = false then .error s
        else .ok
          (((s._neighborhoodSearch.GetNeighboringAgents ext.sqrt (ext.ContainingCircle polygon).1
              (ext.ContainingCircle polygon).2).filter
            (fun agent => ext.IsInside polygon agent.pos)).map (fun agent => agent.id), s) := by
  unfold AgentsInPolygon
  split_ifs with h
  · rfl
  · simp only [AgentsInPolygon_loop (fun agent => ext.IsInside polygon agent.pos),
      List.nil_append]

/-- What `AgentsInPolygon` returns: it throws exactly when the polygon is not
convex, and then, as when it returns, the simulation is as it was.  For a
convex polygon it returns the ids of the agents of the index that are within
the containing circle and inside the polygon, once for each such agent of the
index: every returned id is the id of an agent of the index inside the
polygon.  Whether the containing circle reaches every agent of the index that
is inside the polygon lies with `Polygon::ContainingCircle`; where it does,
the result is the ids of the agents of the index inside the polygon, and it
has no id twice when the index has none twice. -/
theorem AgentsInPolygon_result (ext : Externals K) (s : Simulation K) (polygon : List (Point K)) :
    (AgentsInPolygon ext s polygon = .error s ↔ ext.IsConvex polygon = false)
    ∧ (∀ e, AgentsInPolygon ext s polygon = .error e → e = s)
    ∧ (∀ ids s', AgentsInPolygon ext s polygon = .ok (ids, s') →
      s' = s ∧ ext.IsConvex polygon = true
      ∧ ids = ((s._neighborhoodSearch.GetNeighboringAgents ext.sqrt
            (ext.ContainingCircle polygon).1 (ext.ContainingCircle polygon).2).filter
          (fun agent => ext.IsInside polygon agent.pos)).map (fun agent => agent.id)
      ∧ (∀ id ∈ ids, ∃ agent ∈ s._neighborhoodSearch.agents,
          agent.id = id ∧ ext.IsInside polygon agent.pos = true))
    ∧ (ext.IsConvex polygon = true →
      (∀ agent ∈ s._neighborhoodSearch.agents, ext.IsInside polygon agent.pos = true →
        (agent.pos - (ext.ContainingCircle polygon).1).Norm ext.sqrt
          ≤ (ext.ContainingCircle polygon).2) →
      AgentsInPolygon ext s polygon
        = .ok ((s._neighborhoodSearch.agents.filter
            (fun agent => ext.IsInside polygon agent.pos)).map (fun agent => agent.id), s)
      ∧ (∀ agent ∈ s._neighborhoodSearch.agents, ext.IsInside polygon agent.pos = true →
          agent.id ∈ (s._neighborhoodSearch.agents.filter
            (fun agent => ext.IsInside polygon agent.pos)).map (fun agent => agent.id))
      ∧ (s._neighborhoodSearch.ids.Nodup →
          ((s._neighborhoodSearch.agents.filter
            (fun agent => ext.IsInside polygon agent.pos)).map (fun agent => agent.id)).Nodup)) := by
  refine ⟨?_, ?_, ?_, ?_⟩
  · rw [AgentsInPolygon_eq]
    split_ifs with h
    · exact ⟨fun _ => h, fun _ => rfl⟩
    · exact ⟨fun he => absurd he (by simp), fun hc => absurd hc h⟩
  · intro e he
    rw [AgentsInPolygon_eq] at he
    split_ifs at he with h
    exact (Except.error.inj he).symm
  · intro ids s' hok
    rw [AgentsInPolygon_eq] at hok
    split_ifs at hok with h
    simp only [Except.ok.injEq, Prod.mk.injEq] at hok
    obtain ⟨rfl, rfl⟩ := hok
    refine ⟨rfl, by simpa using h, rfl, ?_⟩
    intro id hid
    obtain ⟨agent, ha, rfl⟩ := List.mem_map.1 hid
    obtain ⟨hc, hin⟩ := List.mem_filter.1 ha
    exact ⟨agent, (List.mem_filter.1 hc).1, rfl, hin⟩
  · intro hconvex hcircle
    refine ⟨?_, ?_, ?_⟩
    · rw [AgentsInPolygon_eq, if_neg (by simp [hconvex])]
      congr 3
      simp only [NeighborhoodSearch.GetNeighboringAgents, List.filter_filter]
      apply List.filter_congr
      intro agent ha
      cases hin : ext.IsInside polygon agent.pos
      · rfl
      · simp only [Bool.true_and, decide_eq_true_eq]
        exact hcircle agent ha hin
    · intro agent ha hin
      exact List.mem_map.2 ⟨agent, List.mem_filter.2 ⟨ha, hin⟩, rfl⟩
    · intro hnodup
      exact List.Nodup.sublist ((List.filter_sublist _).map _) hnodup

end Polygon

section PolygonRuns

/-- The result of `AgentsInPolygon` at the unit square and the agents 1, at
(0.6, 0.8) inside it, and 2, at (5, 0) outside: the result is the id 1; and at
a polygon of two corners, which is not convex. -/
theorem Scenario.AgentsInPolygon_run :
    AgentsInPolygon (Scenario.ext Real.sqrt)
        (Scenario.sim [Scenario.agent 1 ⟨3 / 5, 4 / 5⟩, Scenario.agent 2 ⟨5, 0⟩] [])
        [⟨0, 0⟩, ⟨1, 0⟩, ⟨1, 1⟩, ⟨0, 1⟩]
      = .ok ([1], Scenario.sim [Scenario.agent 1 ⟨3 / 5, 4 / 5⟩, Scenario.agent 2 ⟨5, 0⟩] [])
    ∧ AgentsInPolygon (Scenario.ext Real.sqrt)
        (Scenario.sim [Scenario.agent 1 ⟨3 / 5, 4 / 5⟩, Scenario.agent 2 ⟨5, 0⟩] [])
        [⟨0, 0⟩, ⟨1, 0⟩]
      = .error (Scenario.sim [Scenario.agent 1 ⟨3 / 5, 4 / 5⟩, Scenario.agent 2 ⟨5, 0⟩] []) := by
  have hrot1 : ([⟨0, 0⟩, ⟨1, 0⟩, ⟨1, 1⟩, ⟨0, 1⟩] : List (Point ℝ)).rotate 1
      = [⟨1, 0⟩, ⟨1, 1⟩, ⟨0, 1⟩, ⟨0, 0⟩] := rfl
  have hrot2 : ([⟨0, 0⟩, ⟨1, 0⟩, ⟨1, 1⟩, ⟨0, 1⟩] : List (Point ℝ)).rotate 2
      = [⟨1, 1⟩, ⟨0, 1⟩, ⟨0, 0⟩, ⟨1, 0⟩] := rfl
  have hin1 : (Scenario.ext Real.sqrt).IsInside [⟨0, 0⟩, ⟨1, 0⟩, ⟨1, 1⟩, ⟨0, 1⟩]
      (⟨3 / 5, 4 / 5⟩ : Point ℝ) = true := by
    simp only [Scenario.ext, Scenario.edges, Scenario.cross, hrot1, List.zip_cons_cons,
      List.zip_nil_right, List.all_cons, List.all_nil]
    norm_num
  have hin2 : (Scenario.ext Real.sqrt).IsInside [⟨0, 0⟩, ⟨1, 0⟩, ⟨1, 1⟩, ⟨0, 1⟩]
      (⟨5, 0⟩ : Point ℝ) = false := by
    simp only [Scenario.ext, Scenario.edges, Scenario.cross, hrot1, List.zip_cons_cons,
      List.zip_nil_right, List.all_cons, List.all_nil]
    norm_num
  have hconvex : (Scenario.ext Real.sqrt).IsConvex [⟨0, 0⟩, ⟨1, 0⟩, ⟨1, 1⟩, ⟨0, 1⟩] = true := by
    simp only [Scenario.ext, Scenario.edges, Scenario.cross, hrot1, hrot2, List.zip_cons_cons,
      List.zip_nil_right, List.all_cons, List.all_nil, List.length_cons, List.length_nil]
    norm_num
  have hcircle : (Scenario.ext Real.sqrt).ContainingCircle [⟨0, 0⟩, ⟨1, 0⟩, ⟨1, 1⟩, ⟨0, 1⟩]
      = (⟨0, 0⟩, 4) := by
    simp [Scenario.ext]
    norm_num
  constructor
  · have h := ((AgentsInPolygon_result (Scenario.ext Real.sqrt)
      (Scenario.sim [Scenario.agent 1 ⟨3 / 5, 4 / 5⟩, Scenario.agent 2 ⟨5, 0⟩] [])
      [⟨0, 0⟩, ⟨1, 0⟩, ⟨1, 1⟩, ⟨0, 1⟩]).2.2.2 hconvex (by
        intro agent ha hin
        simp only [Scenario.sim, List.mem_cons, List.mem_singleton, List.not_mem_nil,
          or_false] at ha
        rcases ha with rfl | rfl
        · rw [hcircle]
          simp only [Scenario.agent, VelocityModel.Point.sub_def, sub_zero,
            (show (Scenario.ext Real.sqrt).sqrt = Real.sqrt from rfl)]
          rw [VelocityModel.real_norm _ _ 1 (by norm_num) (by norm_num)]
          norm_num
        · simp only [Scenario.agent] at hin
          rw [hin2] at hin
          exact absurd hin (by simp))).1
    rw [h]
    simp [Scenario.sim, Scenario.agent, hin1, hin2]
  · exact (AgentsInPolygon_result (Scenario.ext Real.sqrt)
      (Scenario.sim [Scenario.agent 1 ⟨3 / 5, 4 / 5⟩, Scenario.agent 2 ⟨5, 0⟩] [])
      [⟨0, 0⟩, ⟨1, 0⟩]).1.2 (by simp [Scenario.ext])

end PolygonRuns

end LibSimulator

namespace LibSimulator

open VelocityModel (Point)

section Journeys

variable {K : Type} [LinearOrderedField K]

/-- The rule that `AddJourney` builds follows the description, and selects
registered stages only. -/
theorem AddJourney_transition_some (s : Simulation K) (id : Nat) (desc : TransitionDescription)
    (t : Transition) (h : AddJourney_transition s id desc = some t) :
    (desc = TransitionDescription.NonTransitionDescription → t = Transition.FixedTransition id)
    ∧ (∀ next, desc = TransitionDescription.FixedTransitionDescription next →
      t = Transition.FixedTransition next)
    ∧ (∀ ws, desc = TransitionDescription.RoundRobinTransitionDescription ws →
      t = Transition.RoundRobinTransition ws 0)
    ∧ ∀ x ∈ t.targets, s.hasStage x = true := by
  cases desc with
  | NonTransitionDescription =>
    simp only [AddJourney_transition] at h
    split_ifs at h with hs
    obtain rfl := Option.some.inj h
    refine ⟨?_, ?_, ?_, ?_⟩
    · intro _
      rfl
    · intro n hd
      cases hd
    · intro w hd
      cases hd
    · intro x hx
      simp only [Transition.targets, List.mem_singleton] at hx
      rw [hx]
      exact hs
  | FixedTransitionDescription next =>
    simp only [AddJourney_transition] at h
    split_ifs at h with hs
    obtain rfl := Option.some.inj h
    refine ⟨?_, ?_, ?_, ?_⟩
    · intro hd
      cases hd
    · intro n hd
      cases hd
      rfl
    · intro w hd
      cases hd
    · intro x hx
      simp only [Transition.targets, List.mem_singleton] at hx
      rw [hx]
      exact hs
  | RoundRobinTransitionDescription ws =>
    simp only [AddJourney_transition] at h
    split_ifs at h with hs
    obtain rfl := Option.some.inj h
    refine ⟨?_, ?_, ?_, ?_⟩
    · intro hd
      cases hd
    · intro n hd
      cases hd
    · intro w hd
      cases hd
      rfl
    · intro x hx
      simp only [Transition.targets, List.mem_map] at hx
      obtain ⟨pair, hp, rfl⟩ := hx
      exact List.all_eq_true.1 hs pair hp

/-- The rule is built exactly when every stage that the description mentions
is registered. -/
theorem AddJourney_transition_none (s : Simulation K) (id : Nat) (desc : TransitionDescription) :
    AddJourney_transition s id desc = none
      ↔ (desc = TransitionDescription.NonTransitionDescription ∧ s.hasStage id = false)
        ∨ (∃ next, desc = TransitionDescription.FixedTransitionDescription next
          ∧ s.hasStage next = false)
        ∨ (∃ ws pair, desc = TransitionDescription.RoundRobinTransitionDescription ws
          ∧ pair ∈ ws ∧ s.hasStage pair.1 = false) := by
  cases desc with
  | NonTransitionDescription =>
    simp only [AddJourney_transition]
    split_ifs with hs <;> simp [hs]
  | FixedTransitionDescription next =>
    simp only [AddJourney_transition]
    split_ifs with hs <;> simp [hs]
  | RoundRobinTransitionDescription ws =>
    simp only [AddJourney_transition]
    split_ifs with hs
    · constructor
      · intro h
        exact absurd h (by simp)
      · rintro (⟨hd, -⟩ | ⟨n, hd, -⟩ | ⟨ws', pair, hd, hp, hn⟩)
        · cases hd
        · cases hd
        · cases hd
          have := List.all_eq_true.1 hs pair hp
          rw [hn] at this
          exact absurd this (by simp)
    · simp only [true_iff]
      right
      right
      simp only [List.all_eq_true, not_forall] at hs
      obtain ⟨pair, hp, hn⟩ := hs
      exact ⟨ws, pair, rfl, hp, by simpa using hn⟩

/-- The node that `AddJourney` builds. -/
theorem AddJourney_node_some (s : Simulation K) (pair : Nat × TransitionDescription)
    (node : Nat × JourneyNode) (h : AddJourney_node s pair = some node) :
    node.1 = pair.1 ∧ node.2.stage = pair.1 ∧ s.hasStage pair.1 = true
      ∧ AddJourney_transition s pair.1 pair.2 = some node.2.transition := by
  unfold AddJourney_node at h
  split_ifs at h with hs
  split at h
  · exact absurd h (by simp)
  · rename_i t ht
    obtain rfl := Option.some.inj h
    exact ⟨rfl, rfl, by simpa using hs, ht⟩

/-- The nodes that `AddJourney` builds, entry by entry. -/
theorem AddJourney_nodes_some (s : Simulation K) :
    ∀ (stages : List (Nat × TransitionDescription)) (nodes : List (Nat × JourneyNode)),
      AddJourney_nodes s stages = some nodes →
      List.Forall₂ (fun pair node => AddJourney_node s pair = some node) stages nodes := by
  intro stages
  induction stages with
  | nil =>
    intro nodes h
    simp only [AddJourney_nodes, Option.some.injEq] at h
    subst h
    exact List.Forall₂.nil
  | cons pair rest ih =>
    intro nodes h
    simp only [AddJourney_nodes] at h
    split at h
    · exact absurd h (by simp)
    · rename_i node hn
      split at h
      · exact absurd h (by simp)
      · rename_i tail ht
        obtain rfl := Option.some.inj h
        exact List.Forall₂.cons hn (ih tail ht)

/-- The loop throws exactly when one entry throws. -/
theorem AddJourney_nodes_none (s : Simulation K) :
    ∀ stages : List (Nat × TransitionDescription),
      AddJourney_nodes s stages = none ↔ ∃ pair ∈ stages, AddJourney_node s pair = none := by
  intro stages
  induction stages with
  | nil => simp [AddJourney_nodes]
  | cons pair rest ih =>
    simp only [AddJourney_nodes, List.mem_cons, exists_eq_or_imp]
    cases hn : AddJourney_node s pair with
    | none => simp
    | some node =>
      cases ht : AddJourney_nodes s rest with
      | none =>
        simp only [true_iff]
        right
        exact ih.1 ht
      | some tail =>
        simp only [reduceCtorEq, false_or, false_iff]
        intro hex
        rw [ih.2 hex] at ht
        exact absurd ht (by simp)

/-- An entry throws exactly when it mentions a stage that is not registered. -/
theorem AddJourney_node_none (s : Simulation K) (pair : Nat × TransitionDescription) :
    AddJourney_node s pair = none
      ↔ s.hasStage pair.1 = false
        ∨ (∃ next, pair.2 = TransitionDescription.FixedTransitionDescription next
          ∧ s.hasStage next = false)
        ∨ (∃ ws entry, pair.2 = TransitionDescription.RoundRobinTransitionDescription ws
          ∧ entry ∈ ws ∧ s.hasStage entry.1 = false) := by
  unfold AddJourney_node
  split_ifs with hs
  · simp [hs]
  · cases ht : AddJourney_transition s pair.1 pair.2 with
    | none =>
      simp only [true_iff]
      rcases (AddJourney_transition_none s pair.1 pair.2).1 ht with ⟨-, h⟩ | h | h
      · exact Or.inl h
      · exact Or.inr (Or.inl h)
      · exact Or.inr (Or.inr h)
    | some t =>
      simp only [reduceCtorEq, false_iff]
      rintro (h | h | h)
      · exact hs h
      · have := (AddJourney_transition_none s pair.1 pair.2).2 (Or.inr (Or.inl h))
        rw [ht] at this
        exact absurd this (by simp)
      · have := (AddJourney_transition_none s pair.1 pair.2).2 (Or.inr (Or.inr h))
        rw [ht] at this
        exact absurd this (by simp)

end Journeys

end LibSimulator

namespace LibSimulator

open VelocityModel (Point)

section JourneysClaims

variable {K : Type} [LinearOrderedField K]

/-- The stages after `AddStage`: the new one and those from before. -/
theorem AddStage_ok (s s' : Simulation K) (desc : StageDescription K) (id r : Nat)
    (h : AddStage s desc id = .ok (r, s')) :
    r = id ∧ s.hasStage id = false ∧ s'._journeys = s._journeys
      ∧ ∀ x, s'.hasStage x = true ↔ (x = id ∨ s.hasStage x = true) := by
  unfold AddStage at h
  simp only [] at h
  split_ifs at h with hs
  simp only [Except.ok.injEq, Prod.mk.injEq] at h
  obtain ⟨rfl, rfl⟩ := h
  refine ⟨rfl, by simpa using hs, rfl, ?_⟩
  intro x
  simp only [Simulation.hasStage, List.any_eq_true, List.mem_orderedInsert, beq_iff_eq]
  constructor
  · rintro ⟨entry, he | he, hx⟩
    · left
      rw [← hx, he]
    · right
      exact ⟨entry, he, hx⟩
  · rintro (hx | ⟨entry, he, hx⟩)
    · exact ⟨_, Or.inl rfl, hx.symm⟩
    · exact ⟨entry, Or.inr he, hx⟩

/-- C24: `AddJourney` throws, and leaves the simulation as it was, so
registers no journey, when an entry of the description mentions a stage that
is not registered, be it as node, as the next stage of a fixed transition, or
as a member of a round robin; it returns when every mentioned stage is
registered.  When it returns, the new journey, of the given id, has one node
for each entry, in their order; every node and every stage that the rule of
a node can select is a registered stage, and the rule of a node described
without transition selects the node itself.  The registered stages are those
that `AddStage` has returned: a successful `AddStage` registers its id, which
was not registered before, and keeps the others; a failed one registers none. -/
theorem C24_AddJourney (s : Simulation K) (stages : List (Nat × TransitionDescription))
    (id : Nat) :
    (∀ pair ∈ stages,
      (s.hasStage pair.1 = false
        ∨ (∃ next, pair.2 = TransitionDescription.FixedTransitionDescription next
          ∧ s.hasStage next = false)
        ∨ (∃ ws entry, pair.2 = TransitionDescription.RoundRobinTransitionDescription ws
          ∧ entry ∈ ws ∧ s.hasStage entry.1 = false)) →
      AddJourney s stages id = .error s)
    ∧ (∀ e, AddJourney s stages id = .error e → e = s)
    ∧ ((∀ pair ∈ stages,
        s.hasStage pair.1 = true
        ∧ (∀ next, pair.2 = TransitionDescription.FixedTransitionDescription next →
          s.hasStage next = true)
        ∧ (∀ ws entry, pair.2 = TransitionDescription.RoundRobinTransitionDescription ws →
          entry ∈ ws → s.hasStage entry.1 = true)) →
      ∃ s', AddJourney s stages id = .ok (id, s'))
    ∧ (∀ jid s', AddJourney s stages id = .ok (jid, s') →
      jid = id ∧ s'._stages = s._stages
      ∧ ∃ nodes : List (Nat × JourneyNode),
        s'._journeys = s._journeys ++ [(id, { id := id, stages := nodes })]
        ∧ List.Forall₂
          (fun pair node =>
            node.1 = pair.1 ∧ node.2.stage = pair.1 ∧ s'.hasStage node.1 = true
            ∧ (∀ x ∈ node.2.transition.targets, s'.hasStage x = true)
            ∧ (pair.2 = TransitionDescription.NonTransitionDescription →
              node.2.transition = Transition.FixedTransition pair.1
              ∧ node.2.transition.targets = [pair.1])
            ∧ (∀ next, pair.2 = TransitionDescription.FixedTransitionDescription next →
              node.2.transition = Transition.FixedTransition next)
            ∧ (∀ ws, pair.2 = TransitionDescription.RoundRobinTransitionDescription ws →
              node.2.transition = Transition.RoundRobinTransition ws 0))
          stages nodes)
    ∧ (∀ (desc : StageDescription K) (sid r : Nat) (s' : Simulation K),
      AddStage s desc sid = .ok (r, s') →
      r = sid ∧ s.hasStage sid = false
      ∧ ∀ x, s'.hasStage x = true ↔ (x = sid ∨ s.hasStage x = true))
    ∧ (∀ (desc : StageDescription K) (sid : Nat) (e : Simulation K),
      AddStage s desc sid = .error e → e = s ∧ s.hasStage sid = true) := by
  refine ⟨?_, ?_, ?_, ?_, ?_, ?_⟩
  · intro pair hp hbad
    have hn : AddJourney_nodes s stages = none :=
      (AddJourney_nodes_none s stages).2 ⟨pair, hp, (AddJourney_node_none s pair).2 hbad⟩
    simp only [AddJourney, hn]
  · intro e h
    unfold AddJourney at h
    split at h
    · exact (Except.error.inj h).symm
    · exact absurd h (by simp)
  · intro hall
    cases hn : AddJourney_nodes s stages with
    | none =>
      obtain ⟨pair, hp, hnode⟩ := (AddJourney_nodes_none s stages).1 hn
      obtain ⟨h1, h2, h3⟩ := hall pair hp
      rcases (AddJourney_node_none s pair).1 hnode with h | ⟨next, hd, h⟩ | ⟨ws, entry, hd, he, h⟩
      · rw [h1] at h
        exact absurd h (by simp)
      · rw [h2 next hd] at h
        exact absurd h (by simp)
      · rw [h3 ws entry hd he] at h
        exact absurd h (by simp)
    | some nodes =>
      simp only [AddJourney, hn]
      exact ⟨_, rfl⟩
  · intro jid s' h
    unfold AddJourney at h
    split at h
    · exact absurd h (by simp)
    · rename_i nodes hn
      simp only [Except.ok.injEq, Prod.mk.injEq] at h
      obtain ⟨rfl, rfl⟩ := h
      refine ⟨rfl, rfl, nodes, rfl, ?_⟩
      refine (AddJourney_nodes_some s stages nodes hn).imp ?_
      intro pair node hnode
      obtain ⟨h1, h2, h3, h4⟩ := AddJourney_node_some s pair node hnode
      obtain ⟨t1, t2, t3, t4⟩ := AddJourney_transition_some s pair.1 pair.2 _ h4
      refine ⟨h1, h2, ?_, t4, ?_, t2, t3⟩
      · rw [h1]
        exact h3
      · intro hd
        have := t1 hd
        rw [this]
        exact ⟨rfl, rfl⟩
  · intro desc sid r s' h
    obtain ⟨h1, h2, -, h4⟩ := AddStage_ok s s' desc sid r h
    exact ⟨h1, h2, h4⟩
  · intro desc sid e h
    unfold AddStage at h
    simp only [] at h
    split_ifs at h with hs
    exact ⟨(Except.error.inj h).symm, hs⟩

end JourneysClaims

section JourneysRuns

/-- C24, at a journey over the three stages of the concrete runs, and at a
journey whose fixed transition names the stage 9, which no `AddStage` has
returned. -/
theorem C24_AddJourney_witness :
    (∃ s' : Simulation ℝ,
      AddJourney (Scenario.sim [] [])
        [(1, TransitionDescription.FixedTransitionDescription 2),
          (2, TransitionDescription.RoundRobinTransitionDescription [(1, 1), (3, 2)]),
          (3, TransitionDescription.NonTransitionDescription)] 5 = .ok (5, s'))
    ∧ AddJourney (Scenario.sim [] [] : Simulation ℝ)
        [(1, TransitionDescription.FixedTransitionDescription 9)] 5
      = .error (Scenario.sim [] []) := by
  constructor
  · apply (C24_AddJourney (Scenario.sim [] [] : Simulation ℝ) _ 5).2.2.1
    intro pair hp
    simp only [List.mem_cons, List.mem_singleton, List.not_mem_nil, or_false] at hp
    rcases hp with rfl | rfl | rfl
    · refine ⟨rfl, ?_, ?_⟩
      · intro next hd
        cases hd
        rfl
      · intro ws entry hd
        cases hd
    · refine ⟨rfl, ?_, ?_⟩
      · intro next hd
        cases hd
      · intro ws entry hd he
        cases hd
        simp only [List.mem_cons, List.mem_singleton, List.not_mem_nil, or_false] at he
        rcases he with rfl | rfl <;> rfl
    · refine ⟨rfl, ?_, ?_⟩
      · intro next hd
        cases hd
      · intro ws entry hd
        cases hd
  · exact (C24_AddJourney (Scenario.sim [] [] : Simulation ℝ) _ 5).1
      (1, TransitionDescription.FixedTransitionDescription 9) (List.mem_singleton.2 rfl)
      (Or.inr (Or.inl ⟨9, rfl, rfl⟩))

end JourneysRuns

end LibSimulator
